import Mathlib

/-!
# nvi2, `common/line.c`: the line-addressed document store

A shallow embedding of the line layer of the editor: the single-record cache,
the line-count cache, the look-aside into the text input queue, the four
mutations (`db_insert`, `db_append`, `db_delete`, `db_set`), the queries
(`db_get`, `db_eget`, `db_exist`, `db_last`) and the screen fan-out
(`scr_update`).

Conventions of the embedding.

* The file is compiled in its `DB_VERSION_MAJOR` variant (cursor based
  Berkeley DB interface); the `#else` branches are not modelled.
* `recno_t` is an unsigned 32-bit integer: values are `Nat`, arithmetic is
  taken modulo `2 ^ 32` explicitly (`recno`, `recno_sub`).
* The record store behind `ep->db` is a list of records, record `n` being the
  `n`-th element counted from 1 (a renumbering recno database).
* Calls to collaborators that live outside `line.c` (`mark_insdel`,
  `ex_g_insdel`, `log_line`, `rcv_init`, `vs_change`, the message queue) are
  recorded, in order, in `World.trace`; whether a collaborator fails is read
  from the environment `Env`.
* A C function that dereferences a null or dangling pointer has no result:
  the functions that can do so return `Option`, with `none` for that case.
-/

namespace Nvi

/-- A record as stored in the database (`char *` with a length). -/
abbrev Bytes := List Nat

/-- A line in the internal representation (`CHAR_T *` with a length). -/
abbrev Text := List Nat

/-- Reduction of a natural number to the range of `recno_t` (32 bits). -/
def recno (n : Nat) : Nat := n % 4294967296

/-- Unsigned 32-bit subtraction `a - b` on `recno_t`. -/
def recno_sub (a b : Nat) : Nat := (a % 4294967296 + 4294967296 - b % 4294967296) % 4294967296

/-- Line operations handed to the mark table, the global ranges and the screens. -/
inductive lnop_t where
  | LINE_APPEND
  | LINE_DELETE
  | LINE_INSERT
  | LINE_RESET
  deriving DecidableEq, Repr

/-- Actions handed to the undo log by `line.c`. -/
inductive log_t where
  | LOG_LINE_APPEND
  | LOG_LINE_DELETE
  | LOG_LINE_INSERT
  | LOG_LINE_RESET_B
  | LOG_LINE_RESET_F
  deriving DecidableEq, Repr

/-- The messages `line.c` sends to the message queue. -/
inductive Msg where
  /-- Message `ex_emsg(sp, NULL, EXM_NOFILEYET)`. -/
  | EXM_NOFILEYET
  /-- Message 008 of `db_err`: unable to retrieve line. -/
  | db_err (lno : Nat)
  /-- Message 324: conversion error on line. -/
  | conv_error (lno : Nat)
  /-- Message 003: unable to delete line. -/
  | unable_delete (lno : Nat)
  /-- Message 004: unable to append to line. -/
  | unable_append (lno : Nat)
  /-- Message 005: unable to insert at line. -/
  | unable_insert (lno : Nat)
  /-- Message 006: unable to store line. -/
  | unable_store (lno : Nat)
  /-- Message 007: unable to get last line. -/
  | unable_last
  deriving DecidableEq, Repr

/-- One call from `line.c` to a collaborator. -/
inductive Event where
  | msgq (m : Msg)
  | mark_insdel (op : lnop_t) (lno : Nat)
  | ex_g_insdel (op : lnop_t) (lno : Nat)
  | log_line (lno : Nat) (action : log_t)
  | rcv_init
  | vs_change (scr : Nat) (lno : Nat) (op : lnop_t)
  deriving DecidableEq, Repr

/-- An entry of the text input queue (`TEXT`): the line number it will occupy,
its buffer and its length. -/
structure TEXT where
  lno : Nat
  lb : Text
  len : Nat
  deriving DecidableEq, Repr

/-- The fields of `EXF` used by `line.c`. `db` is the content of the record
store behind `ep->db`. -/
structure EXF where
  db : List Bytes
  c_lp : Text
  c_len : Nat
  c_lno : Nat
  c_nlines : Nat
  refcnt : Nat
  F_FIRSTMODIFY : Bool
  F_MODIFIED : Bool
  deriving DecidableEq, Repr

/-- The fields of `SCR` used by `line.c`. `id` stands for the address of the
screen, `ep` for the pointer `sp->ep` (`none` is `NULL`). -/
structure SCR where
  id : Nat
  ep : Option Nat
  SC_EX : Bool
  SC_TINPUT : Bool
  SC_CONV_ERROR : Bool
  tiq : List TEXT
  deriving DecidableEq, Repr

/-- The memory a call works on: the screen `sp` of the call, the `EXF` that
`sp->ep` points to (meaningful when `sp.ep` is not `none`), the display queue
`sp->gp->dq`, and the trace of collaborator calls, oldest first. -/
structure World where
  sp : SCR
  exf : EXF
  dq : List SCR
  trace : List Event
  deriving DecidableEq, Repr

/-- What `line.c` takes from outside: the constant `OOBLNO`, the conversion
macros, and the outcome of every call that can fail. A `true` in a failure
field means that the call returns its error value.

* `OOBLNO`: the out-of-band line number (declared in a header, not in `line.c`).
* `file2int d`: `FILE2INT` on record `d`, as (failed, `wp[0..wlen)`).
* `int2file p`: `INT2FILE` on line `p`, the buffer `fp[0..flen)`; the callers
  do not test its result.
* `conv_copies`: whether `FILE2INT` hands back a buffer of its own
  (`wp != data.data`).
* `binc_err`: `BINC_GOTOW` cannot allocate.
* `db_get_err`, `db_del_err`, `db_put_err`, `db_cursor_err`, `dbc_get_err`,
  `dbc_put_err`: the store primitive fails with an error that is not
  `DB_NOTFOUND`, leaving the store as it was.
* `mark_insdel`, `ex_g_insdel`, `vs_change`: the collaborator returns nonzero. -/
structure Env where
  OOBLNO : Nat
  file2int : Bytes → Bool × Text
  int2file : Text → Bytes
  conv_copies : Bool
  binc_err : Bool
  db_get_err : Bool
  db_del_err : Bool
  db_put_err : Bool
  db_cursor_err : Bool
  dbc_get_err : Bool
  dbc_put_err : Bool
  mark_insdel : lnop_t → Nat → Bool
  ex_g_insdel : lnop_t → Nat → Bool
  vs_change : Nat → Nat → lnop_t → Bool

/-- Record one collaborator call. -/
def World.emit (w : World) (e : Event) : World :=
  { w with trace := w.trace ++ [e] }

/-! ## The record store

Modelled from the spec: the Berkeley DB recno database behind `ep->db` is a
library outside this repository; its primitives follow section 4.1 of the
specification (point get/put/delete, positional insert before/after, last
record), on records numbered densely from 1. -/

/-- Modelled from the spec: `DB->get` on key `lno` (section 4.1,
`get(line) -> Record | NotFound`); line 0 is never a record. -/
def recno_get (db : List Bytes) (lno : Nat) : Option Bytes :=
  if lno = 0 then none else db[lno - 1]?

/-- Modelled from the spec: `DB->put` on key `lno` with flags 0 (section 4.1,
`put(line, Record)`, overwrite existing); `none` when there is no such record. -/
def recno_put (db : List Bytes) (lno : Nat) (data : Bytes) : Option (List Bytes) :=
  if 1 ≤ lno ∧ lno ≤ db.length then some (db.set (lno - 1) data) else none

/-- Modelled from the spec: `DB->del` on key `lno` (section 4.1, `delete(line)`),
later records renumbering down by one; `none` when there is no such record. -/
def recno_del (db : List Bytes) (lno : Nat) : Option (List Bytes) :=
  if 1 ≤ lno ∧ lno ≤ db.length then some (db.eraseIdx (lno - 1)) else none

/-- Modelled from the spec: `DBC->c_put` with `DB_AFTER` on a cursor set at
record `lno` (section 4.1, `insertAfter`): the new record becomes record
`lno + 1`. -/
def recno_put_after (db : List Bytes) (lno : Nat) (data : Bytes) : List Bytes :=
  db.take lno ++ data :: db.drop lno

/-- Modelled from the spec: `DBC->c_put` with `DB_BEFORE` on a cursor set at
the first record (section 4.1, `insertBefore`): the new record becomes record 1. -/
def recno_put_before_first (db : List Bytes) (data : Bytes) : List Bytes :=
  data :: db

/-- Modelled from the spec: `DB->put` with `DB_APPEND`: the new record goes
after the last one. -/
def recno_put_append (db : List Bytes) (data : Bytes) : List Bytes :=
  db ++ [data]

/-! ## scr_update -/

/-- The `TAILQ_FOREACH` loop of `scr_update` over the display queue: every
screen other than `sp` that is bound to the same file is refreshed; the loop
stops at the first refresh that fails. The result is (failed, calls made). -/
def scr_update_dq (env : Env) (sp : SCR) (lno : Nat) (op : lnop_t) :
    List SCR → Bool × List Event
  | [] => (false, [])
  | tsp :: rest =>
    if sp.id ≠ tsp.id ∧ tsp.ep = sp.ep then
      if env.vs_change tsp.id lno op then
        (true, [Event.vs_change tsp.id lno op])
      else
        ((scr_update_dq env sp lno op rest).1,
          Event.vs_change tsp.id lno op :: (scr_update_dq env sp lno op rest).2)
    else scr_update_dq env sp lno op rest

/-- The function `scr_update`: update all of the screens that are backed by
the file that just changed. Called with `sp->ep` not null. -/
def scr_update (env : Env) (w : World) (lno : Nat) (op : lnop_t) (current : Bool) :
    World × Nat :=
  if w.sp.SC_EX then (w, 0)
  else
    let r := if w.exf.refcnt ≠ 1 then scr_update_dq env w.sp lno op w.dq else (false, [])
    let w1 : World := { w with trace := w.trace ++ r.2 }
    if r.1 then (w1, 1)
    else if current then
      (w1.emit (Event.vs_change w.sp.id lno op), if env.vs_change w.sp.id lno op then 1 else 0)
    else (w1, 0)

/-! ## db_get -/

/-- The `flags` argument of `db_get`. -/
structure DBG where
  DBG_FATAL : Bool
  DBG_NOCACHE : Bool
  deriving DecidableEq, Repr

/-- What `db_get` hands back: its return value, the line stored through `pp`
(`none` is `NULL`) and the length stored through `lenp`. -/
structure GetRes where
  rval : Nat
  p : Option Text
  len : Nat
  deriving DecidableEq, Repr

/-- The exit `err3` of `db_get`: length 0, null pointer, return 1. -/
def GetRes.err3 : GetRes := { rval := 1, p := none, len := 0 }

/-- The part of `db_get` from the label `nocache`: get the line from the
underlying database, convert it and reset the cache. -/
def db_get_nocache (env : Env) (w : World) (lno : Nat) (flags : DBG) : World × GetRes :=
  if env.db_get_err then
    (w.emit (Event.msgq (Msg.db_err lno)), GetRes.err3)
  else
    match recno_get w.exf.db lno with
    | none =>
      (if flags.DBG_FATAL then w.emit (Event.msgq (Msg.db_err lno)) else w, GetRes.err3)
    | some data =>
      if (env.file2int data).1 then
        (if w.sp.SC_CONV_ERROR then w
          else { w with sp := { w.sp with SC_CONV_ERROR := true } }.emit
            (Event.msgq (Msg.conv_error lno)),
          GetRes.err3)
      else if env.conv_copies && env.binc_err then
        (w, GetRes.err3)
      else
        ({ w with exf := { w.exf with
              c_lp := (env.file2int data).2
              c_lno := lno
              c_len := (env.file2int data).2.length } },
          { rval := 0, p := some (env.file2int data).2, len := (env.file2int data).2.length })

/-- The part of `db_get` that looks aside into the cache and falls through
to the database. -/
def db_get_cache (env : Env) (w : World) (lno : Nat) (flags : DBG) : World × GetRes :=
  if lno = w.exf.c_lno then
    (w, { rval := 0, p := some w.exf.c_lp, len := w.exf.c_len })
  else
    db_get_nocache env { w with exf := { w.exf with c_lno := env.OOBLNO } } lno flags

/-- The function `db_get`: look in the text buffers for a line, followed by
the cache, followed by the database. `none` when the input queue is read
while empty, or scanned for a line it does not hold. -/
def db_get (env : Env) (w : World) (lno : Nat) (flags : DBG) : Option (World × GetRes) :=
  if lno = 0 then
    some (if flags.DBG_FATAL then w.emit (Event.msgq (Msg.db_err lno)) else w, GetRes.err3)
  else
    match w.sp.ep with
    | none => some (w.emit (Event.msgq Msg.EXM_NOFILEYET), GetRes.err3)
    | some _ =>
      if flags.DBG_NOCACHE then some (db_get_nocache env w lno flags)
      else if w.sp.SC_TINPUT then
        match w.sp.tiq.head?, w.sp.tiq.getLast? with
        | some t1, some t2 =>
          if t1.lno ≤ lno ∧ lno ≤ t2.lno then
            match w.sp.tiq.find? (fun tp => tp.lno == lno) with
            | some tp => some (w, { rval := 0, p := some tp.lb, len := tp.len })
            | none => none
          else if lno > t2.lno then
            some (db_get_cache env w (recno_sub lno (recno_sub t2.lno t1.lno)) flags)
          else some (db_get_cache env w lno flags)
        | _, _ => none
      else some (db_get_cache env w lno flags)

/-! ## db_set -/

/-- Outcome of the block of a mutation that updates the file: the new store
content, a failure reported with the message of the mutation, or a failure
returned without a message (the cursor could not be opened). -/
inductive StoreUpd where
  | ok (db : List Bytes)
  | failed
  | failed_silent
  deriving DecidableEq, Repr

/-- The block "Update file" of `db_set`: `ep->db->put` on key `lno`. -/
def db_set_store (env : Env) (db : List Bytes) (lno : Nat) (fp : Bytes) : StoreUpd :=
  if env.db_put_err then StoreUpd.failed
  else match recno_put db lno fp with
    | none => StoreUpd.failed
    | some db1 => StoreUpd.ok db1

/-- The function `db_set`: store a line in the file. -/
def db_set (env : Env) (w : World) (lno : Nat) (p : Text) : World × Nat :=
  match w.sp.ep with
  | none => (w.emit (Event.msgq Msg.EXM_NOFILEYET), 1)
  | some _ =>
    let w1 := w.emit (Event.log_line lno log_t.LOG_LINE_RESET_B)
    match db_set_store env w1.exf.db lno (env.int2file p) with
    | StoreUpd.ok db1 =>
      let w2 : World := { w1 with exf := { w1.exf with
        db := db1
        c_lno := if lno = w1.exf.c_lno then env.OOBLNO else w1.exf.c_lno } }
      let w3 := if w2.exf.F_FIRSTMODIFY then w2.emit Event.rcv_init else w2
      let w4 : World := { w3 with exf := { w3.exf with F_MODIFIED := true } }
      let w5 := w4.emit (Event.log_line lno log_t.LOG_LINE_RESET_F)
      scr_update env w5 lno lnop_t.LINE_RESET true
    | _ => (w1.emit (Event.msgq (Msg.unable_store lno)), 1)

/-! ## db_delete, db_append, db_insert -/


/-- The block "Update file" of `db_delete`: `ep->db->del` on key `lno`. -/
def db_delete_store (env : Env) (db : List Bytes) (lno : Nat) : StoreUpd :=
  if env.db_del_err then StoreUpd.failed
  else match recno_del db lno with
    | none => StoreUpd.failed
    | some db1 => StoreUpd.ok db1

/-- The function `db_delete`: delete a line from the file. -/
def db_delete (env : Env) (w : World) (lno : Nat) : World × Nat :=
  match w.sp.ep with
  | none => (w.emit (Event.msgq Msg.EXM_NOFILEYET), 1)
  | some _ =>
    let w1 := w.emit (Event.mark_insdel lnop_t.LINE_DELETE lno)
    if env.mark_insdel lnop_t.LINE_DELETE lno then (w1, 1)
    else
      let w2 := w1.emit (Event.ex_g_insdel lnop_t.LINE_DELETE lno)
      if env.ex_g_insdel lnop_t.LINE_DELETE lno then (w2, 1)
      else
        let w3 := w2.emit (Event.log_line lno log_t.LOG_LINE_DELETE)
        match db_delete_store env w3.exf.db lno with
        | StoreUpd.ok db1 =>
          let w4 : World := { w3 with exf := { w3.exf with
            db := db1
            c_lno := if lno ≤ w3.exf.c_lno then env.OOBLNO else w3.exf.c_lno
            c_nlines := if w3.exf.c_nlines ≠ env.OOBLNO
              then recno_sub w3.exf.c_nlines 1 else w3.exf.c_nlines } }
          let w5 := if w4.exf.F_FIRSTMODIFY then w4.emit Event.rcv_init else w4
          let w6 : World := { w5 with exf := { w5.exf with F_MODIFIED := true } }
          scr_update env w6 lno lnop_t.LINE_DELETE true
        | _ => (w3.emit (Event.msgq (Msg.unable_delete lno)), 1)

/-- The cursor sequence shared by `db_append` (called with `key = lno`) and
`db_insert` (called with `key = lno - 1`): open a cursor; for a key other
than 0 set the cursor on record `key` and put the new record after it; for
key 0 look for the first record and put the new record before it, or append
to the store when there is no first record. -/
def cursor_put (env : Env) (db : List Bytes) (key : Nat) (fp : Bytes) : StoreUpd :=
  if env.db_cursor_err then StoreUpd.failed_silent
  else if key ≠ 0 then
    if env.dbc_get_err then StoreUpd.failed
    else match recno_get db key with
      | none => StoreUpd.failed
      | some _ =>
        if env.dbc_put_err then StoreUpd.failed
        else StoreUpd.ok (recno_put_after db key fp)
  else
    if env.dbc_get_err then StoreUpd.failed
    else match db with
      | [] =>
        if env.db_put_err then StoreUpd.failed
        else StoreUpd.ok (recno_put_append db fp)
      | _ :: _ =>
        if env.dbc_put_err then StoreUpd.failed
        else StoreUpd.ok (recno_put_before_first db fp)

/-- The block "Update file" of `db_append`. -/
def db_append_store (env : Env) (db : List Bytes) (lno : Nat) (fp : Bytes) : StoreUpd :=
  cursor_put env db lno fp

/-- The function `db_append`: append a line into the file, after line `lno`. -/
def db_append (env : Env) (w : World) (update : Bool) (lno : Nat) (p : Text) : World × Nat :=
  match w.sp.ep with
  | none => (w.emit (Event.msgq Msg.EXM_NOFILEYET), 1)
  | some _ =>
    match db_append_store env w.exf.db lno (env.int2file p) with
    | StoreUpd.failed_silent => (w, 1)
    | StoreUpd.failed => (w.emit (Event.msgq (Msg.unable_append lno)), 1)
    | StoreUpd.ok db1 =>
      let w1 : World := { w with exf := { w.exf with
        db := db1
        c_lno := if lno < w.exf.c_lno then env.OOBLNO else w.exf.c_lno
        c_nlines := if w.exf.c_nlines ≠ env.OOBLNO
          then recno (w.exf.c_nlines + 1) else w.exf.c_nlines } }
      let w2 := if w1.exf.F_FIRSTMODIFY then w1.emit Event.rcv_init else w1
      let w3 : World := { w2 with exf := { w2.exf with F_MODIFIED := true } }
      let w4 := w3.emit (Event.log_line (recno (lno + 1)) log_t.LOG_LINE_APPEND)
      let w5 := w4.emit (Event.mark_insdel lnop_t.LINE_INSERT (recno (lno + 1)))
      let rval1 := env.mark_insdel lnop_t.LINE_INSERT (recno (lno + 1))
      let w6 := w5.emit (Event.ex_g_insdel lnop_t.LINE_INSERT (recno (lno + 1)))
      let rval2 := env.ex_g_insdel lnop_t.LINE_INSERT (recno (lno + 1))
      let r := scr_update env w6 lno lnop_t.LINE_APPEND update
      (r.1, if r.2 ≠ 0 ∨ rval1 ∨ rval2 then 1 else 0)

/-- The block "Update file" of `db_insert`: the cursor sequence on the key
`lno1 = lno - 1`, computed in `recno_t`. -/
def db_insert_store (env : Env) (db : List Bytes) (lno : Nat) (fp : Bytes) : StoreUpd :=
  cursor_put env db (recno_sub lno 1) fp

/-- The function `db_insert`: insert a line into the file, before line `lno`. -/
def db_insert (env : Env) (w : World) (lno : Nat) (p : Text) : World × Nat :=
  match w.sp.ep with
  | none => (w.emit (Event.msgq Msg.EXM_NOFILEYET), 1)
  | some _ =>
    match db_insert_store env w.exf.db lno (env.int2file p) with
    | StoreUpd.failed_silent => (w, 1)
    | StoreUpd.failed => (w.emit (Event.msgq (Msg.unable_insert lno)), 1)
    | StoreUpd.ok db1 =>
      let w1 : World := { w with exf := { w.exf with
        db := db1
        c_lno := if lno ≥ w.exf.c_lno then env.OOBLNO else w.exf.c_lno
        c_nlines := if w.exf.c_nlines ≠ env.OOBLNO
          then recno (w.exf.c_nlines + 1) else w.exf.c_nlines } }
      let w2 := if w1.exf.F_FIRSTMODIFY then w1.emit Event.rcv_init else w1
      let w3 : World := { w2 with exf := { w2.exf with F_MODIFIED := true } }
      let w4 := w3.emit (Event.log_line lno log_t.LOG_LINE_INSERT)
      let w5 := w4.emit (Event.mark_insdel lnop_t.LINE_INSERT lno)
      let rval1 := env.mark_insdel lnop_t.LINE_INSERT lno
      let w6 := w5.emit (Event.ex_g_insdel lnop_t.LINE_INSERT lno)
      let rval2 := env.ex_g_insdel lnop_t.LINE_INSERT lno
      let r := scr_update env w6 lno lnop_t.LINE_INSERT true
      (r.1, if r.2 ≠ 0 ∨ rval1 ∨ rval2 then 1 else 0)

/-! ## db_last, db_exist, db_eget -/

/-- What `db_last` hands back: its return value and the number stored
through `lnop` (`none` when nothing is stored). -/
structure LastRes where
  rval : Nat
  lno : Option Nat
  deriving DecidableEq, Repr

/-- The function `db_last`: return the number of lines in the file. `none`
when the input queue is read while empty. -/
def db_last (env : Env) (w : World) : Option (World × LastRes) :=
  match w.sp.ep with
  | none => some (w.emit (Event.msgq Msg.EXM_NOFILEYET), { rval := 1, lno := none })
  | some _ =>
    if w.exf.c_nlines ≠ env.OOBLNO then
      if w.sp.SC_TINPUT then
        match w.sp.tiq.head?, w.sp.tiq.getLast? with
        | some t1, some t2 =>
          some (w, { rval := 0, lno := some (recno (w.exf.c_nlines + recno_sub t2.lno t1.lno)) })
        | _, _ => none
      else some (w, { rval := 0, lno := some w.exf.c_nlines })
    else if env.db_cursor_err ∨ env.dbc_get_err then
      some (w.emit (Event.msgq Msg.unable_last), { rval := 1, lno := some 0 })
    else
      match w.exf.db.getLast? with
      | none => some (w, { rval := 0, lno := some 0 })
      | some data =>
        let lno := w.exf.db.length
        if lno ≠ w.exf.c_lno ∧ env.conv_copies ∧ env.binc_err then
          some (w.emit (Event.msgq Msg.unable_last), { rval := 1, lno := some 0 })
        else
          let ep1 : EXF := if lno ≠ w.exf.c_lno
            then { w.exf with
              c_lp := (env.file2int data).2
              c_lno := lno
              c_len := (env.file2int data).2.length }
            else w.exf
          let w1 : World := { w with exf := { ep1 with c_nlines := lno } }
          if w.sp.SC_TINPUT then
            match w.sp.tiq.getLast? with
            | some t2 => some (w1, { rval := 0, lno := some (if t2.lno > lno then t2.lno else lno) })
            | none => none
          else some (w1, { rval := 0, lno := some lno })

/-- The function `db_exist`: return if a line exists. -/
def db_exist (env : Env) (w : World) (lno : Nat) : Option (World × Nat) :=
  match w.sp.ep with
  | none => some (w.emit (Event.msgq Msg.EXM_NOFILEYET), 1)
  | some _ =>
    if lno = env.OOBLNO then some (w, 0)
    else if w.exf.c_nlines ≠ env.OOBLNO then
      if w.sp.SC_TINPUT then
        match w.sp.tiq.head?, w.sp.tiq.getLast? with
        | some t1, some t2 =>
          some (w, if lno ≤ recno (w.exf.c_nlines + recno_sub t2.lno t1.lno) then 1 else 0)
        | _, _ => none
      else some (w, if lno ≤ w.exf.c_nlines then 1 else 0)
    else
      match db_get env w lno { DBG_FATAL := false, DBG_NOCACHE := false } with
      | none => none
      | some r => some (r.1, if r.2.rval = 0 then 1 else 0)

/-- What `db_eget` hands back: its return value, the outputs of the inner
`db_get`, and the flag stored through `isemptyp`. -/
structure EgetRes where
  rval : Nat
  p : Option Text
  len : Nat
  isempty : Nat
  deriving DecidableEq, Repr

/-- The function `db_eget`: front-end to `db_get`, special case handling for
empty files. -/
def db_eget (env : Env) (w : World) (lno : Nat) : Option (World × EgetRes) :=
  match db_get env w lno { DBG_FATAL := false, DBG_NOCACHE := false } with
  | none => none
  | some (w1, g) =>
    if g.rval = 0 then some (w1, { rval := 0, p := g.p, len := g.len, isempty := 0 })
    else if lno = 0 ∨ lno = 1 then
      match db_last env w1 with
      | none => none
      | some (w2, l) =>
        if l.rval ≠ 0 then some (w2, { rval := 1, p := g.p, len := g.len, isempty := 0 })
        else if l.lno ≠ some 0 then
          some (w2.emit (Event.msgq (Msg.db_err lno)),
            { rval := 1, p := g.p, len := g.len, isempty := 0 })
        else some (w2, { rval := 1, p := g.p, len := g.len, isempty := 1 })
    else
      some (w1.emit (Event.msgq (Msg.db_err lno)),
        { rval := 1, p := g.p, len := g.len, isempty := 0 })

/-! ## Predicates of the specification -/

/-- Line `lno` of a store as a reader sees it: the record converted by
`FILE2INT`, when there is such a record. -/
def line_of (env : Env) (db : List Bytes) (lno : Nat) : Option Text :=
  (recno_get db lno).map (fun d => (env.file2int d).2)

/-- Invariant 2 of the specification: the cached line number is the sentinel,
or the cached bytes are the conversion of the record the store holds at that
number. -/
def cache_coherent (env : Env) (ep : EXF) : Prop :=
  ep.c_lno = env.OOBLNO ∨
    ((recno_get ep.db ep.c_lno).map env.file2int = some (false, ep.c_lp) ∧
      ep.c_len = ep.c_lp.length)

instance (env : Env) (ep : EXF) : Decidable (cache_coherent env ep) := by
  unfold cache_coherent; infer_instance

/-- Invariant 3 of the specification: the cached count is the sentinel or the
number of records of the store. -/
def count_coherent (env : Env) (ep : EXF) : Prop :=
  ep.c_nlines = env.OOBLNO ∨ ep.c_nlines = ep.db.length

instance (env : Env) (ep : EXF) : Decidable (count_coherent env ep) := by
  unfold count_coherent; infer_instance

/-- The sentinel `OOBLNO` is not the number of a line of a store of `n`
records. -/
def oob_outside (env : Env) (n : Nat) : Prop :=
  env.OOBLNO = 0 ∨ n < env.OOBLNO

instance (env : Env) (n : Nat) : Decidable (oob_outside env n) := by
  unfold oob_outside; infer_instance

/-- The calls that read the store and fill the cache do not fail for lack of
resources: no read error, no cursor error, no allocation failure. -/
def reads_ok (env : Env) : Prop :=
  env.db_get_err = false ∧ env.db_cursor_err = false ∧ env.dbc_get_err = false ∧
    (env.conv_copies && env.binc_err) = false

instance (env : Env) : Decidable (reads_ok env) := by
  unfold reads_ok; infer_instance

/-! ## Concrete inputs -/

/-- An environment in which nothing fails: the sentinel is 0, the
conversions are the identity. -/
def env_ok : Env :=
  { OOBLNO := 0
    file2int := fun d => (false, d)
    int2file := fun p => p
    conv_copies := false
    binc_err := false
    db_get_err := false
    db_del_err := false
    db_put_err := false
    db_cursor_err := false
    dbc_get_err := false
    dbc_put_err := false
    mark_insdel := fun _ _ => false
    ex_g_insdel := fun _ _ => false
    vs_change := fun _ _ _ => false }

/-- The environment in which nothing fails, with the sentinel set to `oob`. -/
def env_oob (oob : Nat) : Env := { env_ok with OOBLNO := oob }

/-- A vi screen with identity `id`, bound to the file at address `ep`. -/
def scr_vi (id : Nat) (ep : Option Nat) : SCR :=
  { id := id, ep := ep, SC_EX := false, SC_TINPUT := false, SC_CONV_ERROR := false, tiq := [] }

/-- A file with the given records, cache and count cache, bound to one screen. -/
def exf_of (db : List Bytes) (c_lno : Nat) (c_lp : Text) (c_nlines : Nat) : EXF :=
  { db := db, c_lp := c_lp, c_len := c_lp.length, c_lno := c_lno, c_nlines := c_nlines,
    refcnt := 1, F_FIRSTMODIFY := false, F_MODIFIED := false }

/-- The world of one screen (identity 1) on one file (address 7). -/
def world_of (ep : EXF) : World :=
  { sp := scr_vi 1 (some 7), exf := ep, dq := [scr_vi 1 (some 7)], trace := [] }

/-- The three records "a", "b", "c". -/
def db_abc : List Bytes := [[97], [98], [99]]

/-! ## The file after a mutation whose store update succeeded -/

/-- The `EXF` that `db_delete` at `lno` leaves when its store update gave `db1`. -/
def db_delete_post (env : Env) (ep : EXF) (lno : Nat) (db1 : List Bytes) : EXF :=
  { ep with
    db := db1
    c_lno := if lno ≤ ep.c_lno then env.OOBLNO else ep.c_lno
    c_nlines := if ep.c_nlines ≠ env.OOBLNO then recno_sub ep.c_nlines 1 else ep.c_nlines
    F_MODIFIED := true }

/-- The `EXF` that `db_append` at `lno` leaves when its store update gave `db1`. -/
def db_append_post (env : Env) (ep : EXF) (lno : Nat) (db1 : List Bytes) : EXF :=
  { ep with
    db := db1
    c_lno := if lno < ep.c_lno then env.OOBLNO else ep.c_lno
    c_nlines := if ep.c_nlines ≠ env.OOBLNO then recno (ep.c_nlines + 1) else ep.c_nlines
    F_MODIFIED := true }

/-- The `EXF` that `db_insert` at `lno` leaves when its store update gave `db1`. -/
def db_insert_post (env : Env) (ep : EXF) (lno : Nat) (db1 : List Bytes) : EXF :=
  { ep with
    db := db1
    c_lno := if lno ≥ ep.c_lno then env.OOBLNO else ep.c_lno
    c_nlines := if ep.c_nlines ≠ env.OOBLNO then recno (ep.c_nlines + 1) else ep.c_nlines
    F_MODIFIED := true }

/-- The `EXF` that `db_set` at `lno` leaves when its store update gave `db1`. -/
def db_set_post (env : Env) (ep : EXF) (lno : Nat) (db1 : List Bytes) : EXF :=
  { ep with
    db := db1
    c_lno := if lno = ep.c_lno then env.OOBLNO else ep.c_lno
    F_MODIFIED := true }

/-! ## Pending input and screen refreshes -/

/-- The pending input queue can be read: when `SC_TINPUT` is set the queue
has a first and a last entry, and every line number of its span has an entry. -/
def tiq_wf (sp : SCR) : Prop :=
  sp.SC_TINPUT = true →
    ∃ t1 t2, sp.tiq.head? = some t1 ∧ sp.tiq.getLast? = some t2 ∧
      ∀ l, t1.lno ≤ l → l ≤ t2.lno →
        ∃ tp, sp.tiq.find? (fun tp => tp.lno == l) = some tp

/-- Whether an event is a call of `vs_change` on the screen `id`. -/
def is_vs_change (id : Nat) : Event → Bool
  | Event.vs_change s _ _ => s == id
  | _ => false

/-- Number of calls of `vs_change` on the screen `id` recorded in a trace. -/
def vs_calls (tr : List Event) (id : Nat) : Nat :=
  tr.countP (is_vs_change id)

/-- The screens of the display queue, other than `sp`, that are bound to the
file of `sp`. -/
def other_views (sp : SCR) (dq : List SCR) : List SCR :=
  dq.filter (fun t => decide (sp.id ≠ t.id ∧ t.ep = sp.ep))

/-- The refreshes the fan-out owes to the screen `id` after a change made
from `sp`: one for `sp` itself when `current` is set, one for every other
screen of the display queue bound to the same file, none for any other. -/
def refreshes (sp : SCR) (dq : List SCR) (current : Bool) (id : Nat) : Nat :=
  if id = sp.id then (if current then 1 else 0)
  else if ∃ t ∈ dq, t.id = id ∧ t.ep = sp.ep then 1 else 0

/-- An ex screen with identity `id`, bound to the file at address `ep`. -/
def scr_ex (id : Nat) (ep : Option Nat) : SCR :=
  { scr_vi id ep with SC_EX := true }

/-- A file with the given records, invalid caches, bound to `n` screens. -/
def exf_shared (db : List Bytes) (n : Nat) : EXF :=
  { exf_of db 0 [] 0 with refcnt := n }

/-- The environment in which nothing fails but the refresh of the screen `bad`. -/
def env_vs_fail (bad : Nat) : Env :=
  { env_ok with vs_change := fun id _ _ => id == bad }

/-- What a query leaves alone: the store, the count cache, the binding of the
screen and its input queue. -/
def query_frame (w w1 : World) : Prop :=
  w1.exf.db = w.exf.db ∧ w1.exf.c_nlines = w.exf.c_nlines ∧ w1.sp.ep = w.sp.ep ∧
    w1.sp.SC_TINPUT = w.sp.SC_TINPUT ∧ w1.sp.tiq = w.sp.tiq

/-- A vi screen in text input mode, with the given input queue. -/
def scr_tinput (id : Nat) (ep : Option Nat) (tiq : List TEXT) : SCR :=
  { scr_vi id ep with SC_TINPUT := true, tiq := tiq }

/-- An empty file on which the user is typing line 1: no record in the store,
the text "x" queued for line 1. -/
def world_pending : World :=
  { sp := scr_tinput 1 (some 7) [{ lno := 1, lb := [120], len := 1 }]
    exf := exf_of [] 0 [] 0
    dq := [scr_tinput 1 (some 7) [{ lno := 1, lb := [120], len := 1 }]]
    trace := [] }

/-- A world with the given screen, display queue and file, and an empty trace. -/
def world_views (sp : SCR) (dq : List SCR) (ep : EXF) : World :=
  { sp := sp, exf := ep, dq := dq, trace := [] }

/-- The file "a", "b", "c" shared by the ex screen 1, which makes the change,
and the vi screen 2. -/
def world_ex : World :=
  world_views (scr_ex 1 (some 7)) [scr_ex 1 (some 7), scr_vi 2 (some 7)] (exf_shared db_abc 2)

/-- The file "a", "b", "c" shared by the vi screens 1 and 2, next to screen 3
on another file; screen 1 makes the change. -/
def world_two : World :=
  world_views (scr_vi 1 (some 7)) [scr_vi 1 (some 7), scr_vi 2 (some 7), scr_vi 3 (some 8)]
    (exf_shared db_abc 2)

/-- The file "a", "b", "c" shared by the vi screens 1, 2 and 3; screen 1
makes the change. -/
def world_three : World :=
  world_views (scr_vi 1 (some 7)) [scr_vi 1 (some 7), scr_vi 2 (some 7), scr_vi 3 (some 7)]
    (exf_shared db_abc 3)

/-! ## db_rget, db_rset -/

/-- The value a store primitive returns, handed back as it is by `db_rget`
and `db_rset`: 0, `DB_NOTFOUND`, or another error. -/
inductive DbRet where
  | ok
  | notfound
  | error
  deriving DecidableEq, Repr

/-- What `db_rget` hands back: the value of `ep->db->get`, and the pointer and
length it stores through `pp` and `lenp` (`none` when it stores nothing). -/
structure RgetRes where
  rval : DbRet
  p : Option Bytes
  len : Option Nat
  deriving DecidableEq, Repr

/-- The function `db_rget`: retrieve a raw line from the database. It reads
`sp->ep->db` without a test for a null `sp->ep` (`none` in that case). -/
def db_rget (env : Env) (w : World) (lno : Nat) : Option (World × RgetRes) :=
  match w.sp.ep with
  | none => none
  | some _ =>
    if env.db_get_err then some (w, { rval := DbRet.error, p := none, len := none })
    else
      match recno_get w.exf.db lno with
      | some data => some (w, { rval := DbRet.ok, p := some data, len := some data.length })
      | none => some (w, { rval := DbRet.notfound, p := none, len := none })

/-- The function `db_rset`: store a raw line into the database. It reads
`sp->ep->db` without a test for a null `sp->ep` (`none` in that case). -/
def db_rset (env : Env) (w : World) (lno : Nat) (p : Bytes) : Option (World × DbRet) :=
  match w.sp.ep with
  | none => none
  | some _ =>
    if env.db_put_err then some (w, DbRet.error)
    else
      match recno_put w.exf.db lno p with
      | some db1 => some ({ w with exf := { w.exf with db := db1 } }, DbRet.ok)
      | none => some (w, DbRet.error)

/-! ## round_up -/

/-- The negation `-v` of an unsigned word of `bits` bits. -/
def size_neg (bits v : Nat) : Nat := (2 ^ bits - v % 2 ^ bits) % 2 ^ bits

/-- The loop of `round_up`, `while (v) { old_v = v; v ^= v & -v; }`, on words
of `bits` bits: every pass clears the lowest set bit of `v`. The first
argument bounds the number of passes; `none` when it is used up with `v` not
yet 0. -/
def round_up_loop (bits : Nat) : Nat → Nat → Nat → Option Nat
  | 0, v, old_v => if v = 0 then some old_v else none
  | fuel + 1, v, old_v =>
    if v = 0 then some old_v
    else round_up_loop bits fuel (v ^^^ (v &&& size_neg bits v)) v

/-- The function `round_up` on a `size_t` of `bits` bits: `old_v << 1` after
the loop, which a word of `bits` bits leaves after at most `bits` passes. -/
def round_up (bits v : Nat) : Option Nat :=
  (round_up_loop bits bits v v).map (fun old_v => (old_v <<< 1) % 2 ^ bits)

/-! ## db_init -/

/-- The outcome of every call of `db_init` that can fail (`true`: the call
fails), in the order of the calls. -/
structure InitEnv where
  mkstemp_err : Bool
  mkdir_err : Bool
  db_env_create_err : Bool
  env_open_err : Bool
  strdup_err : Bool
  db_create_err : Bool
  db_open_err : Bool
  db_close_err : Bool
  db_create2_err : Bool
  db_reopen_err : Bool
  deriving DecidableEq, Repr

/-- The messages of `db_init`. -/
inductive InitMsg where
  /-- Message `M_SYSERR` with the path of the temporary directory. -/
  | path
  | env_create
  | env_open
  | strdup
  | db_create
  /-- Message `msgq_str` naming the file that could not be opened. -/
  | open_name (name : List Nat)
  | close
  | db_create2
  /-- Message `msgq_str` naming `ep->rcv_path`. -/
  | reopen
  deriving DecidableEq, Repr

/-- What `db_init` leaves: its return value, the value of `*open_err` after
the call, the message it sent if any, and what it configured on the store
handle before the first open (page size, whether a source file was set,
whether the open truncates), `none` fields when that point was not reached. -/
structure InitRes where
  rval : Nat
  open_err : Nat
  msg : Option InitMsg
  pagesize : Option (Option Nat)
  re_source : Option (Option (List Nat))
  truncate : Option Bool
  deriving DecidableEq, Repr

/-- The function `db_init` (variant `DB_VERSION_MAJOR`) on a `size_t` of
`bits` bits. `rcv_name` is `none` for a null pointer; `open_err` is the value
of `*open_err` at the call. -/
def db_init (bits : Nat) (ie : InitEnv) (rcv_name : Option (List Nat)) (oname : List Nat)
    (psize : Nat) (open_err : Nat) : InitRes :=
  let early (m : InitMsg) : InitRes :=
    { rval := 1, open_err := open_err, msg := some m, pagesize := none, re_source := none,
      truncate := none }
  if ie.mkstemp_err then early InitMsg.path
  else if ie.mkdir_err then early InitMsg.path
  else if ie.db_env_create_err then early InitMsg.env_create
  else if ie.env_open_err then early InitMsg.env_open
  else if ie.strdup_err then early InitMsg.strdup
  else if ie.db_create_err then early InitMsg.db_create
  else
    let cfg (rval oe : Nat) (m : Option InitMsg) : InitRes :=
      { rval := rval, open_err := oe, msg := m, pagesize := some (round_up bits psize),
        re_source := some (if rcv_name = none then some oname else none),
        truncate := some (decide (rcv_name = none)) }
    if ie.db_open_err then
      cfg 1 1 (some (InitMsg.open_name (match rcv_name with | none => oname | some n => n)))
    else if ie.db_close_err then cfg 1 open_err (some InitMsg.close)
    else if ie.db_create2_err then cfg 1 open_err (some InitMsg.db_create2)
    else if ie.db_reopen_err then cfg 1 open_err (some InitMsg.reopen)
    else cfg 0 open_err none

/-! ## Further predicates and inputs -/

/-- Number of calls of `rcv_init` recorded in a trace. -/
def rcv_calls (tr : List Event) : Nat := tr.count Event.rcv_init

/-- The input queue holds the consecutive line numbers `l1 .. l2`. -/
def tiq_span (sp : SCR) (l1 l2 : Nat) : Prop :=
  l1 ≤ l2 ∧ sp.tiq.map TEXT.lno = List.range' l1 (l2 - l1 + 1)

instance (sp : SCR) (l1 l2 : Nat) : Decidable (tiq_span sp l1 l2) := by
  unfold tiq_span; infer_instance

/-- The same world with the pending input switched off. -/
def World.no_input (w : World) : World :=
  { w with sp := { w.sp with SC_TINPUT := false } }

/-- The environment in which nothing fails but `mark_insdel`. -/
def env_mark_fail : Env :=
  { env_ok with mark_insdel := fun _ _ => true }

/-- Lines "a", "b", "c" in the store with the count cache `c_nlines`, while
the user types at line 2: the input queue holds lines 2 and 3. -/
def world_input (c_nlines : Nat) : World :=
  { sp := scr_tinput 1 (some 7) [{ lno := 2, lb := [120], len := 1 },
      { lno := 3, lb := [121], len := 1 }]
    exf := exf_of db_abc 0 [] c_nlines
    dq := [scr_tinput 1 (some 7) [{ lno := 2, lb := [120], len := 1 },
      { lno := 3, lb := [121], len := 1 }]]
    trace := [] }

/-- An initialization in which no call fails. -/
def init_ok : InitEnv :=
  { mkstemp_err := false, mkdir_err := false, db_env_create_err := false,
    env_open_err := false, strdup_err := false, db_create_err := false,
    db_open_err := false, db_close_err := false, db_create2_err := false,
    db_reopen_err := false }

/-- A file opened and not yet modified: the given records, invalid caches,
`F_FIRSTMODIFY` set. -/
def exf_fresh (db : List Bytes) : EXF :=
  { exf_of db 0 [] 0 with F_FIRSTMODIFY := true }

/-- A call that returned failure `r` from the world `w` without touching the
caches, the modified flag, the recovery hook or any screen. -/
def failed_untouched (w : World) (r : World × Nat) : Prop :=
  r.2 = 1 ∧ r.1.exf.c_lno = w.exf.c_lno ∧ r.1.exf.c_lp = w.exf.c_lp ∧
    r.1.exf.c_len = w.exf.c_len ∧ r.1.exf.c_nlines = w.exf.c_nlines ∧
    r.1.exf.F_MODIFIED = w.exf.F_MODIFIED ∧
    rcv_calls r.1.trace = rcv_calls w.trace ∧
    ∀ id, vs_calls r.1.trace id = vs_calls w.trace id

/-- The environment in which nothing fails but the cursor and put calls of
the store. -/
def env_store_fail : Env :=
  { env_ok with db_cursor_err := true, db_put_err := true, db_del_err := true }

/-- The line cache names the sentinel or a line of the store (whatever bytes
it holds for it): the part of invariant 2 that `db_exist` relies on. -/
def cache_in_store (env : Env) (ep : EXF) : Prop :=
  ep.c_lno = env.OOBLNO ∨ (1 ≤ ep.c_lno ∧ ep.c_lno ≤ ep.db.length)

instance (env : Env) (ep : EXF) : Decidable (cache_in_store env ep) := by
  unfold cache_in_store; infer_instance

/-! # Theorems -/

/-! ## The record store -/

theorem recno_get_eq_some_le {db : List Bytes} {lno : Nat} {d : Bytes}
    (h : recno_get db lno = some d) : 1 ≤ lno ∧ lno ≤ db.length := by
  unfold recno_get at h
  split_ifs at h with h0
  have := (List.getElem?_eq_some.mp h).1
  omega

theorem recno_get_of_le (db : List Bytes) (lno : Nat) (h1 : 1 ≤ lno) (h2 : lno ≤ db.length) :
    ∃ d, recno_get db lno = some d := by
  unfold recno_get
  have h0 : lno ≠ 0 := by omega
  rw [if_neg h0]
  exact ⟨db[lno - 1], List.getElem?_eq_getElem (by omega)⟩

theorem recno_get_none_of_gt (db : List Bytes) (lno : Nat) (h : db.length < lno) :
    recno_get db lno = none := by
  unfold recno_get
  split_ifs
  · rfl
  · exact List.getElem?_eq_none (by omega)

theorem recno_get_set_same (db : List Bytes) (L : Nat) (d : Bytes) (h1 : 1 ≤ L)
    (h2 : L ≤ db.length) : recno_get (db.set (L - 1) d) L = some d := by
  unfold recno_get
  have : L ≠ 0 := by omega
  simp [this, List.getElem?_set]
  omega

theorem recno_get_set_other (db : List Bytes) (L i : Nat) (d : Bytes) (h : i ≠ L) (hL : 1 ≤ L) :
    recno_get (db.set (L - 1) d) i = recno_get db i := by
  unfold recno_get
  split_ifs with h0
  · rfl
  · rw [List.getElem?_set_ne]
    omega

theorem recno_get_put_after_le (db : List Bytes) (k i : Nat) (fp : Bytes) (hk : k ≤ db.length)
    (hi : i ≤ k) : recno_get (recno_put_after db k fp) i = recno_get db i := by
  unfold recno_get recno_put_after
  split_ifs with h0
  · rfl
  · rw [List.getElem?_append_left (by simp; omega), List.getElem?_take]
    simp
    omega

theorem recno_get_put_after_new (db : List Bytes) (k : Nat) (fp : Bytes) (hk : k ≤ db.length) :
    recno_get (recno_put_after db k fp) (k + 1) = some fp := by
  unfold recno_get recno_put_after
  simp
  rw [List.getElem?_append_right (by simp)]
  simp [Nat.min_eq_left hk]

theorem recno_get_put_after_gt (db : List Bytes) (k i : Nat) (fp : Bytes) (hk : k ≤ db.length)
    (hi : k < i) : recno_get (recno_put_after db k fp) (i + 1) = recno_get db i := by
  unfold recno_get recno_put_after
  have h0 : i ≠ 0 := by omega
  simp [h0]
  rw [List.getElem?_append_right (by simp; omega)]
  simp [Nat.min_eq_left hk]
  have : i - k = (i - k - 1) + 1 := by omega
  rw [this, List.getElem?_cons_succ, List.getElem?_drop]
  congr 1; omega

theorem length_put_after (db : List Bytes) (k : Nat) (fp : Bytes) :
    (recno_put_after db k fp).length = db.length + 1 := by
  unfold recno_put_after
  simp
  omega

theorem recno_get_erase_lt (db : List Bytes) (L i : Nat) (hi : i < L) :
    recno_get (db.eraseIdx (L - 1)) i = recno_get db i := by
  unfold recno_get
  split_ifs with h0
  · rfl
  · rw [List.getElem?_eraseIdx]
    rw [if_pos (by omega)]

theorem recno_get_erase_ge (db : List Bytes) (L i : Nat) (hL : 1 ≤ L) (hi : L ≤ i) :
    recno_get (db.eraseIdx (L - 1)) i = recno_get db (i + 1) := by
  unfold recno_get
  have h0 : i ≠ 0 := by omega
  simp [h0]
  rw [List.getElem?_eraseIdx]
  rw [if_neg (by omega)]
  congr 1; omega

theorem length_erase (db : List Bytes) (L : Nat) (hL : 1 ≤ L) (h2 : L ≤ db.length) :
    (db.eraseIdx (L - 1)).length = db.length - 1 := by
  rw [List.length_eraseIdx]
  rw [if_pos (by omega)]

theorem cursor_put_ok {env : Env} {db db1 : List Bytes} {key : Nat} {fp : Bytes}
    (h : cursor_put env db key fp = StoreUpd.ok db1) :
    key ≤ db.length ∧ db1 = recno_put_after db key fp := by
  unfold cursor_put at h
  by_cases hk : key = 0
  · subst hk
    cases db with
    | nil =>
      simp only [ne_eq, not_true_eq_false, if_false] at h
      split_ifs at h
      cases h
      exact ⟨Nat.le_refl _, rfl⟩
    | cons a l =>
      simp only [ne_eq, not_true_eq_false, if_false] at h
      split_ifs at h
      cases h
      exact ⟨Nat.zero_le _, rfl⟩
  · cases hg : recno_get db key with
    | none =>
      simp only [hg] at h
      split_ifs at h
    | some d =>
      simp only [hg] at h
      split_ifs at h
      cases h
      exact ⟨(recno_get_eq_some_le hg).2, rfl⟩

theorem db_delete_store_ok {env : Env} {db db1 : List Bytes} {lno : Nat}
    (h : db_delete_store env db lno = StoreUpd.ok db1) :
    (1 ≤ lno ∧ lno ≤ db.length) ∧ db1 = db.eraseIdx (lno - 1) := by
  unfold db_delete_store recno_del at h
  split_ifs at h with h1 h2
  simp only at h
  exact ⟨h2, (StoreUpd.ok.inj h).symm⟩

theorem db_set_store_ok {env : Env} {db db1 : List Bytes} {lno : Nat} {fp : Bytes}
    (h : db_set_store env db lno fp = StoreUpd.ok db1) :
    (1 ≤ lno ∧ lno ≤ db.length) ∧ db1 = db.set (lno - 1) fp := by
  unfold db_set_store recno_put at h
  split_ifs at h with h1 h2
  simp only at h
  exact ⟨h2, (StoreUpd.ok.inj h).symm⟩

/-! ## Frame lemmas -/

@[simp] theorem emit_exf (w : World) (e : Event) : (w.emit e).exf = w.exf := rfl
@[simp] theorem emit_sp (w : World) (e : Event) : (w.emit e).sp = w.sp := rfl
@[simp] theorem emit_dq (w : World) (e : Event) : (w.emit e).dq = w.dq := rfl

theorem scr_update_exf (env : Env) (w : World) (lno : Nat) (op : lnop_t) (cur : Bool) :
    (scr_update env w lno op cur).1.exf = w.exf := by
  unfold scr_update
  dsimp only
  split_ifs <;> rfl

theorem scr_update_sp (env : Env) (w : World) (lno : Nat) (op : lnop_t) (cur : Bool) :
    (scr_update env w lno op cur).1.sp = w.sp := by
  unfold scr_update
  dsimp only
  split_ifs <;> rfl

/-! ## db_set -/

theorem db_set_sp (env : Env) (w : World) (lno : Nat) (p : Text) :
    (db_set env w lno p).1.sp = w.sp := by
  unfold db_set
  cases w.sp.ep with
  | none => rfl
  | some e =>
    dsimp only
    cases db_set_store env (w.emit (Event.log_line lno log_t.LOG_LINE_RESET_B)).exf.db lno
        (env.int2file p) with
    | ok db1 =>
      dsimp only
      rw [scr_update_sp]
      split_ifs <;> rfl
    | failed => rfl
    | failed_silent => rfl

theorem db_set_exf (env : Env) (w : World) (lno : Nat) (p : Text) :
    (db_set env w lno p).1.exf =
      match w.sp.ep, db_set_store env w.exf.db lno (env.int2file p) with
      | some _, StoreUpd.ok db1 => db_set_post env w.exf lno db1
      | _, _ => w.exf := by
  unfold db_set
  cases w.sp.ep with
  | none => rfl
  | some e =>
    dsimp only [emit_exf]
    cases db_set_store env w.exf.db lno (env.int2file p) with
    | ok db1 =>
      dsimp only
      rw [scr_update_exf]
      unfold db_set_post
      split_ifs <;> rfl
    | failed => rfl
    | failed_silent => rfl

theorem db_set_ok (env : Env) (w : World) (lno : Nat) (p : Text)
    (h : (db_set env w lno p).2 = 0) :
    ∃ db1, db_set_store env w.exf.db lno (env.int2file p) = StoreUpd.ok db1 ∧
      (db_set env w lno p).1.exf = db_set_post env w.exf lno db1 := by
  have hx := db_set_exf env w lno p
  unfold db_set at h
  cases hep : w.sp.ep with
  | none => simp [hep] at h
  | some e =>
    simp only [hep, emit_exf] at h hx
    cases hs : db_set_store env w.exf.db lno (env.int2file p) with
    | ok db1 => exact ⟨db1, rfl, by rw [hx, hs]⟩
    | failed => simp [hs] at h
    | failed_silent => simp [hs] at h


/-! ## db_delete -/

theorem db_delete_sp (env : Env) (w : World) (lno : Nat) :
    (db_delete env w lno).1.sp = w.sp := by
  unfold db_delete
  cases w.sp.ep with
  | none => rfl
  | some e =>
    dsimp only
    by_cases h1 : env.mark_insdel lnop_t.LINE_DELETE lno = true
    · simp [h1]
    · by_cases h2 : env.ex_g_insdel lnop_t.LINE_DELETE lno = true
      · simp [h1, h2]
      · simp only [h1, h2, if_false, Bool.false_eq_true, emit_exf]
        cases db_delete_store env w.exf.db lno with
        | ok db1 =>
          dsimp only
          rw [scr_update_sp]
          split_ifs <;> rfl
        | failed => rfl
        | failed_silent => rfl

theorem db_delete_exf (env : Env) (w : World) (lno : Nat) :
    (db_delete env w lno).1.exf =
      match w.sp.ep with
      | none => w.exf
      | some _ =>
        if env.mark_insdel lnop_t.LINE_DELETE lno = true ∨
            env.ex_g_insdel lnop_t.LINE_DELETE lno = true then w.exf
        else match db_delete_store env w.exf.db lno with
          | StoreUpd.ok db1 => db_delete_post env w.exf lno db1
          | _ => w.exf := by
  unfold db_delete
  cases w.sp.ep with
  | none => rfl
  | some e =>
    dsimp only
    by_cases h1 : env.mark_insdel lnop_t.LINE_DELETE lno = true
    · simp [h1]
    · by_cases h2 : env.ex_g_insdel lnop_t.LINE_DELETE lno = true
      · simp [h1, h2]
      · simp only [h1, h2, if_false, Bool.false_eq_true, or_self, emit_exf]
        cases db_delete_store env w.exf.db lno with
        | ok db1 =>
          dsimp only
          rw [scr_update_exf]
          unfold db_delete_post
          split_ifs <;> rfl
        | failed => rfl
        | failed_silent => rfl

theorem db_delete_ok (env : Env) (w : World) (lno : Nat)
    (h : (db_delete env w lno).2 = 0) :
    ∃ db1, db_delete_store env w.exf.db lno = StoreUpd.ok db1 ∧
      (db_delete env w lno).1.exf = db_delete_post env w.exf lno db1 := by
  have hx := db_delete_exf env w lno
  unfold db_delete at h
  cases hep : w.sp.ep with
  | none => simp [hep] at h
  | some e =>
    simp only [hep] at h hx
    by_cases h1 : env.mark_insdel lnop_t.LINE_DELETE lno = true
    · simp [h1] at h
    · by_cases h2 : env.ex_g_insdel lnop_t.LINE_DELETE lno = true
      · simp [h1, h2] at h
      · simp only [h1, h2, if_false, Bool.false_eq_true, or_self, emit_exf] at h hx
        cases hs : db_delete_store env w.exf.db lno with
        | ok db1 => exact ⟨db1, rfl, by rw [hx, hs]⟩
        | failed => simp [hs] at h
        | failed_silent => simp [hs] at h

/-! ## db_append -/

theorem db_append_sp (env : Env) (w : World) (update : Bool) (lno : Nat) (p : Text) :
    (db_append env w update lno p).1.sp = w.sp := by
  unfold db_append
  cases w.sp.ep with
  | none => rfl
  | some e =>
    dsimp only
    cases db_append_store env w.exf.db lno (env.int2file p) with
    | ok db1 =>
      dsimp only
      rw [scr_update_sp]
      split_ifs <;> rfl
    | failed => rfl
    | failed_silent => rfl

theorem db_append_exf (env : Env) (w : World) (update : Bool) (lno : Nat) (p : Text) :
    (db_append env w update lno p).1.exf =
      match w.sp.ep, db_append_store env w.exf.db lno (env.int2file p) with
      | some _, StoreUpd.ok db1 => db_append_post env w.exf lno db1
      | _, _ => w.exf := by
  unfold db_append
  cases w.sp.ep with
  | none => rfl
  | some e =>
    dsimp only
    cases db_append_store env w.exf.db lno (env.int2file p) with
    | ok db1 =>
      dsimp only
      rw [scr_update_exf]
      unfold db_append_post
      split_ifs <;> rfl
    | failed => rfl
    | failed_silent => rfl

theorem db_append_ok (env : Env) (w : World) (update : Bool) (lno : Nat) (p : Text)
    (h : (db_append env w update lno p).2 = 0) :
    ∃ db1, db_append_store env w.exf.db lno (env.int2file p) = StoreUpd.ok db1 ∧
      (db_append env w update lno p).1.exf = db_append_post env w.exf lno db1 := by
  have hx := db_append_exf env w update lno p
  unfold db_append at h
  cases hep : w.sp.ep with
  | none => simp [hep] at h
  | some e =>
    simp only [hep] at h hx
    cases hs : db_append_store env w.exf.db lno (env.int2file p) with
    | ok db1 => exact ⟨db1, rfl, by rw [hx, hs]⟩
    | failed => simp [hs] at h
    | failed_silent => simp [hs] at h

/-! ## db_insert -/

theorem db_insert_sp (env : Env) (w : World) (lno : Nat) (p : Text) :
    (db_insert env w lno p).1.sp = w.sp := by
  unfold db_insert
  cases w.sp.ep with
  | none => rfl
  | some e =>
    dsimp only
    cases db_insert_store env w.exf.db lno (env.int2file p) with
    | ok db1 =>
      dsimp only
      rw [scr_update_sp]
      split_ifs <;> rfl
    | failed => rfl
    | failed_silent => rfl

theorem db_insert_exf (env : Env) (w : World) (lno : Nat) (p : Text) :
    (db_insert env w lno p).1.exf =
      match w.sp.ep, db_insert_store env w.exf.db lno (env.int2file p) with
      | some _, StoreUpd.ok db1 => db_insert_post env w.exf lno db1
      | _, _ => w.exf := by
  unfold db_insert
  cases w.sp.ep with
  | none => rfl
  | some e =>
    dsimp only
    cases db_insert_store env w.exf.db lno (env.int2file p) with
    | ok db1 =>
      dsimp only
      rw [scr_update_exf]
      unfold db_insert_post
      split_ifs <;> rfl
    | failed => rfl
    | failed_silent => rfl

theorem db_insert_ok (env : Env) (w : World) (lno : Nat) (p : Text)
    (h : (db_insert env w lno p).2 = 0) :
    ∃ db1, db_insert_store env w.exf.db lno (env.int2file p) = StoreUpd.ok db1 ∧
      (db_insert env w lno p).1.exf = db_insert_post env w.exf lno db1 := by
  have hx := db_insert_exf env w lno p
  unfold db_insert at h
  cases hep : w.sp.ep with
  | none => simp [hep] at h
  | some e =>
    simp only [hep] at h hx
    cases hs : db_insert_store env w.exf.db lno (env.int2file p) with
    | ok db1 => exact ⟨db1, rfl, by rw [hx, hs]⟩
    | failed => simp [hs] at h
    | failed_silent => simp [hs] at h

/-! ## Reading a line -/

theorem db_get_nocache_found (env : Env) (w : World) (lno : Nat) (flags : DBG) (d : Bytes)
    (t : Text) (hget : env.db_get_err = false)
    (hbinc : (env.conv_copies && env.binc_err) = false)
    (hd : recno_get w.exf.db lno = some d) (hc : env.file2int d = (false, t)) :
    db_get_nocache env w lno flags =
      ({ w with exf := { w.exf with c_lp := t, c_lno := lno, c_len := t.length } },
        { rval := 0, p := some t, len := t.length }) := by
  unfold db_get_nocache
  simp [hget, hd, hc, hbinc]

theorem db_get_nocache_absent (env : Env) (w : World) (lno : Nat) (flags : DBG)
    (hd : recno_get w.exf.db lno = none) :
    (db_get_nocache env w lno flags).2 = GetRes.err3 := by
  unfold db_get_nocache
  simp only [hd]
  split_ifs <;> rfl

/-- Reading an existing line whose record converts: the line comes back,
from the cache when the cache holds that line with these bytes, from the store
otherwise. -/
theorem db_get_read (env : Env) (w : World) (lno : Nat) (flags : DBG) (d : Bytes) (t : Text)
    (hep : w.sp.ep ≠ none) (htin : w.sp.SC_TINPUT = false)
    (hget : env.db_get_err = false) (hbinc : (env.conv_copies && env.binc_err) = false)
    (hrec : recno_get w.exf.db lno = some d) (hconv : env.file2int d = (false, t))
    (hcache : w.exf.c_lno = lno → w.exf.c_lp = t ∧ w.exf.c_len = t.length) :
    ∃ w1, db_get env w lno flags = some (w1, { rval := 0, p := some t, len := t.length }) := by
  have h0 : lno ≠ 0 := by have := recno_get_eq_some_le hrec; omega
  obtain ⟨e, he⟩ := Option.ne_none_iff_exists'.mp hep
  unfold db_get
  simp only [h0, if_false, he, htin]
  cases hnc : flags.DBG_NOCACHE with
  | true =>
    simp only [if_true]
    rw [db_get_nocache_found env _ lno flags d t hget hbinc hrec hconv]
    exact ⟨_, rfl⟩
  | false =>
    simp only [Bool.false_eq_true, if_false]
    unfold db_get_cache
    by_cases hhit : lno = w.exf.c_lno
    · rw [if_pos hhit]
      obtain ⟨h1, h2⟩ := hcache hhit.symm
      rw [h1, h2]
      exact ⟨_, rfl⟩
    · rw [if_neg hhit]
      have := db_get_nocache_found env { w with exf := { w.exf with c_lno := env.OOBLNO } }
        lno flags d t hget hbinc hrec hconv
      rw [this]
      exact ⟨_, rfl⟩

/-- Reading a line that the store does not hold and the cache does not claim:
the call fails with a null pointer and length 0. -/
theorem db_get_absent (env : Env) (w : World) (lno : Nat) (flags : DBG)
    (htin : w.sp.SC_TINPUT = false)
    (hrec : recno_get w.exf.db lno = none) (hcache : w.exf.c_lno ≠ lno) :
    ∃ w1, db_get env w lno flags = some (w1, GetRes.err3) := by
  unfold db_get
  by_cases h0 : lno = 0
  · rw [if_pos h0]
    exact ⟨_, rfl⟩
  · rw [if_neg h0]
    cases he : w.sp.ep with
    | none => exact ⟨_, rfl⟩
    | some e =>
      simp only [htin]
      cases hnc : flags.DBG_NOCACHE with
      | true =>
        simp only [if_true]
        exact ⟨_, by rw [← db_get_nocache_absent env w lno flags hrec]⟩
      | false =>
        simp only [Bool.false_eq_true, if_false]
        unfold db_get_cache
        rw [if_neg (fun h => hcache h.symm)]
        have := db_get_nocache_absent env { w with exf := { w.exf with c_lno := env.OOBLNO } }
          lno flags hrec
        exact ⟨_, by rw [← this]⟩

theorem line_of_eq_some {env : Env} {db : List Bytes} {i : Nat} {t : Text}
    (h : line_of env db i = some t) :
    ∃ d, recno_get db i = some d ∧ (env.file2int d).2 = t ∧ d ∈ db := by
  unfold line_of at h
  cases hd : recno_get db i with
  | none => simp [hd] at h
  | some d =>
    simp [hd] at h
    refine ⟨d, rfl, h, ?_⟩
    unfold recno_get at hd
    split_ifs at hd
    exact List.getElem?_mem hd

/-- Reading through a coherent cache gives the line of the store. -/
theorem db_get_coherent (env : Env) (w : World) (i : Nat) (flags : DBG) (t : Text)
    (hep : w.sp.ep ≠ none) (htin : w.sp.SC_TINPUT = false)
    (hget : env.db_get_err = false) (hbinc : (env.conv_copies && env.binc_err) = false)
    (hcoh : cache_coherent env w.exf) (hoob : env.OOBLNO ≠ i)
    (hconvs : ∀ d ∈ w.exf.db, (env.file2int d).1 = false)
    (hline : line_of env w.exf.db i = some t) :
    ∃ w1, db_get env w i flags = some (w1, { rval := 0, p := some t, len := t.length }) := by
  obtain ⟨d, hd, ht, hmem⟩ := line_of_eq_some hline
  have hconv : env.file2int d = (false, t) := by
    rw [← ht, ← hconvs d hmem]
  refine db_get_read env w i flags d t hep htin hget hbinc hd hconv ?_
  intro hc
  rcases hcoh with h | ⟨h1, h2⟩
  · exact absurd (h.symm.trans hc) hoob
  · rw [hc, hd] at h1
    simp only [Option.map_some', Option.some.injEq] at h1
    rw [hconv] at h1
    have := (Prod.mk.inj h1).2
    rw [h2, this]
    exact ⟨rfl, rfl⟩

theorem db_get_coherent_absent (env : Env) (w : World) (i : Nat) (flags : DBG)
    (htin : w.sp.SC_TINPUT = false)
    (hcoh : cache_coherent env w.exf) (hoob : env.OOBLNO ≠ i)
    (hrec : recno_get w.exf.db i = none) :
    ∃ w1, db_get env w i flags = some (w1, GetRes.err3) := by
  refine db_get_absent env w i flags htin hrec ?_
  intro hc
  rcases hcoh with h | ⟨h1, _⟩
  · exact absurd (h.symm.trans hc) hoob
  · rw [hc, hrec] at h1
    simp at h1

/-- With a count cache that is invalid or right, and reads that succeed,
`db_last` reports the number of records of the store. -/
theorem db_last_coherent (env : Env) (w : World)
    (hep : w.sp.ep ≠ none) (htin : w.sp.SC_TINPUT = false)
    (hread : reads_ok env) (hcnt : count_coherent env w.exf) :
    ∃ w1, db_last env w = some (w1, { rval := 0, lno := some w.exf.db.length }) := by
  obtain ⟨e, he⟩ := Option.ne_none_iff_exists'.mp hep
  obtain ⟨_, hcur, hcg, hbinc⟩ := hread
  unfold db_last
  simp only [he, htin]
  by_cases hv : w.exf.c_nlines ≠ env.OOBLNO
  · rw [if_pos hv]
    rcases hcnt with h | h
    · exact absurd h hv
    · rw [h]; exact ⟨_, rfl⟩
  · rw [if_neg hv]
    simp only [hcur, hcg, Bool.false_eq_true, or_self, if_false]
    cases hl : w.exf.db.getLast? with
    | none =>
      have : w.exf.db = [] := List.getLast?_eq_none_iff.mp hl
      rw [this]
      exact ⟨_, rfl⟩
    | some data =>
      simp only
      have hb : ¬ (w.exf.db.length ≠ w.exf.c_lno ∧ env.conv_copies = true ∧ env.binc_err = true) := by
        intro hh
        have : (env.conv_copies && env.binc_err) = true := by simp [hh.2.1, hh.2.2]
        rw [hbinc] at this
        exact Bool.false_ne_true this
      rw [if_neg hb]
      exact ⟨_, rfl⟩

/-! ## Coherence of the caches across the store updates -/

theorem cache_coherent_delete (env : Env) (ep : EXF) (L : Nat)
    (h : cache_coherent env ep) :
    cache_coherent env (db_delete_post env ep L (ep.db.eraseIdx (L - 1))) := by
  unfold cache_coherent db_delete_post
  dsimp only
  by_cases hc : L ≤ ep.c_lno
  · left; rw [if_pos hc]
  · rw [if_neg hc]
    rcases h with h | h
    · left; exact h
    · right
      rw [recno_get_erase_lt _ _ _ (by omega)]
      exact h

theorem cache_coherent_append (env : Env) (ep : EXF) (k : Nat) (fp : Bytes)
    (hk : k ≤ ep.db.length) (h : cache_coherent env ep) :
    cache_coherent env (db_append_post env ep k (recno_put_after ep.db k fp)) := by
  unfold cache_coherent db_append_post
  dsimp only
  by_cases hc : k < ep.c_lno
  · left; rw [if_pos hc]
  · rw [if_neg hc]
    rcases h with h | h
    · left; exact h
    · right
      rw [recno_get_put_after_le _ _ _ _ hk (by omega)]
      exact h

theorem cache_coherent_set (env : Env) (ep : EXF) (L : Nat) (fp : Bytes) (hL : 1 ≤ L)
    (h : cache_coherent env ep) :
    cache_coherent env (db_set_post env ep L (ep.db.set (L - 1) fp)) := by
  unfold cache_coherent db_set_post
  dsimp only
  by_cases hc : L = ep.c_lno
  · left; rw [if_pos hc]
  · rw [if_neg hc]
    rcases h with h | h
    · left; exact h
    · right
      rw [recno_get_set_other _ _ _ _ (fun h => hc h.symm) hL]
      exact h

theorem recno_sub_one (n : Nat) (h1 : 1 ≤ n) (h2 : n < 4294967296) : recno_sub n 1 = n - 1 := by
  unfold recno_sub
  omega

theorem recno_succ (n : Nat) (h : n + 1 < 4294967296) : recno (n + 1) = n + 1 := by
  unfold recno
  omega

theorem count_coherent_delete (env : Env) (ep : EXF) (L : Nat)
    (hL : 1 ≤ L ∧ L ≤ ep.db.length) (hsize : ep.db.length < 4294967296)
    (h : count_coherent env ep) :
    count_coherent env (db_delete_post env ep L (ep.db.eraseIdx (L - 1))) := by
  unfold count_coherent db_delete_post
  dsimp only
  rw [length_erase _ _ hL.1 hL.2]
  by_cases hv : ep.c_nlines ≠ env.OOBLNO
  · rw [if_pos hv]
    rcases h with h | h
    · exact absurd h hv
    · right
      rw [h]
      exact recno_sub_one _ (by omega) hsize
  · rw [if_neg hv]
    left
    exact not_not.mp hv

theorem count_coherent_put_after (env : Env) (ep ep1 : EXF) (k : Nat) (fp : Bytes)
    (hsize : ep.db.length + 1 < 4294967296) (h : count_coherent env ep)
    (hdb : ep1.db = recno_put_after ep.db k fp)
    (hcn : ep1.c_nlines =
      if ep.c_nlines ≠ env.OOBLNO then recno (ep.c_nlines + 1) else ep.c_nlines) :
    count_coherent env ep1 := by
  unfold count_coherent
  rw [hdb, hcn, length_put_after]
  by_cases hv : ep.c_nlines ≠ env.OOBLNO
  · rw [if_pos hv]
    rcases h with h | h
    · exact absurd h hv
    · right
      rw [h]
      exact recno_succ _ hsize
  · rw [if_neg hv]
    left
    exact not_not.mp hv

theorem count_coherent_set (env : Env) (ep : EXF) (L : Nat) (fp : Bytes)
    (h : count_coherent env ep) :
    count_coherent env (db_set_post env ep L (ep.db.set (L - 1) fp)) := by
  unfold count_coherent db_set_post
  dsimp only
  rw [List.length_set]
  exact h

theorem oob_outside_ne {env : Env} {n i : Nat} (h : oob_outside env n) (h1 : 1 ≤ i)
    (h2 : i ≤ n) : env.OOBLNO ≠ i := by
  unfold oob_outside at h
  omega

/-- C1. Replace/get round trip: on a bound document with no pending input,
for an existing line `L` and a payload `p` that the conversions carry without
loss, when `db_set L p` succeeds the following `db_get L` (with any flags)
succeeds and hands back exactly `p` with its length, whatever the cache held
before; the sentinel is assumed not to be the line number `L`, and the read
of the store and the cache allocation are assumed not to fail. -/
theorem db_set_get_round_trip (env : Env) (w : World) (L : Nat) (p : Text) (flags : DBG)
    (hbound : w.sp.ep ≠ none) (htin : w.sp.SC_TINPUT = false)
    (hL : 1 ≤ L ∧ L ≤ w.exf.db.length)
    (hconv : env.file2int (env.int2file p) = (false, p))
    (hoob : env.OOBLNO ≠ L)
    (hget : env.db_get_err = false) (hbinc : (env.conv_copies && env.binc_err) = false)
    (hset : (db_set env w L p).2 = 0) :
    ∃ w1, db_get env (db_set env w L p).1 L flags =
      some (w1, { rval := 0, p := some p, len := p.length }) := by
  obtain ⟨db1, hst, hexf⟩ := db_set_ok env w L p hset
  obtain ⟨_, hdb1⟩ := db_set_store_ok hst
  have hsp := db_set_sp env w L p
  refine db_get_read env _ L flags (env.int2file p) p (by rw [hsp]; exact hbound)
    (by rw [hsp]; exact htin) hget hbinc ?_ hconv ?_
  · rw [hexf, hdb1]
    exact recno_get_set_same _ _ _ hL.1 hL.2
  · rw [hexf]
    unfold db_set_post
    dsimp only
    intro hc
    split_ifs at hc with h
    · exact absurd hc hoob
    · exact absurd hc.symm h

/-- C1, witness: lines "a", "b", "c" with the cache holding line 2; `db_set 2 "x"`
then `db_get 2`. -/
theorem db_set_get_round_trip_witness :
    (db_set env_ok (world_of (exf_of db_abc 2 [98] 3)) 2 [120]).2 = 0 ∧
    ∃ w1, db_get env_ok (db_set env_ok (world_of (exf_of db_abc 2 [98] 3)) 2 [120]).1 2
        { DBG_FATAL := false, DBG_NOCACHE := false } =
      some (w1, { rval := 0, p := some [120], len := 1 }) :=
  ⟨by decide, db_set_get_round_trip env_ok (world_of (exf_of db_abc 2 [98] 3)) 2 [120]
    { DBG_FATAL := false, DBG_NOCACHE := false } (by decide) (by decide) (by decide) rfl
    (by decide) rfl rfl (by decide)⟩

theorem line_of_some_le {env : Env} {db : List Bytes} {i : Nat} {t : Text}
    (h : line_of env db i = some t) : 1 ≤ i ∧ i ≤ db.length := by
  obtain ⟨d, hd, _, _⟩ := line_of_eq_some h
  exact recno_get_eq_some_le hd

/-- C3. Delete shift: on a bound document with coherent caches, no pending
input, records that convert and reads that do not fail, after a successful
`db_delete L` with `1 <= L <= count`: `db_get i` hands back the old line `i`
for `i < L` and the old line `i + 1` for `L <= i < count`, `db_get count`
fails, and `db_last` reports `count - 1`. -/
theorem db_delete_shift (env : Env) (w : World) (L : Nat) (flags : DBG)
    (hbound : w.sp.ep ≠ none) (htin : w.sp.SC_TINPUT = false)
    (hcoh : cache_coherent env w.exf) (hcnt : count_coherent env w.exf)
    (hread : reads_ok env)
    (hconvs : ∀ d ∈ w.exf.db, (env.file2int d).1 = false)
    (hoob : oob_outside env w.exf.db.length) (hsize : w.exf.db.length < 4294967296)
    (hL : 1 ≤ L ∧ L ≤ w.exf.db.length)
    (hdel : (db_delete env w L).2 = 0) :
    (∀ i t, i < L → line_of env w.exf.db i = some t →
      ∃ w1, db_get env (db_delete env w L).1 i flags =
        some (w1, { rval := 0, p := some t, len := t.length })) ∧
    (∀ i t, L ≤ i → line_of env w.exf.db (i + 1) = some t →
      ∃ w1, db_get env (db_delete env w L).1 i flags =
        some (w1, { rval := 0, p := some t, len := t.length })) ∧
    (∃ w1, db_get env (db_delete env w L).1 w.exf.db.length flags = some (w1, GetRes.err3)) ∧
    (∃ w1, db_last env (db_delete env w L).1 =
      some (w1, { rval := 0, lno := some (w.exf.db.length - 1) })) := by
  obtain ⟨db1, hst, hexf⟩ := db_delete_ok env w L hdel
  obtain ⟨_, hdb1⟩ := db_delete_store_ok hst
  subst hdb1
  have hsp := db_delete_sp env w L
  have hb1 : (db_delete env w L).1.sp.ep ≠ none := by rw [hsp]; exact hbound
  have ht1 : (db_delete env w L).1.sp.SC_TINPUT = false := by rw [hsp]; exact htin
  have hcoh1 : cache_coherent env (db_delete env w L).1.exf := by
    rw [hexf]; exact cache_coherent_delete env w.exf L hcoh
  have hcnt1 : count_coherent env (db_delete env w L).1.exf := by
    rw [hexf]; exact count_coherent_delete env w.exf L hL hsize hcnt
  have hdb : (db_delete env w L).1.exf.db = w.exf.db.eraseIdx (L - 1) := by rw [hexf]; rfl
  have hconvs1 : ∀ d ∈ (db_delete env w L).1.exf.db, (env.file2int d).1 = false := by
    rw [hdb]
    intro d hd
    exact hconvs d (List.mem_of_mem_eraseIdx hd)
  refine ⟨?_, ?_, ?_, ?_⟩
  · intro i t hi hline
    have hle := line_of_some_le hline
    refine db_get_coherent env _ i flags t hb1 ht1 hread.1 hread.2.2.2 hcoh1
      (oob_outside_ne hoob hle.1 hle.2) hconvs1 ?_
    rw [hdb]
    unfold line_of
    rw [recno_get_erase_lt _ _ _ hi]
    exact hline
  · intro i t hi hline
    have hle := line_of_some_le hline
    refine db_get_coherent env _ i flags t hb1 ht1 hread.1 hread.2.2.2 hcoh1
      (oob_outside_ne hoob (by omega) (by omega)) hconvs1 ?_
    rw [hdb]
    unfold line_of
    rw [recno_get_erase_ge _ _ _ hL.1 hi]
    exact hline
  · refine db_get_coherent_absent env _ _ flags ht1 hcoh1
      (oob_outside_ne hoob (by omega) (Nat.le_refl _)) ?_
    rw [hdb]
    exact recno_get_none_of_gt _ _ (by rw [length_erase _ _ hL.1 hL.2]; omega)
  · have := db_last_coherent env _ hb1 ht1 hread hcnt1
    rw [hdb, length_erase _ _ hL.1 hL.2] at this
    exact this

/-- C3, witness: lines "a", "b", "c"; `db_delete 2` gives "a", "c", last
line 2 and `db_get 2` = "c". -/
theorem db_delete_shift_witness :
    (db_delete env_ok (world_of (exf_of db_abc 3 [99] 3)) 2).1.exf.db = [[97], [99]] ∧
    (∃ w1, db_get env_ok (db_delete env_ok (world_of (exf_of db_abc 3 [99] 3)) 2).1 2
        { DBG_FATAL := false, DBG_NOCACHE := false } =
      some (w1, { rval := 0, p := some [99], len := 1 })) ∧
    (∃ w1, db_last env_ok (db_delete env_ok (world_of (exf_of db_abc 3 [99] 3)) 2).1 =
      some (w1, { rval := 0, lno := some 2 })) :=
  ⟨by decide,
    (db_delete_shift env_ok (world_of (exf_of db_abc 3 [99] 3)) 2
      { DBG_FATAL := false, DBG_NOCACHE := false } (by decide) (by decide) (by decide)
      (by decide) (by decide) (fun _ _ => rfl) (by decide) (by decide) (by decide)
      (by decide)).2.1 2 [99] (by decide) (by decide),
    (db_delete_shift env_ok (world_of (exf_of db_abc 3 [99] 3)) 2
      { DBG_FATAL := false, DBG_NOCACHE := false } (by decide) (by decide) (by decide)
      (by decide) (by decide) (fun _ _ => rfl) (by decide) (by decide) (by decide)
      (by decide)).2.2.2⟩

theorem mem_put_after {db : List Bytes} {k : Nat} {fp d : Bytes}
    (h : d ∈ recno_put_after db k fp) : d = fp ∨ d ∈ db := by
  unfold recno_put_after at h
  rw [List.mem_append, List.mem_cons] at h
  rcases h with h | h | h
  · exact Or.inr (List.mem_of_mem_take h)
  · exact Or.inl h
  · exact Or.inr (List.mem_of_mem_drop h)

/-- C4. Append with the line-0 convention: on a bound document with coherent
caches, no pending input, records that convert and reads that do not fail,
after a successful `db_append update L p` with `0 <= L <= count` the store is
the old one with the record of `p` put after its first `L` records (in front
of the first record for `L = 0`), `db_get (L + 1)` hands back `p`, `db_get i`
the old line `i` for `i <= L`, `db_get (i + 1)` the old line `i` for `L < i`,
and `db_last` reports `count + 1`. -/
theorem db_append_shift (env : Env) (w : World) (update : Bool) (L : Nat) (p : Text)
    (flags : DBG)
    (hbound : w.sp.ep ≠ none) (htin : w.sp.SC_TINPUT = false)
    (hcoh : cache_coherent env w.exf) (hcnt : count_coherent env w.exf)
    (hread : reads_ok env)
    (hconvs : ∀ d ∈ w.exf.db, (env.file2int d).1 = false)
    (hconv : env.file2int (env.int2file p) = (false, p))
    (hoob : oob_outside env (w.exf.db.length + 1))
    (hsize : w.exf.db.length + 1 < 4294967296)
    (hL : L ≤ w.exf.db.length)
    (happ : (db_append env w update L p).2 = 0) :
    (db_append env w update L p).1.exf.db =
      w.exf.db.take L ++ env.int2file p :: w.exf.db.drop L ∧
    (∃ w1, db_get env (db_append env w update L p).1 (L + 1) flags =
      some (w1, { rval := 0, p := some p, len := p.length })) ∧
    (∀ i t, i ≤ L → line_of env w.exf.db i = some t →
      ∃ w1, db_get env (db_append env w update L p).1 i flags =
        some (w1, { rval := 0, p := some t, len := t.length })) ∧
    (∀ i t, L < i → line_of env w.exf.db i = some t →
      ∃ w1, db_get env (db_append env w update L p).1 (i + 1) flags =
        some (w1, { rval := 0, p := some t, len := t.length })) ∧
    (∃ w1, db_last env (db_append env w update L p).1 =
      some (w1, { rval := 0, lno := some (w.exf.db.length + 1) })) := by
  obtain ⟨db1, hst, hexf⟩ := db_append_ok env w update L p happ
  obtain ⟨_, hdb1⟩ := cursor_put_ok hst
  subst hdb1
  have hsp := db_append_sp env w update L p
  have hb1 : (db_append env w update L p).1.sp.ep ≠ none := by rw [hsp]; exact hbound
  have ht1 : (db_append env w update L p).1.sp.SC_TINPUT = false := by rw [hsp]; exact htin
  have hcoh1 : cache_coherent env (db_append env w update L p).1.exf := by
    rw [hexf]; exact cache_coherent_append env w.exf L _ hL hcoh
  have hcnt1 : count_coherent env (db_append env w update L p).1.exf := by
    rw [hexf]; exact count_coherent_put_after env w.exf _ L (env.int2file p) hsize hcnt rfl rfl
  have hdb : (db_append env w update L p).1.exf.db =
      recno_put_after w.exf.db L (env.int2file p) := by rw [hexf]; rfl
  have hconvs1 : ∀ d ∈ (db_append env w update L p).1.exf.db, (env.file2int d).1 = false := by
    rw [hdb]
    intro d hd
    rcases mem_put_after hd with h | h
    · rw [h, hconv]
    · exact hconvs d h
  refine ⟨hdb, ?_, ?_, ?_, ?_⟩
  · refine db_get_coherent env _ (L + 1) flags p hb1 ht1 hread.1 hread.2.2.2 hcoh1
      (oob_outside_ne hoob (by omega) (by omega)) hconvs1 ?_
    rw [hdb]
    unfold line_of
    rw [recno_get_put_after_new _ _ _ hL]
    simp [hconv]
  · intro i t hi hline
    have hle := line_of_some_le hline
    refine db_get_coherent env _ i flags t hb1 ht1 hread.1 hread.2.2.2 hcoh1
      (oob_outside_ne hoob hle.1 (by omega)) hconvs1 ?_
    rw [hdb]
    unfold line_of
    rw [recno_get_put_after_le _ _ _ _ hL hi]
    exact hline
  · intro i t hi hline
    have hle := line_of_some_le hline
    refine db_get_coherent env _ (i + 1) flags t hb1 ht1 hread.1 hread.2.2.2 hcoh1
      (oob_outside_ne hoob (by omega) (by omega)) hconvs1 ?_
    rw [hdb]
    unfold line_of
    rw [recno_get_put_after_gt _ _ _ _ hL hi]
    exact hline
  · have := db_last_coherent env _ hb1 ht1 hread hcnt1
    rw [hdb, length_put_after] at this
    exact this

/-- C4, witness: on an empty document `db_append 0 "hello"` gives `db_last` = 1
and `db_get 1` = "hello". -/
theorem db_append_shift_witness :
    (db_append env_ok (world_of (exf_of [] 0 [] 0)) true 0 [104, 101, 108, 108, 111]).1.exf.db =
      [[104, 101, 108, 108, 111]] ∧
    (∃ w1, db_get env_ok
        (db_append env_ok (world_of (exf_of [] 0 [] 0)) true 0 [104, 101, 108, 108, 111]).1 1
        { DBG_FATAL := false, DBG_NOCACHE := false } =
      some (w1, { rval := 0, p := some [104, 101, 108, 108, 111], len := 5 })) ∧
    (∃ w1, db_last env_ok
        (db_append env_ok (world_of (exf_of [] 0 [] 0)) true 0 [104, 101, 108, 108, 111]).1 =
      some (w1, { rval := 0, lno := some 1 })) :=
  have h := db_append_shift env_ok (world_of (exf_of [] 0 [] 0)) true 0
    [104, 101, 108, 108, 111] { DBG_FATAL := false, DBG_NOCACHE := false }
    (by decide) (by decide) (by decide) (by decide) (by decide) (fun _ _ => rfl) rfl
    (by decide) (by decide) (by decide) (by decide)
  ⟨h.1, h.2.1, h.2.2.2.2⟩

/-- C2, at the failing input. Lines "a", "b", "c" with coherent caches, the
cache holding line 3 ("c"), whatever the sentinel: `db_insert 2 "x"` succeeds
and the store becomes "a", "x", "b", "c", whose line 3 is "b"; the cache is
left holding (3, "c"), and the following `db_get 3` hands back "c". -/
theorem db_insert_stale_read (oob : Nat) :
    cache_coherent (env_oob oob) (exf_of db_abc 3 [99] 3) ∧
    count_coherent (env_oob oob) (exf_of db_abc 3 [99] 3) ∧
    (db_insert (env_oob oob) (world_of (exf_of db_abc 3 [99] 3)) 2 [120]).2 = 0 ∧
    (db_insert (env_oob oob) (world_of (exf_of db_abc 3 [99] 3)) 2 [120]).1.exf.db =
      [[97], [120], [98], [99]] ∧
    line_of (env_oob oob) [[97], [120], [98], [99]] 3 = some [98] ∧
    (db_get (env_oob oob) (db_insert (env_oob oob) (world_of (exf_of db_abc 3 [99] 3)) 2 [120]).1
        3 { DBG_FATAL := false, DBG_NOCACHE := false }).map Prod.snd =
      some { rval := 0, p := some [99], len := 1 } :=
  ⟨Or.inr ⟨rfl, rfl⟩, Or.inr rfl, rfl, rfl, rfl, rfl⟩

/-- C5, at the failing input. Lines "a", "b" with a coherent cache holding
line 2 ("b"), whatever the sentinel: `db_insert 1 "x"` succeeds, the store
becomes "x", "a", "b", and the cache still claims line 2 with the bytes "b"
while the store holds "a" there; with the sentinel 0 the cache is not
coherent after the call. -/
theorem db_insert_breaks_cache_coherence (oob : Nat) :
    cache_coherent (env_oob oob) (exf_of [[97], [98]] 2 [98] 2) ∧
    (db_insert (env_oob oob) (world_of (exf_of [[97], [98]] 2 [98] 2)) 1 [120]).2 = 0 ∧
    (db_insert (env_oob oob) (world_of (exf_of [[97], [98]] 2 [98] 2)) 1 [120]).1.exf.db =
      [[120], [97], [98]] ∧
    (db_insert (env_oob oob) (world_of (exf_of [[97], [98]] 2 [98] 2)) 1 [120]).1.exf.c_lno = 2 ∧
    (db_insert (env_oob oob) (world_of (exf_of [[97], [98]] 2 [98] 2)) 1 [120]).1.exf.c_lp =
      [98] ∧
    line_of (env_oob oob) [[120], [97], [98]] 2 = some [97] ∧
    ¬ cache_coherent env_ok
      (db_insert env_ok (world_of (exf_of [[97], [98]] 2 [98] 2)) 1 [120]).1.exf :=
  ⟨Or.inr ⟨rfl, rfl⟩, rfl, rfl, rfl, rfl, rfl, by decide⟩

/-- C7. Cache-update table: when the store update of a mutation at `lno`
succeeded, the call leaves the cached bytes and length as they were and sets
the cached line number to the sentinel exactly when `lno <= c_lno` for
`db_delete`, `lno < c_lno` for `db_append`, `lno >= c_lno` for `db_insert`
and `lno = c_lno` for `db_set`, leaving it as it was otherwise; a count cache
that is the sentinel stays so, a valid one is decremented by `db_delete`,
incremented by `db_append` and `db_insert` (in 32-bit `recno_t` arithmetic,
which is the exact difference of one when the count is in `1 .. 2^32 - 2`),
and `db_set` leaves the count cache unchanged. -/
theorem cache_update_table (env : Env) (w : World) (lno : Nat) (p : Text) (update : Bool)
    (db1 : List Bytes) (hbound : w.sp.ep ≠ none) :
    (env.mark_insdel lnop_t.LINE_DELETE lno = false →
      env.ex_g_insdel lnop_t.LINE_DELETE lno = false →
      db_delete_store env w.exf.db lno = StoreUpd.ok db1 →
        (db_delete env w lno).1.exf.c_lno =
          (if lno ≤ w.exf.c_lno then env.OOBLNO else w.exf.c_lno) ∧
        (db_delete env w lno).1.exf.c_lp = w.exf.c_lp ∧
        (db_delete env w lno).1.exf.c_len = w.exf.c_len ∧
        (db_delete env w lno).1.exf.c_nlines =
          (if w.exf.c_nlines = env.OOBLNO then env.OOBLNO else recno_sub w.exf.c_nlines 1) ∧
        (1 ≤ w.exf.c_nlines → w.exf.c_nlines < 4294967296 →
          recno_sub w.exf.c_nlines 1 + 1 = w.exf.c_nlines)) ∧
    (db_append_store env w.exf.db lno (env.int2file p) = StoreUpd.ok db1 →
        (db_append env w update lno p).1.exf.c_lno =
          (if lno < w.exf.c_lno then env.OOBLNO else w.exf.c_lno) ∧
        (db_append env w update lno p).1.exf.c_lp = w.exf.c_lp ∧
        (db_append env w update lno p).1.exf.c_len = w.exf.c_len ∧
        (db_append env w update lno p).1.exf.c_nlines =
          (if w.exf.c_nlines = env.OOBLNO then env.OOBLNO else recno (w.exf.c_nlines + 1)) ∧
        (w.exf.c_nlines + 1 < 4294967296 →
          recno (w.exf.c_nlines + 1) = w.exf.c_nlines + 1)) ∧
    (db_insert_store env w.exf.db lno (env.int2file p) = StoreUpd.ok db1 →
        (db_insert env w lno p).1.exf.c_lno =
          (if lno ≥ w.exf.c_lno then env.OOBLNO else w.exf.c_lno) ∧
        (db_insert env w lno p).1.exf.c_lp = w.exf.c_lp ∧
        (db_insert env w lno p).1.exf.c_len = w.exf.c_len ∧
        (db_insert env w lno p).1.exf.c_nlines =
          (if w.exf.c_nlines = env.OOBLNO then env.OOBLNO else recno (w.exf.c_nlines + 1))) ∧
    (db_set_store env w.exf.db lno (env.int2file p) = StoreUpd.ok db1 →
        (db_set env w lno p).1.exf.c_lno =
          (if lno = w.exf.c_lno then env.OOBLNO else w.exf.c_lno) ∧
        (db_set env w lno p).1.exf.c_lp = w.exf.c_lp ∧
        (db_set env w lno p).1.exf.c_len = w.exf.c_len ∧
        (db_set env w lno p).1.exf.c_nlines = w.exf.c_nlines) := by
  obtain ⟨e, he⟩ := Option.ne_none_iff_exists'.mp hbound
  have hcnt : ∀ (c x : Nat), (if c ≠ env.OOBLNO then x else c) =
      (if c = env.OOBLNO then env.OOBLNO else x) := by
    intro c x
    by_cases h : c = env.OOBLNO <;> simp [h]
  refine ⟨?_, ?_, ?_, ?_⟩
  · intro h1 h2 hs
    have hx := db_delete_exf env w lno
    simp only [he, h1, h2, hs, Bool.false_eq_true, or_self, if_false] at hx
    rw [hx]
    unfold db_delete_post
    refine ⟨rfl, rfl, rfl, hcnt _ _, ?_⟩
    intro ha hb
    exact (by rw [recno_sub_one _ ha hb]; omega)
  · intro hs
    have hx := db_append_exf env w update lno p
    simp only [he, hs] at hx
    rw [hx]
    unfold db_append_post
    exact ⟨rfl, rfl, rfl, hcnt _ _, fun ha => recno_succ _ ha⟩
  · intro hs
    have hx := db_insert_exf env w lno p
    simp only [he, hs] at hx
    rw [hx]
    unfold db_insert_post
    exact ⟨rfl, rfl, rfl, hcnt _ _⟩
  · intro hs
    have hx := db_set_exf env w lno p
    simp only [he, hs] at hx
    rw [hx]
    unfold db_set_post
    exact ⟨rfl, rfl, rfl, rfl⟩

/-- C7, witness: lines "a", "b", "c", cache holding line 3, count cached;
`db_delete 2` flushes the cache and counts 2, `db_insert 2` keeps the cached
line number 3 and counts 4. -/
theorem cache_update_table_witness :
    (db_delete env_ok (world_of (exf_of db_abc 3 [99] 3)) 2).1.exf.c_lno = 0 ∧
    (db_delete env_ok (world_of (exf_of db_abc 3 [99] 3)) 2).1.exf.c_nlines = 2 ∧
    (db_insert env_ok (world_of (exf_of db_abc 3 [99] 3)) 2 [120]).1.exf.c_lno = 3 ∧
    (db_insert env_ok (world_of (exf_of db_abc 3 [99] 3)) 2 [120]).1.exf.c_nlines = 4 :=
  have h := cache_update_table env_ok (world_of (exf_of db_abc 3 [99] 3)) 2 [120] true
    [[97], [99]] (by decide)
  have h' := cache_update_table env_ok (world_of (exf_of db_abc 3 [99] 3)) 2 [120] true
    [[97], [120], [98], [99]] (by decide)
  ⟨(h.1 rfl rfl rfl).1, (h.1 rfl rfl rfl).2.2.2.1, (h'.2.2.1 rfl).1, (h'.2.2.1 rfl).2.2.2⟩

/-! ## Queries: what they leave alone, and that they return -/

theorem query_frame_refl (w : World) : query_frame w w := ⟨rfl, rfl, rfl, rfl, rfl⟩

theorem db_get_nocache_frame (env : Env) (w : World) (lno : Nat) (flags : DBG) :
    query_frame w (db_get_nocache env w lno flags).1 := by
  unfold db_get_nocache
  by_cases hg : env.db_get_err = true
  · rw [if_pos hg]
    exact ⟨rfl, rfl, rfl, rfl, rfl⟩
  · rw [if_neg hg]
    cases recno_get w.exf.db lno with
    | none =>
      dsimp only
      split_ifs <;> exact ⟨rfl, rfl, rfl, rfl, rfl⟩
    | some d =>
      dsimp only
      split_ifs <;> exact ⟨rfl, rfl, rfl, rfl, rfl⟩

theorem db_get_cache_frame (env : Env) (w : World) (lno : Nat) (flags : DBG) :
    query_frame w (db_get_cache env w lno flags).1 := by
  unfold db_get_cache
  split_ifs
  · exact query_frame_refl w
  · exact db_get_nocache_frame env { w with exf := { w.exf with c_lno := env.OOBLNO } } lno flags

theorem db_get_frame (env : Env) (w : World) (lno : Nat) (flags : DBG) (w1 : World)
    (r : GetRes) (h : db_get env w lno flags = some (w1, r)) : query_frame w w1 := by
  unfold db_get at h
  by_cases h0 : lno = 0
  · rw [if_pos h0] at h
    have := (Prod.mk.inj (Option.some.inj h)).1
    rw [← this]
    split_ifs <;> exact ⟨rfl, rfl, rfl, rfl, rfl⟩
  · rw [if_neg h0] at h
    cases he : w.sp.ep with
    | none =>
      simp only [he] at h
      rw [← (Prod.mk.inj (Option.some.inj h)).1]
      exact ⟨rfl, rfl, rfl, rfl, rfl⟩
    | some e =>
      simp only [he] at h
      by_cases hnc : flags.DBG_NOCACHE = true
      · rw [if_pos hnc] at h
        rw [← (Prod.mk.inj (Option.some.inj h)).1]
        exact db_get_nocache_frame env w lno flags
      · rw [if_neg hnc] at h
        by_cases ht : w.sp.SC_TINPUT = true
        · rw [if_pos ht] at h
          cases h1 : w.sp.tiq.head? with
          | none => simp [h1] at h
          | some t1 =>
            cases h2 : w.sp.tiq.getLast? with
            | none => simp [h1, h2] at h
            | some t2 =>
              simp only [h1, h2] at h
              split_ifs at h with ha hb
              · cases hf : List.find? (fun tp => tp.lno == lno) w.sp.tiq with
                | none => simp [hf] at h
                | some tp =>
                  simp only [hf] at h
                  rw [← (Prod.mk.inj (Option.some.inj h)).1]
                  exact query_frame_refl w
              · rw [← (Prod.mk.inj (Option.some.inj h)).1]
                exact db_get_cache_frame env w _ flags
              · rw [← (Prod.mk.inj (Option.some.inj h)).1]
                exact db_get_cache_frame env w _ flags
        · rw [if_neg ht] at h
          rw [← (Prod.mk.inj (Option.some.inj h)).1]
          exact db_get_cache_frame env w _ flags

theorem db_get_total (env : Env) (w : World) (lno : Nat) (flags : DBG) (htiq : tiq_wf w.sp) :
    ∃ w1 r, db_get env w lno flags = some (w1, r) := by
  unfold db_get
  by_cases h0 : lno = 0
  · rw [if_pos h0]; exact ⟨_, _, rfl⟩
  · rw [if_neg h0]
    cases he : w.sp.ep with
    | none => exact ⟨_, _, rfl⟩
    | some e =>
      dsimp only
      by_cases hnc : flags.DBG_NOCACHE = true
      · rw [if_pos hnc]; exact ⟨_, _, rfl⟩
      · rw [if_neg hnc]
        by_cases ht : w.sp.SC_TINPUT = true
        · rw [if_pos ht]
          obtain ⟨t1, t2, h1, h2, hall⟩ := htiq ht
          simp only [h1, h2]
          split_ifs with ha hb
          · obtain ⟨tp, hf⟩ := hall lno ha.1 ha.2
            simp only [hf]
            exact ⟨_, _, rfl⟩
          · exact ⟨_, _, rfl⟩
          · exact ⟨_, _, rfl⟩
        · rw [if_neg ht]; exact ⟨_, _, rfl⟩

theorem count_coherent_of_frame {env : Env} {w w1 : World} (hf : query_frame w w1)
    (h : count_coherent env w.exf) : count_coherent env w1.exf := by
  unfold count_coherent at h ⊢
  rw [hf.1, hf.2.1]
  exact h

theorem db_last_total (env : Env) (w : World) (htiq : tiq_wf w.sp) :
    ∃ w1 r, db_last env w = some (w1, r) := by
  unfold db_last
  cases he : w.sp.ep with
  | none => exact ⟨_, _, rfl⟩
  | some e =>
    dsimp only
    by_cases ht : w.sp.SC_TINPUT = true
    · obtain ⟨t1, t2, h1, h2, _⟩ := htiq ht
      simp only [ht, h1, h2, if_true]
      repeat' (first | exact ⟨_, _, rfl⟩ | split)
    · simp only [ht, if_false]
      repeat' (first | exact ⟨_, _, rfl⟩ | split)

theorem db_last_count_coherent (env : Env) (w w1 : World) (r : LastRes)
    (hcnt : count_coherent env w.exf) (h : db_last env w = some (w1, r)) :
    count_coherent env w1.exf ∧ w1.exf.db = w.exf.db := by
  unfold db_last at h
  cases he : w.sp.ep with
  | none =>
    simp only [he] at h
    rw [← (Prod.mk.inj (Option.some.inj h)).1]
    exact ⟨hcnt, rfl⟩
  | some e =>
    simp only [he] at h
    by_cases hv : w.exf.c_nlines ≠ env.OOBLNO
    · rw [if_pos hv] at h
      have hw : w1 = w := by
        split_ifs at h
        · cases h1 : w.sp.tiq.head? with
          | none => simp [h1] at h
          | some t1 =>
            cases h2 : w.sp.tiq.getLast? with
            | none => simp [h1, h2] at h
            | some t2 =>
              simp only [h1, h2] at h
              exact (Prod.mk.inj (Option.some.inj h)).1.symm
        · exact (Prod.mk.inj (Option.some.inj h)).1.symm
      rw [hw]
      exact ⟨hcnt, rfl⟩
    · rw [if_neg hv] at h
      have hoob : w.exf.c_nlines = env.OOBLNO := not_not.mp hv
      by_cases hc : env.db_cursor_err = true ∨ env.dbc_get_err = true
      · rw [if_pos hc] at h
        rw [← (Prod.mk.inj (Option.some.inj h)).1]
        exact ⟨hcnt, rfl⟩
      · rw [if_neg hc] at h
        cases hl : w.exf.db.getLast? with
        | none =>
          simp only [hl] at h
          rw [← (Prod.mk.inj (Option.some.inj h)).1]
          exact ⟨hcnt, rfl⟩
        | some data =>
          simp only [hl] at h
          by_cases hb : w.exf.db.length ≠ w.exf.c_lno ∧ env.conv_copies = true ∧
              env.binc_err = true
          · rw [if_pos hb] at h
            rw [← (Prod.mk.inj (Option.some.inj h)).1]
            exact ⟨hcnt, rfl⟩
          · rw [if_neg hb] at h
            have hw : w1.exf.c_nlines = w.exf.db.length ∧ w1.exf.db = w.exf.db := by
              split_ifs at h
              · cases h2 : w.sp.tiq.getLast? with
                | none => simp [h2] at h
                | some t2 =>
                  simp only [h2] at h
                  rw [← (Prod.mk.inj (Option.some.inj h)).1]
                  exact ⟨rfl, rfl⟩
              · cases h2 : w.sp.tiq.getLast? with
                | none => simp [h2] at h
                | some t2 =>
                  simp only [h2] at h
                  rw [← (Prod.mk.inj (Option.some.inj h)).1]
                  exact ⟨rfl, rfl⟩
              · rw [← (Prod.mk.inj (Option.some.inj h)).1]
                exact ⟨rfl, rfl⟩
              · rw [← (Prod.mk.inj (Option.some.inj h)).1]
                exact ⟨rfl, rfl⟩
            refine ⟨Or.inr ?_, hw.2⟩
            rw [hw.1, hw.2]

theorem db_exist_total (env : Env) (w : World) (lno : Nat) (htiq : tiq_wf w.sp) :
    ∃ w1 r, db_exist env w lno = some (w1, r) := by
  unfold db_exist
  cases he : w.sp.ep with
  | none => exact ⟨_, _, rfl⟩
  | some e =>
    dsimp only
    by_cases h0 : lno = env.OOBLNO
    · rw [if_pos h0]; exact ⟨_, _, rfl⟩
    · rw [if_neg h0]
      by_cases hv : w.exf.c_nlines ≠ env.OOBLNO
      · rw [if_pos hv]
        by_cases ht : w.sp.SC_TINPUT = true
        · obtain ⟨t1, t2, h1, h2, _⟩ := htiq ht
          simp only [ht, h1, h2, if_true]
          exact ⟨_, _, rfl⟩
        · rw [if_neg ht]; exact ⟨_, _, rfl⟩
      · rw [if_neg hv]
        obtain ⟨w1, r, hg⟩ := db_get_total env w lno
          { DBG_FATAL := false, DBG_NOCACHE := false } htiq
        rw [hg]
        exact ⟨_, _, rfl⟩

theorem db_exist_frame (env : Env) (w w1 : World) (lno r : Nat)
    (h : db_exist env w lno = some (w1, r)) : query_frame w w1 := by
  unfold db_exist at h
  cases he : w.sp.ep with
  | none =>
    simp only [he] at h
    rw [← (Prod.mk.inj (Option.some.inj h)).1]
    exact ⟨rfl, rfl, rfl, rfl, rfl⟩
  | some e =>
    simp only [he] at h
    by_cases h0 : lno = env.OOBLNO
    · rw [if_pos h0] at h
      rw [← (Prod.mk.inj (Option.some.inj h)).1]
      exact query_frame_refl w
    · rw [if_neg h0] at h
      by_cases hv : w.exf.c_nlines ≠ env.OOBLNO
      · rw [if_pos hv] at h
        by_cases ht : w.sp.SC_TINPUT = true
        · rw [if_pos ht] at h
          cases h1 : w.sp.tiq.head? with
          | none => simp [h1] at h
          | some t1 =>
            cases h2 : w.sp.tiq.getLast? with
            | none => simp [h1, h2] at h
            | some t2 =>
              simp only [h1, h2] at h
              rw [← (Prod.mk.inj (Option.some.inj h)).1]
              exact query_frame_refl w
        · rw [if_neg ht] at h
          rw [← (Prod.mk.inj (Option.some.inj h)).1]
          exact query_frame_refl w
      · rw [if_neg hv] at h
        cases hg : db_get env w lno { DBG_FATAL := false, DBG_NOCACHE := false } with
        | none => simp [hg] at h
        | some g =>
          simp only [hg] at h
          rw [← (Prod.mk.inj (Option.some.inj h)).1]
          exact db_get_frame env w lno _ g.1 g.2 hg

/-- C6. Line-count cache correctness is an invariant of every operation: when
the cached count is the sentinel or the number of records of the store (a
store that leaves room for one more record number in `recno_t`), then after
`db_insert`, `db_append`, `db_delete` or `db_set` at any line, successful or
not, and after `db_get`, `db_exist` or `db_last` (which return, the input
queue being readable), the cached count is again the sentinel or the number
of records the store holds then. -/
theorem count_cache_invariant (env : Env) (w : World)
    (hcnt : count_coherent env w.exf) (hsize : w.exf.db.length + 1 < 4294967296)
    (htiq : tiq_wf w.sp) :
    (∀ lno p, count_coherent env (db_insert env w lno p).1.exf) ∧
    (∀ update lno p, count_coherent env (db_append env w update lno p).1.exf) ∧
    (∀ lno, count_coherent env (db_delete env w lno).1.exf) ∧
    (∀ lno p, count_coherent env (db_set env w lno p).1.exf) ∧
    (∀ lno flags, ∃ w1 r, db_get env w lno flags = some (w1, r) ∧
      count_coherent env w1.exf) ∧
    (∀ lno, ∃ w1 r, db_exist env w lno = some (w1, r) ∧ count_coherent env w1.exf) ∧
    (∃ w1 r, db_last env w = some (w1, r) ∧ count_coherent env w1.exf) := by
  refine ⟨?_, ?_, ?_, ?_, ?_, ?_, ?_⟩
  · intro lno p
    rw [db_insert_exf]
    cases w.sp.ep with
    | none => exact hcnt
    | some e =>
      cases hs : db_insert_store env w.exf.db lno (env.int2file p) with
      | ok db1 =>
        dsimp only
        obtain ⟨_, hdb1⟩ := cursor_put_ok hs
        exact count_coherent_put_after env w.exf _ _ (env.int2file p) hsize hcnt hdb1 rfl
      | failed => exact hcnt
      | failed_silent => exact hcnt
  · intro update lno p
    rw [db_append_exf]
    cases w.sp.ep with
    | none => exact hcnt
    | some e =>
      cases hs : db_append_store env w.exf.db lno (env.int2file p) with
      | ok db1 =>
        dsimp only
        obtain ⟨_, hdb1⟩ := cursor_put_ok hs
        exact count_coherent_put_after env w.exf _ _ (env.int2file p) hsize hcnt hdb1 rfl
      | failed => exact hcnt
      | failed_silent => exact hcnt
  · intro lno
    rw [db_delete_exf]
    cases w.sp.ep with
    | none => exact hcnt
    | some e =>
      dsimp only
      split_ifs
      · exact hcnt
      · cases hs : db_delete_store env w.exf.db lno with
        | ok db1 =>
          dsimp only
          obtain ⟨hL, hdb1⟩ := db_delete_store_ok hs
          rw [hdb1]
          exact count_coherent_delete env w.exf lno hL (by omega) hcnt
        | failed => exact hcnt
        | failed_silent => exact hcnt
  · intro lno p
    rw [db_set_exf]
    cases w.sp.ep with
    | none => exact hcnt
    | some e =>
      cases hs : db_set_store env w.exf.db lno (env.int2file p) with
      | ok db1 =>
        dsimp only
        obtain ⟨_, hdb1⟩ := db_set_store_ok hs
        rw [hdb1]
        exact count_coherent_set env w.exf lno _ hcnt
      | failed => exact hcnt
      | failed_silent => exact hcnt
  · intro lno flags
    obtain ⟨w1, r, h⟩ := db_get_total env w lno flags htiq
    exact ⟨w1, r, h, count_coherent_of_frame (db_get_frame env w lno flags w1 r h) hcnt⟩
  · intro lno
    obtain ⟨w1, r, h⟩ := db_exist_total env w lno htiq
    exact ⟨w1, r, h, count_coherent_of_frame (db_exist_frame env w w1 lno r h) hcnt⟩
  · obtain ⟨w1, r, h⟩ := db_last_total env w htiq
    exact ⟨w1, r, h, (db_last_count_coherent env w w1 r hcnt h).1⟩

/-- C6, witness: lines "a", "b", "c" with the count cached; a successful
insert, a failed delete and `db_last`. -/
theorem count_cache_invariant_witness :
    count_coherent env_ok (db_insert env_ok (world_of (exf_of db_abc 3 [99] 3)) 2 [120]).1.exf ∧
    count_coherent env_ok (db_delete env_ok (world_of (exf_of db_abc 3 [99] 3)) 5).1.exf ∧
    ∃ w1 r, db_last env_ok (world_of (exf_of db_abc 3 [99] 3)) = some (w1, r) ∧
      count_coherent env_ok w1.exf :=
  have h := count_cache_invariant env_ok (world_of (exf_of db_abc 3 [99] 3)) (by decide)
    (by decide) (fun h => absurd h (by decide))
  ⟨h.1 2 [120], h.2.2.1 5, h.2.2.2.2.2.2⟩

theorem tiq_wf_of_frame {w w1 : World} (hf : query_frame w w1) (h : tiq_wf w.sp) :
    tiq_wf w1.sp := by
  unfold tiq_wf at h ⊢
  rw [hf.2.2.2.1, hf.2.2.2.2]
  exact h

/-- The shape of `db_eget`: it returns whenever the input queue is readable,
succeeds exactly when its `db_get` succeeds, and sets the is-empty flag
exactly when the line is 0 or 1, `db_get` failed and `db_last` succeeded
with 0. -/
theorem db_eget_shape (env : Env) (w : World) (lno : Nat) (htiq : tiq_wf w.sp) :
    ∃ w1 r wg g,
      db_get env w lno { DBG_FATAL := false, DBG_NOCACHE := false } = some (wg, g) ∧
      db_eget env w lno = some (w1, r) ∧
      (r.rval = 0 ↔ g.rval = 0) ∧
      (r.isempty = 1 ↔ ((lno = 0 ∨ lno = 1) ∧ g.rval ≠ 0 ∧
        ∃ w2, db_last env wg = some (w2, { rval := 0, lno := some 0 }))) ∧
      (2 ≤ lno → r.isempty = 0) := by
  obtain ⟨wg, g, hg⟩ := db_get_total env w lno { DBG_FATAL := false, DBG_NOCACHE := false } htiq
  have htiq1 := tiq_wf_of_frame (db_get_frame env w lno _ wg g hg) htiq
  obtain ⟨w2, l, hl⟩ := db_last_total env wg htiq1
  unfold db_eget
  simp only [hg]
  by_cases h0 : g.rval = 0
  · rw [if_pos h0]
    refine ⟨_, _, wg, g, rfl, rfl, ?_, ?_, ?_⟩
    · simp [h0]
    · simp [h0]
    · intro _; rfl
  · rw [if_neg h0]
    by_cases h01 : lno = 0 ∨ lno = 1
    · rw [if_pos h01]
      simp only [hl]
      by_cases hr : l.rval ≠ 0
      · rw [if_pos hr]
        refine ⟨_, _, wg, g, rfl, rfl, ?_, ?_, ?_⟩
        · simp [h0]
        · simp only [zero_ne_one, false_iff, not_and, not_exists]
          intro _ _ w3 h3
          rw [h3] at hl
          apply hr
          rw [← (Prod.mk.inj (Option.some.inj hl)).2]
        · intro _; rfl
      · rw [if_neg hr]
        by_cases hz : l.lno ≠ some 0
        · rw [if_pos hz]
          refine ⟨_, _, wg, g, rfl, rfl, ?_, ?_, ?_⟩
          · simp [h0]
          · simp only [zero_ne_one, false_iff, not_and, not_exists]
            intro _ _ w3 h3
            rw [h3] at hl
            apply hz
            rw [← (Prod.mk.inj (Option.some.inj hl)).2]
          · intro _; rfl
        · rw [if_neg hz]
          refine ⟨_, _, wg, g, rfl, rfl, ?_, ?_, ?_⟩
          · simp [h0]
          · simp only [true_iff]
            refine ⟨h01, h0, w2, ?_⟩
            rw [hl]
            have h1 : l.rval = 0 := not_not.mp hr
            have h2 : l.lno = some 0 := not_not.mp hz
            cases l
            simp only at h1 h2
            rw [h1, h2]
          · intro h2; omega
    · rw [if_neg h01]
      refine ⟨_, _, wg, g, rfl, rfl, ?_, ?_, ?_⟩
      · simp [h0]
      · simp only [zero_ne_one, false_iff, not_and]
        intro h; exact absurd h h01
      · intro _; rfl

theorem db_last_empty (env : Env) (w : World) (hbound : w.sp.ep ≠ none)
    (htin : w.sp.SC_TINPUT = false) (hdb : w.exf.db = [])
    (hcnt : count_coherent env w.exf)
    (hcur : env.db_cursor_err = false) (hcg : env.dbc_get_err = false) :
    db_last env w = some (w, { rval := 0, lno := some 0 }) := by
  obtain ⟨e, he⟩ := Option.ne_none_iff_exists'.mp hbound
  unfold db_last
  simp only [he, htin]
  by_cases hv : w.exf.c_nlines ≠ env.OOBLNO
  · rw [if_pos hv]
    rcases hcnt with h | h
    · exact absurd h hv
    · rw [h, hdb]; rfl
  · rw [if_neg hv]
    simp [hcur, hcg, hdb]

/-- C8, as amended. Empty-file convention of `db_eget`. For every world whose
input queue is readable and every line number, `db_eget` returns, succeeds
exactly when its `db_get` succeeds, and sets the is-empty flag exactly when
the line is 0 or 1, `db_get` failed and `db_last` succeeded with 0 (so the
flag is 0 for every line from 2 on). On a bound document with no records, a
coherent cache, a store that can be read and no pending input, `db_last`
yields 0, and `db_eget 0` and `db_eget 1` each return failure with the
is-empty flag set and a trace to which no message was added. -/
theorem db_eget_empty_file (env : Env) (w : World) (lno : Nat) (htiq : tiq_wf w.sp) :
    (∃ w1 r wg g,
      db_get env w lno { DBG_FATAL := false, DBG_NOCACHE := false } = some (wg, g) ∧
      db_eget env w lno = some (w1, r) ∧
      (r.rval = 0 ↔ g.rval = 0) ∧
      (r.isempty = 1 ↔ ((lno = 0 ∨ lno = 1) ∧ g.rval ≠ 0 ∧
        ∃ w2, db_last env wg = some (w2, { rval := 0, lno := some 0 }))) ∧
      (2 ≤ lno → r.isempty = 0)) ∧
    (w.sp.ep ≠ none → w.sp.SC_TINPUT = false → w.exf.db = [] →
      cache_coherent env w.exf → count_coherent env w.exf → env.OOBLNO ≠ 1 →
      env.db_get_err = false → env.db_cursor_err = false → env.dbc_get_err = false →
      db_last env w = some (w, { rval := 0, lno := some 0 }) ∧
      (∃ w1, db_eget env w 0 = some (w1, { rval := 1, p := none, len := 0, isempty := 1 }) ∧
        w1.trace = w.trace) ∧
      (∃ w1, db_eget env w 1 = some (w1, { rval := 1, p := none, len := 0, isempty := 1 }) ∧
        w1.trace = w.trace)) := by
  refine ⟨db_eget_shape env w lno htiq, ?_⟩
  intro hbound htin hdb hcoh hcnt hoob hget hcur hcg
  have hlast := db_last_empty env w hbound htin hdb hcnt hcur hcg
  obtain ⟨e, he⟩ := Option.ne_none_iff_exists'.mp hbound
  refine ⟨hlast, ?_, ?_⟩
  · refine ⟨w, ?_, rfl⟩
    unfold db_eget
    have hg : db_get env w 0 { DBG_FATAL := false, DBG_NOCACHE := false } =
        some (w, GetRes.err3) := by
      unfold db_get
      simp
    rw [hg]
    simp [GetRes.err3, hlast]
  · have hc : w.exf.c_lno = env.OOBLNO := by
      rcases hcoh with h | ⟨h, _⟩
      · exact h
      · rw [hdb] at h
        simp [recno_get] at h
    have hg : db_get env w 1 { DBG_FATAL := false, DBG_NOCACHE := false } =
        some ({ w with exf := { w.exf with c_lno := env.OOBLNO } }, GetRes.err3) := by
      unfold db_get
      simp only [he, htin, one_ne_zero, if_false, Bool.false_eq_true]
      unfold db_get_cache
      rw [if_neg (by rw [hc]; exact fun h => hoob h.symm)]
      unfold db_get_nocache
      simp [hget, hdb, recno_get]
    have hlast1 := db_last_empty env { w with exf := { w.exf with c_lno := env.OOBLNO } }
      hbound htin hdb hcnt hcur hcg
    refine ⟨{ w with exf := { w.exf with c_lno := env.OOBLNO } }, ?_, rfl⟩
    unfold db_eget
    rw [hg]
    simp [GetRes.err3, hlast1]

/-- C8, witness: the empty document, lines 0 and 1. -/
theorem db_eget_empty_file_witness :
    (∃ w1, db_eget env_ok (world_of (exf_of [] 0 [] 0)) 0 =
        some (w1, { rval := 1, p := none, len := 0, isempty := 1 }) ∧ w1.trace = []) ∧
    (∃ w1, db_eget env_ok (world_of (exf_of [] 0 [] 0)) 1 =
        some (w1, { rval := 1, p := none, len := 0, isempty := 1 }) ∧ w1.trace = []) :=
  have h := (db_eget_empty_file env_ok (world_of (exf_of [] 0 [] 0)) 1
    (fun h => absurd h (by decide))).2 (by decide) rfl rfl (by decide) (by decide)
    (by decide) rfl rfl rfl
  ⟨h.2.1, h.2.2⟩

/-- C8, counterexample. A bound document with no records on which `db_last`
yields 0, with a pending input queue holding line 1: `db_eget 1` succeeds and
hands back the queued line, with the is-empty flag 0. -/
theorem db_eget_pending_input_counterexample :
    world_pending.exf.db = [] ∧
    world_pending.sp.ep ≠ none ∧
    db_last env_ok world_pending = some (world_pending, { rval := 0, lno := some 0 }) ∧
    db_eget env_ok world_pending 1 =
      some (world_pending, { rval := 0, p := some [120], len := 1, isempty := 0 }) := by
  decide

/-! ## The screen fan-out -/

theorem other_views_cons (sp a : SCR) (l : List SCR) :
    other_views sp (a :: l) =
      if sp.id ≠ a.id ∧ a.ep = sp.ep then a :: other_views sp l else other_views sp l := by
  unfold other_views
  rw [List.filter_cons]
  simp only [decide_eq_true_eq]

/-- When every refresh succeeds the loop of `scr_update` calls `vs_change`
once on each other view of the file, in the order of the display queue. -/
theorem scr_update_dq_ok (env : Env) (sp : SCR) (lno : Nat) (op : lnop_t) (l : List SCR)
    (hok : ∀ t ∈ l, env.vs_change t.id lno op = false) :
    scr_update_dq env sp lno op l =
      (false, (other_views sp l).map (fun t => Event.vs_change t.id lno op)) := by
  induction l with
  | nil => rfl
  | cons a l ih =>
    have iha := ih (fun t ht => hok t (List.mem_cons_of_mem a ht))
    unfold scr_update_dq
    rw [other_views_cons]
    by_cases hc : sp.id ≠ a.id ∧ a.ep = sp.ep
    · rw [if_pos hc, if_pos hc, hok a (List.mem_cons_self a l)]
      simp only [Bool.false_eq_true, if_false, iha, List.map_cons]
    · rw [if_neg hc, if_neg hc, iha]

theorem vs_calls_append (a b : List Event) (id : Nat) :
    vs_calls (a ++ b) id = vs_calls a id + vs_calls b id := by
  unfold vs_calls
  exact List.countP_append _ _ _

theorem vs_calls_map (l : List SCR) (lno : Nat) (op : lnop_t) (id : Nat) :
    vs_calls (l.map (fun t => Event.vs_change t.id lno op)) id =
      l.countP (fun t => t.id == id) := by
  unfold vs_calls
  rw [List.countP_map]
  rfl

theorem countP_id_zero (l : List SCR) (id : Nat) (h : ∀ t ∈ l, t.id ≠ id) :
    l.countP (fun t => t.id == id) = 0 := by
  rw [List.countP_eq_zero]
  intro t ht
  simp [h t ht]

theorem other_views_count (sp : SCR) (l : List SCR) (id : Nat)
    (hnd : (l.map SCR.id).Nodup) :
    (other_views sp l).countP (fun t => t.id == id) =
      if id ≠ sp.id ∧ ∃ t ∈ l, t.id = id ∧ t.ep = sp.ep then 1 else 0 := by
  induction l with
  | nil => simp [other_views]
  | cons a l ih =>
    rw [List.map_cons, List.nodup_cons] at hnd
    have iha := ih hnd.2
    rw [other_views_cons]
    by_cases ha : a.id = id
    · have hno : ∀ t ∈ l, t.id ≠ id := by
        intro t ht h
        apply hnd.1
        rw [ha, ← h]
        exact List.mem_map_of_mem SCR.id ht
      have hz : (other_views sp l).countP (fun t => t.id == id) = 0 := by
        apply countP_id_zero
        intro t ht
        exact hno t (List.mem_of_mem_filter ht)
      by_cases hc : sp.id ≠ a.id ∧ a.ep = sp.ep
      · rw [if_pos hc, List.countP_cons, hz]
        have h1 : id ≠ sp.id ∧ ∃ t ∈ a :: l, t.id = id ∧ t.ep = sp.ep :=
          ⟨by rw [← ha]; exact fun h => hc.1 h.symm, a, List.mem_cons_self a l, ha, hc.2⟩
        rw [if_pos h1]
        simp [ha]
      · rw [if_neg hc, hz]
        have h1 : ¬ (id ≠ sp.id ∧ ∃ t ∈ a :: l, t.id = id ∧ t.ep = sp.ep) := by
          rintro ⟨hne, t, ht, hid, hep⟩
          rcases List.mem_cons.mp ht with h | h
          · subst h
            exact hc ⟨by rw [ha]; exact fun h => hne h.symm, hep⟩
          · exact hno t h hid
        rw [if_neg h1]
    · have hiff : (∃ t ∈ a :: l, t.id = id ∧ t.ep = sp.ep) ↔
          ∃ t ∈ l, t.id = id ∧ t.ep = sp.ep := by
        constructor
        · rintro ⟨t, ht, hid, hep⟩
          rcases List.mem_cons.mp ht with h | h
          · subst h; exact absurd hid ha
          · exact ⟨t, h, hid, hep⟩
        · rintro ⟨t, ht, hid, hep⟩
          exact ⟨t, List.mem_cons_of_mem a ht, hid, hep⟩
      simp only [hiff]
      rw [← iha]
      by_cases hc : sp.id ≠ a.id ∧ a.ep = sp.ep
      · rw [if_pos hc, List.countP_cons]
        simp [ha]
      · rw [if_neg hc]

/-- The calls of `vs_change` made by `scr_update` from a vi screen when every
refresh succeeds: one on each other view of the file, one on the screen
itself when `current` is set. -/
theorem scr_update_calls (env : Env) (w : World) (lno : Nat) (op : lnop_t) (cur : Bool)
    (hex : w.sp.SC_EX = false) (hok : ∀ id, env.vs_change id lno op = false)
    (hnd : (w.dq.map SCR.id).Nodup)
    (hrc : w.exf.refcnt = (other_views w.sp w.dq).length + 1) :
    (scr_update env w lno op cur).2 = 0 ∧
    ∀ id, vs_calls (scr_update env w lno op cur).1.trace id =
      vs_calls w.trace id + refreshes w.sp w.dq cur id := by
  have hloop := scr_update_dq_ok env w.sp lno op w.dq (fun t _ => hok t.id)
  have hr : (if w.exf.refcnt ≠ 1 then scr_update_dq env w.sp lno op w.dq else (false, [])) =
      (false, (other_views w.sp w.dq).map (fun t => Event.vs_change t.id lno op)) := by
    by_cases h1 : w.exf.refcnt ≠ 1
    · rw [if_pos h1, hloop]
    · rw [if_neg h1]
      have : (other_views w.sp w.dq).length = 0 := by omega
      rw [List.length_eq_zero.mp this]
      rfl
  unfold scr_update
  simp only [hex, Bool.false_eq_true, if_false, hr, hok]
  cases cur with
  | true =>
    refine ⟨rfl, ?_⟩
    intro id
    simp only [if_true, World.emit, vs_calls_append, vs_calls_map,
      other_views_count w.sp w.dq id hnd]
    unfold refreshes
    by_cases hid : id = w.sp.id
    · simp [hid, vs_calls, is_vs_change]
    · have : ¬ (w.sp.id = id) := fun h => hid h.symm
      simp [hid, this, vs_calls, is_vs_change]
  | false =>
    refine ⟨rfl, ?_⟩
    intro id
    simp only [Bool.false_eq_true, if_false, vs_calls_append, vs_calls_map,
      other_views_count w.sp w.dq id hnd]
    unfold refreshes
    by_cases hid : id = w.sp.id
    · simp [hid]
    · simp [hid]

/-! ## A mutation whose store update succeeded ends in `scr_update` -/

theorem db_set_factor (env : Env) (w : World) (lno : Nat) (p : Text) (db1 : List Bytes)
    (hbound : w.sp.ep ≠ none)
    (hs : db_set_store env w.exf.db lno (env.int2file p) = StoreUpd.ok db1) :
    ∃ evs, (∀ id, vs_calls evs id = 0) ∧
      (db_set env w lno p).1 =
        (scr_update env { w with exf := db_set_post env w.exf lno db1, trace := w.trace ++ evs }
          lno lnop_t.LINE_RESET true).1 := by
  obtain ⟨e, he⟩ := Option.ne_none_iff_exists'.mp hbound
  unfold db_set
  simp only [he, emit_exf, hs]
  cases hF : w.exf.F_FIRSTMODIFY with
  | true =>
    refine ⟨[Event.log_line lno log_t.LOG_LINE_RESET_B, Event.rcv_init,
      Event.log_line lno log_t.LOG_LINE_RESET_F], fun id => rfl, ?_⟩
    simp [World.emit, db_set_post, hF]
  | false =>
    refine ⟨[Event.log_line lno log_t.LOG_LINE_RESET_B,
      Event.log_line lno log_t.LOG_LINE_RESET_F], fun id => rfl, ?_⟩
    simp [World.emit, db_set_post, hF]

theorem db_delete_factor (env : Env) (w : World) (lno : Nat) (db1 : List Bytes)
    (hbound : w.sp.ep ≠ none)
    (h1 : env.mark_insdel lnop_t.LINE_DELETE lno = false)
    (h2 : env.ex_g_insdel lnop_t.LINE_DELETE lno = false)
    (hs : db_delete_store env w.exf.db lno = StoreUpd.ok db1) :
    ∃ evs, (∀ id, vs_calls evs id = 0) ∧
      (db_delete env w lno).1 =
        (scr_update env { w with exf := db_delete_post env w.exf lno db1,
                                 trace := w.trace ++ evs }
          lno lnop_t.LINE_DELETE true).1 := by
  obtain ⟨e, he⟩ := Option.ne_none_iff_exists'.mp hbound
  unfold db_delete
  simp only [he, h1, h2, Bool.false_eq_true, if_false, emit_exf, hs]
  cases hF : w.exf.F_FIRSTMODIFY with
  | true =>
    refine ⟨[Event.mark_insdel lnop_t.LINE_DELETE lno, Event.ex_g_insdel lnop_t.LINE_DELETE lno,
      Event.log_line lno log_t.LOG_LINE_DELETE, Event.rcv_init], fun id => rfl, ?_⟩
    simp [World.emit, db_delete_post, hF]
  | false =>
    refine ⟨[Event.mark_insdel lnop_t.LINE_DELETE lno, Event.ex_g_insdel lnop_t.LINE_DELETE lno,
      Event.log_line lno log_t.LOG_LINE_DELETE], fun id => rfl, ?_⟩
    simp [World.emit, db_delete_post, hF]

theorem db_append_factor (env : Env) (w : World) (update : Bool) (lno : Nat) (p : Text)
    (db1 : List Bytes) (hbound : w.sp.ep ≠ none)
    (hs : db_append_store env w.exf.db lno (env.int2file p) = StoreUpd.ok db1) :
    ∃ evs, (∀ id, vs_calls evs id = 0) ∧
      (db_append env w update lno p).1 =
        (scr_update env { w with exf := db_append_post env w.exf lno db1,
                                 trace := w.trace ++ evs }
          lno lnop_t.LINE_APPEND update).1 := by
  obtain ⟨e, he⟩ := Option.ne_none_iff_exists'.mp hbound
  unfold db_append
  simp only [he, hs]
  cases hF : w.exf.F_FIRSTMODIFY with
  | true =>
    refine ⟨[Event.rcv_init, Event.log_line (recno (lno + 1)) log_t.LOG_LINE_APPEND,
      Event.mark_insdel lnop_t.LINE_INSERT (recno (lno + 1)),
      Event.ex_g_insdel lnop_t.LINE_INSERT (recno (lno + 1))], fun id => rfl, ?_⟩
    simp [World.emit, db_append_post, hF]
  | false =>
    refine ⟨[Event.log_line (recno (lno + 1)) log_t.LOG_LINE_APPEND,
      Event.mark_insdel lnop_t.LINE_INSERT (recno (lno + 1)),
      Event.ex_g_insdel lnop_t.LINE_INSERT (recno (lno + 1))], fun id => rfl, ?_⟩
    simp [World.emit, db_append_post, hF]

theorem db_insert_factor (env : Env) (w : World) (lno : Nat) (p : Text)
    (db1 : List Bytes) (hbound : w.sp.ep ≠ none)
    (hs : db_insert_store env w.exf.db lno (env.int2file p) = StoreUpd.ok db1) :
    ∃ evs, (∀ id, vs_calls evs id = 0) ∧
      (db_insert env w lno p).1 =
        (scr_update env { w with exf := db_insert_post env w.exf lno db1,
                                 trace := w.trace ++ evs }
          lno lnop_t.LINE_INSERT true).1 := by
  obtain ⟨e, he⟩ := Option.ne_none_iff_exists'.mp hbound
  unfold db_insert
  simp only [he, hs]
  cases hF : w.exf.F_FIRSTMODIFY with
  | true =>
    refine ⟨[Event.rcv_init, Event.log_line lno log_t.LOG_LINE_INSERT,
      Event.mark_insdel lnop_t.LINE_INSERT lno,
      Event.ex_g_insdel lnop_t.LINE_INSERT lno], fun id => rfl, ?_⟩
    simp [World.emit, db_insert_post, hF]
  | false =>
    refine ⟨[Event.log_line lno log_t.LOG_LINE_INSERT,
      Event.mark_insdel lnop_t.LINE_INSERT lno,
      Event.ex_g_insdel lnop_t.LINE_INSERT lno], fun id => rfl, ?_⟩
    simp [World.emit, db_insert_post, hF]

/-- Fan-out of a world whose file and trace were replaced, the screen and the
display queue being the same. -/
theorem fan_out_after (env : Env) (w : World) (ep1 : EXF) (evs : List Event) (lno : Nat)
    (op : lnop_t) (cur : Bool)
    (hex : w.sp.SC_EX = false) (hok : ∀ id l o, env.vs_change id l o = false)
    (hnd : (w.dq.map SCR.id).Nodup)
    (hrc : ep1.refcnt = (other_views w.sp w.dq).length + 1)
    (hevs : ∀ id, vs_calls evs id = 0) (id : Nat) :
    vs_calls (scr_update env { w with exf := ep1, trace := w.trace ++ evs } lno op cur).1.trace
        id =
      vs_calls w.trace id + refreshes w.sp w.dq cur id := by
  have := (scr_update_calls env { w with exf := ep1, trace := w.trace ++ evs } lno op cur
    hex (fun id => hok id lno op) hnd hrc).2 id
  rw [this, vs_calls_append, hevs id]
  rfl

theorem refreshes_single (sp : SCR) (dq : List SCR) (cur : Bool) (id : Nat)
    (h : other_views sp dq = []) (hid : id ≠ sp.id) : refreshes sp dq cur id = 0 := by
  unfold refreshes
  rw [if_neg hid]
  have : ¬ ∃ t ∈ dq, t.id = id ∧ t.ep = sp.ep := by
    rintro ⟨t, ht, h1, h2⟩
    have hm : t ∈ other_views sp dq := by
      unfold other_views
      rw [List.mem_filter]
      exact ⟨ht, by simp only [decide_eq_true_eq]; exact ⟨by rw [h1]; exact fun h => hid h.symm, h2⟩⟩
    rw [h] at hm
    exact List.not_mem_nil t hm
  rw [if_neg this]

/-- C9, as amended. Fan-out set: on a document whose reference count is the
number of views bound to it (the screen `sp` and the other screens of the
display queue bound to the same file, each listed once), for every mutation
issued from a view that is not in ex mode whose store update succeeded, when
every refresh succeeds, `vs_change` is called exactly once on each other view
bound to the document, never on a view bound to another document, and on the
issuing view once when self-refresh is requested (always for `db_delete`,
`db_insert`, `db_set`; the `update` argument for `db_append`) and not at all
otherwise; with a single bound view no other view is refreshed. -/
theorem refresh_fan_out (env : Env) (w : World) (lno : Nat) (p : Text) (update : Bool)
    (db1 : List Bytes)
    (hbound : w.sp.ep ≠ none) (hex : w.sp.SC_EX = false)
    (hok : ∀ id l o, env.vs_change id l o = false)
    (hnd : (w.dq.map SCR.id).Nodup)
    (hrc : w.exf.refcnt = (other_views w.sp w.dq).length + 1) :
    (env.mark_insdel lnop_t.LINE_DELETE lno = false →
      env.ex_g_insdel lnop_t.LINE_DELETE lno = false →
      db_delete_store env w.exf.db lno = StoreUpd.ok db1 →
      ∀ id, vs_calls (db_delete env w lno).1.trace id =
        vs_calls w.trace id + refreshes w.sp w.dq true id) ∧
    (db_append_store env w.exf.db lno (env.int2file p) = StoreUpd.ok db1 →
      ∀ id, vs_calls (db_append env w update lno p).1.trace id =
        vs_calls w.trace id + refreshes w.sp w.dq update id) ∧
    (db_insert_store env w.exf.db lno (env.int2file p) = StoreUpd.ok db1 →
      ∀ id, vs_calls (db_insert env w lno p).1.trace id =
        vs_calls w.trace id + refreshes w.sp w.dq true id) ∧
    (db_set_store env w.exf.db lno (env.int2file p) = StoreUpd.ok db1 →
      ∀ id, vs_calls (db_set env w lno p).1.trace id =
        vs_calls w.trace id + refreshes w.sp w.dq true id) ∧
    (∀ id cur, refreshes w.sp w.dq cur id =
      if id = w.sp.id then (if cur then 1 else 0)
      else if ∃ t ∈ w.dq, t.id = id ∧ t.ep = w.sp.ep then 1 else 0) ∧
    (w.exf.refcnt = 1 → ∀ id cur, id ≠ w.sp.id → refreshes w.sp w.dq cur id = 0) := by
  refine ⟨?_, ?_, ?_, ?_, fun _ _ => rfl, ?_⟩
  · intro h1 h2 hs id
    obtain ⟨evs, hevs, hw⟩ := db_delete_factor env w lno db1 hbound h1 h2 hs
    rw [hw]
    exact fan_out_after env w _ evs lno _ true hex hok hnd (by exact hrc) hevs id
  · intro hs id
    obtain ⟨evs, hevs, hw⟩ := db_append_factor env w update lno p db1 hbound hs
    rw [hw]
    exact fan_out_after env w _ evs lno _ update hex hok hnd (by exact hrc) hevs id
  · intro hs id
    obtain ⟨evs, hevs, hw⟩ := db_insert_factor env w lno p db1 hbound hs
    rw [hw]
    exact fan_out_after env w _ evs lno _ true hex hok hnd (by exact hrc) hevs id
  · intro hs id
    obtain ⟨evs, hevs, hw⟩ := db_set_factor env w lno p db1 hbound hs
    rw [hw]
    exact fan_out_after env w _ evs lno _ true hex hok hnd (by exact hrc) hevs id
  · intro h1 id cur hid
    have : (other_views w.sp w.dq).length = 0 := by omega
    exact refreshes_single w.sp w.dq cur id (List.length_eq_zero.mp this) hid

/-- C9, witness: screens 1 and 2 on one file, screen 3 on another; a change
from screen 1 by `db_set`, and by `db_append` without self-refresh. -/
theorem refresh_fan_out_witness :
    vs_calls (db_set env_ok world_two 2 [120]).1.trace 1 = 1 ∧
    vs_calls (db_set env_ok world_two 2 [120]).1.trace 2 = 1 ∧
    vs_calls (db_set env_ok world_two 2 [120]).1.trace 3 = 0 ∧
    vs_calls (db_append env_ok world_two false 2 [120]).1.trace 1 = 0 ∧
    vs_calls (db_append env_ok world_two false 2 [120]).1.trace 2 = 1 :=
  have h := refresh_fan_out env_ok world_two 2 [120] false [[97], [120], [99]]
    (by decide) (by decide) (fun _ _ _ => rfl) (by decide) (by decide)
  have h' := refresh_fan_out env_ok world_two 2 [120] false [[97], [98], [120], [99]]
    (by decide) (by decide) (fun _ _ _ => rfl) (by decide) (by decide)
  ⟨h.2.2.2.1 rfl 1, h.2.2.2.1 rfl 2, h.2.2.2.1 rfl 3, h'.2.1 rfl 1, h'.2.1 rfl 2⟩

/-- C9, counterexample. A change made from an ex screen on a file shared with
a vi screen: `db_set` succeeds and no view is refreshed. -/
theorem fan_out_ex_counterexample :
    other_views world_ex.sp world_ex.dq = [scr_vi 2 (some 7)] ∧
    world_ex.exf.refcnt = 2 ∧
    (db_set env_ok world_ex 2 [120]).2 = 0 ∧
    (db_set env_ok world_ex 2 [120]).1.exf.db = [[97], [120], [99]] ∧
    vs_calls (db_set env_ok world_ex 2 [120]).1.trace 2 = 0 := by
  decide

theorem scr_update_dq_first_failure (env : Env) (sp : SCR) (lno : Nat) (op : lnop_t)
    (pre post : List SCR) (t : SCR)
    (hpre : ∀ s ∈ other_views sp pre, env.vs_change s.id lno op = false)
    (ht : sp.id ≠ t.id ∧ t.ep = sp.ep) (hfail : env.vs_change t.id lno op = true) :
    scr_update_dq env sp lno op (pre ++ t :: post) =
      (true, (other_views sp pre).map (fun s => Event.vs_change s.id lno op) ++
        [Event.vs_change t.id lno op]) := by
  induction pre with
  | nil =>
    rw [List.nil_append]
    unfold scr_update_dq
    rw [if_pos ht, if_pos hfail]
    rfl
  | cons a l ih =>
    rw [List.cons_append]
    unfold scr_update_dq
    rw [other_views_cons] at hpre ⊢
    by_cases hc : sp.id ≠ a.id ∧ a.ep = sp.ep
    · rw [if_pos hc] at hpre ⊢
      rw [if_pos hc, hpre a (List.mem_cons_self _ _)]
      simp only [Bool.false_eq_true, if_false]
      rw [ih (fun s hs => hpre s (List.mem_cons_of_mem _ hs))]
      rfl
    · rw [if_neg hc] at hpre ⊢
      rw [if_neg hc, ih hpre]

/-- C10, as amended. Fail-fast fan-out: from a vi screen on a shared file,
when the refresh of a view `t` of the file fails and the refreshes of the
views of the file ahead of it in the display queue succeed, `scr_update`
returns failure at once: the views ahead of `t` were refreshed once each,
then `t`, and neither a view behind `t` in the queue nor the screen of the
call is refreshed. -/
theorem scr_update_first_failure (env : Env) (w : World) (lno : Nat) (op : lnop_t)
    (cur : Bool) (pre post : List SCR) (t : SCR)
    (hex : w.sp.SC_EX = false) (hrc : w.exf.refcnt ≠ 1)
    (hdq : w.dq = pre ++ t :: post)
    (hpre : ∀ s ∈ other_views w.sp pre, env.vs_change s.id lno op = false)
    (ht : w.sp.id ≠ t.id ∧ t.ep = w.sp.ep) (hfail : env.vs_change t.id lno op = true) :
    (scr_update env w lno op cur).2 = 1 ∧
    (scr_update env w lno op cur).1.trace =
      w.trace ++ ((other_views w.sp pre).map (fun s => Event.vs_change s.id lno op) ++
        [Event.vs_change t.id lno op]) := by
  unfold scr_update
  simp only [hex, Bool.false_eq_true, if_false, if_pos hrc, hdq,
    scr_update_dq_first_failure env w.sp lno op pre post t hpre ht hfail, if_true]
  exact ⟨trivial, trivial⟩

/-- C10, witness: three views of one file, the refresh of view 2 failing. -/
theorem scr_update_first_failure_witness :
    (scr_update (env_vs_fail 2) world_three 2 lnop_t.LINE_RESET true).2 = 1 ∧
    (scr_update (env_vs_fail 2) world_three 2 lnop_t.LINE_RESET true).1.trace =
      [Event.vs_change 2 2 lnop_t.LINE_RESET] :=
  scr_update_first_failure (env_vs_fail 2) world_three 2 lnop_t.LINE_RESET true
    [scr_vi 1 (some 7)] [scr_vi 3 (some 7)] (scr_vi 2 (some 7)) (by decide) (by decide) rfl
    (by decide) (by decide) rfl

/-- C10, counterexample. Three views share a file and the refresh of view 2
fails: `db_set` from view 1 returns failure, view 2 was called once, view 3
and the issuing view 1 were never called. -/
theorem fan_out_failure_counterexample :
    other_views world_three.sp world_three.dq = [scr_vi 2 (some 7), scr_vi 3 (some 7)] ∧
    (db_set (env_vs_fail 2) world_three 2 [120]).2 = 1 ∧
    vs_calls (db_set (env_vs_fail 2) world_three 2 [120]).1.trace 2 = 1 ∧
    vs_calls (db_set (env_vs_fail 2) world_three 2 [120]).1.trace 3 = 0 ∧
    vs_calls (db_set (env_vs_fail 2) world_three 2 [120]).1.trace 1 = 0 ∧
    (scr_update (env_vs_fail 2) world_three 2 lnop_t.LINE_RESET true).2 = 1 ∧
    vs_calls (scr_update (env_vs_fail 2) world_three 2 lnop_t.LINE_RESET true).1.trace 3 = 0 := by
  decide

/-! ## Insertion at lines 0 and 1 -/

theorem scr_update_rval_ok (env : Env) (w : World) (lno : Nat) (op : lnop_t) (cur : Bool)
    (hok : ∀ id, env.vs_change id lno op = false) :
    (scr_update env w lno op cur).2 = 0 := by
  have hloop := scr_update_dq_ok env w.sp lno op w.dq (fun t _ => hok t.id)
  unfold scr_update
  by_cases hex : w.sp.SC_EX = true
  · rw [if_pos hex]
  · rw [if_neg hex]
    dsimp only
    have h1 : (if w.exf.refcnt ≠ 1 then scr_update_dq env w.sp lno op w.dq else (false, [])).1 =
        false := by
      split_ifs
      · rw [hloop]
      · rfl
    rw [h1]
    simp only [Bool.false_eq_true, if_false, hok]
    split_ifs <;> rfl

theorem db_insert_store_zero (env : Env) (db db1 : List Bytes) (fp : Bytes)
    (hsize : db.length < 4294967295) : db_insert_store env db 0 fp ≠ StoreUpd.ok db1 := by
  intro h
  unfold db_insert_store at h
  have hk := (cursor_put_ok h).1
  have : recno_sub 0 1 = 4294967295 := by decide
  omega

theorem db_insert_store_one (env : Env) (db : List Bytes) (fp : Bytes)
    (hdb : db ≠ []) (hcur : env.db_cursor_err = false) (hcg : env.dbc_get_err = false)
    (hcp : env.dbc_put_err = false) :
    db_insert_store env db 1 fp = StoreUpd.ok (fp :: db) := by
  unfold db_insert_store
  have : recno_sub 1 1 = 0 := by decide
  rw [this]
  unfold cursor_put
  cases db with
  | nil => exact absurd rfl hdb
  | cons a l => simp [hcur, hcg, hcp, recno_put_before_first]

theorem db_insert_rval (env : Env) (w : World) (lno : Nat) (p : Text) (db1 : List Bytes)
    (hbound : w.sp.ep ≠ none)
    (hs : db_insert_store env w.exf.db lno (env.int2file p) = StoreUpd.ok db1)
    (h1 : env.mark_insdel lnop_t.LINE_INSERT lno = false)
    (h2 : env.ex_g_insdel lnop_t.LINE_INSERT lno = false)
    (hok : ∀ id, env.vs_change id lno lnop_t.LINE_INSERT = false) :
    (db_insert env w lno p).2 = 0 := by
  obtain ⟨e, he⟩ := Option.ne_none_iff_exists'.mp hbound
  unfold db_insert
  simp only [he, hs, h1, h2, scr_update_rval_ok env _ lno _ true hok]
  simp

/-- C11, as amended. Insertion before the first record is `db_insert 1`:
`db_insert 0` computes the key `0 - 1` in `recno_t`, which is the record
number `2^32 - 1`, so on every document with fewer records it returns failure
and leaves the file as it was; on a bound, non-empty document whose cursor
calls succeed, `db_insert 1 p` puts the record of `p` in front of the first
record (it becomes record 1, every old record `i` becomes record `i + 1`),
and returns success when the range adjustments and the refreshes succeed. -/
theorem db_insert_before_first (env : Env) (w : World) (p : Text)
    (hsize : w.exf.db.length < 4294967295) :
    ((db_insert env w 0 p).2 = 1 ∧ (db_insert env w 0 p).1.exf = w.exf) ∧
    (w.sp.ep ≠ none → w.exf.db ≠ [] → env.db_cursor_err = false →
      env.dbc_get_err = false → env.dbc_put_err = false →
      (db_insert env w 1 p).1.exf.db = env.int2file p :: w.exf.db ∧
      recno_get (db_insert env w 1 p).1.exf.db 1 = some (env.int2file p) ∧
      (∀ i, 1 ≤ i → recno_get (db_insert env w 1 p).1.exf.db (i + 1) = recno_get w.exf.db i) ∧
      (env.mark_insdel lnop_t.LINE_INSERT 1 = false →
        env.ex_g_insdel lnop_t.LINE_INSERT 1 = false →
        (∀ id, env.vs_change id 1 lnop_t.LINE_INSERT = false) →
        (db_insert env w 1 p).2 = 0)) := by
  constructor
  · constructor
    · unfold db_insert
      cases he : w.sp.ep with
      | none => rfl
      | some e =>
        dsimp only
        cases hs : db_insert_store env w.exf.db 0 (env.int2file p) with
        | ok db1 => exact absurd hs (db_insert_store_zero env _ db1 _ hsize)
        | failed => rfl
        | failed_silent => rfl
    · rw [db_insert_exf]
      cases he : w.sp.ep with
      | none => rfl
      | some e =>
        cases hs : db_insert_store env w.exf.db 0 (env.int2file p) with
        | ok db1 => exact absurd hs (db_insert_store_zero env _ db1 _ hsize)
        | failed => rfl
        | failed_silent => rfl
  · intro hbound hdb hcur hcg hcp
    have hs := db_insert_store_one env w.exf.db (env.int2file p) hdb hcur hcg hcp
    obtain ⟨e, he⟩ := Option.ne_none_iff_exists'.mp hbound
    have hx : (db_insert env w 1 p).1.exf.db = env.int2file p :: w.exf.db := by
      rw [db_insert_exf]
      simp only [he, hs]
      rfl
    refine ⟨hx, ?_, ?_, ?_⟩
    · rw [hx]; simp [recno_get]
    · intro i hi
      rw [hx]
      unfold recno_get
      have h0 : i ≠ 0 := by omega
      simp only [Nat.add_one_ne_zero, if_false, h0, Nat.add_sub_cancel]
      have : i = (i - 1) + 1 := by omega
      rw [this, List.getElem?_cons_succ]
      simp
    · intro h1 h2 hok
      exact db_insert_rval env w 1 p _ hbound hs h1 h2 hok

/-- C11, witness: lines "a", "b", "c"; `db_insert 0 "x"` fails, `db_insert 1 "x"`
gives "x", "a", "b", "c". -/
theorem db_insert_before_first_witness :
    (db_insert env_ok (world_of (exf_of db_abc 0 [] 0)) 0 [120]).2 = 1 ∧
    (db_insert env_ok (world_of (exf_of db_abc 0 [] 0)) 1 [120]).1.exf.db =
      [[120], [97], [98], [99]] ∧
    (db_insert env_ok (world_of (exf_of db_abc 0 [] 0)) 1 [120]).2 = 0 :=
  have h := db_insert_before_first env_ok (world_of (exf_of db_abc 0 [] 0)) [120] (by decide)
  have h2 := h.2 (by decide) (by decide) rfl rfl rfl
  ⟨h.1.1, h2.1, h2.2.2.2 rfl rfl (fun _ => rfl)⟩

/-- C11, counterexample. Lines "a", "b", "c", nothing failing: `db_insert 0 "x"`
returns failure with the message "unable to insert at line 0" and leaves the
three records as they were. -/
theorem db_insert_zero_counterexample :
    (world_of (exf_of db_abc 0 [] 0)).sp.ep ≠ none ∧
    (db_insert env_ok (world_of (exf_of db_abc 0 [] 0)) 0 [120]).2 = 1 ∧
    (db_insert env_ok (world_of (exf_of db_abc 0 [] 0)) 0 [120]).1.exf.db =
      [[97], [98], [99]] ∧
    (db_insert env_ok (world_of (exf_of db_abc 0 [] 0)) 0 [120]).1.trace =
      [Event.msgq (Msg.unable_insert 0)] := by
  decide

/-! ## The whole result of a mutation whose store update succeeded -/

theorem db_set_eq (env : Env) (w : World) (lno : Nat) (p : Text) (db1 : List Bytes)
    (hbound : w.sp.ep ≠ none)
    (hs : db_set_store env w.exf.db lno (env.int2file p) = StoreUpd.ok db1) :
    db_set env w lno p =
      scr_update env { w with
        exf := db_set_post env w.exf lno db1
        trace := w.trace ++ ([Event.log_line lno log_t.LOG_LINE_RESET_B] ++
          (if w.exf.F_FIRSTMODIFY then [Event.rcv_init] else []) ++
          [Event.log_line lno log_t.LOG_LINE_RESET_F]) }
        lno lnop_t.LINE_RESET true := by
  obtain ⟨e, he⟩ := Option.ne_none_iff_exists'.mp hbound
  unfold db_set
  simp only [he, emit_exf, hs]
  cases hF : w.exf.F_FIRSTMODIFY <;> simp [World.emit, db_set_post, hF]

theorem db_delete_eq (env : Env) (w : World) (lno : Nat) (db1 : List Bytes)
    (hbound : w.sp.ep ≠ none)
    (h1 : env.mark_insdel lnop_t.LINE_DELETE lno = false)
    (h2 : env.ex_g_insdel lnop_t.LINE_DELETE lno = false)
    (hs : db_delete_store env w.exf.db lno = StoreUpd.ok db1) :
    db_delete env w lno =
      scr_update env { w with
        exf := db_delete_post env w.exf lno db1
        trace := w.trace ++ ([Event.mark_insdel lnop_t.LINE_DELETE lno,
          Event.ex_g_insdel lnop_t.LINE_DELETE lno, Event.log_line lno log_t.LOG_LINE_DELETE] ++
          (if w.exf.F_FIRSTMODIFY then [Event.rcv_init] else [])) }
        lno lnop_t.LINE_DELETE true := by
  obtain ⟨e, he⟩ := Option.ne_none_iff_exists'.mp hbound
  unfold db_delete
  simp only [he, h1, h2, Bool.false_eq_true, if_false, emit_exf, hs]
  cases hF : w.exf.F_FIRSTMODIFY <;> simp [World.emit, db_delete_post, hF]

theorem db_append_eq (env : Env) (w : World) (update : Bool) (lno : Nat) (p : Text)
    (db1 : List Bytes) (hbound : w.sp.ep ≠ none)
    (hs : db_append_store env w.exf.db lno (env.int2file p) = StoreUpd.ok db1) :
    db_append env w update lno p =
      ((scr_update env { w with
        exf := db_append_post env w.exf lno db1
        trace := w.trace ++ ((if w.exf.F_FIRSTMODIFY then [Event.rcv_init] else []) ++
          [Event.log_line (recno (lno + 1)) log_t.LOG_LINE_APPEND,
            Event.mark_insdel lnop_t.LINE_INSERT (recno (lno + 1)),
            Event.ex_g_insdel lnop_t.LINE_INSERT (recno (lno + 1))]) }
        lno lnop_t.LINE_APPEND update).1,
       if (scr_update env { w with
        exf := db_append_post env w.exf lno db1
        trace := w.trace ++ ((if w.exf.F_FIRSTMODIFY then [Event.rcv_init] else []) ++
          [Event.log_line (recno (lno + 1)) log_t.LOG_LINE_APPEND,
            Event.mark_insdel lnop_t.LINE_INSERT (recno (lno + 1)),
            Event.ex_g_insdel lnop_t.LINE_INSERT (recno (lno + 1))]) }
        lno lnop_t.LINE_APPEND update).2 ≠ 0 ∨
          env.mark_insdel lnop_t.LINE_INSERT (recno (lno + 1)) = true ∨
          env.ex_g_insdel lnop_t.LINE_INSERT (recno (lno + 1)) = true then 1 else 0) := by
  obtain ⟨e, he⟩ := Option.ne_none_iff_exists'.mp hbound
  unfold db_append
  simp only [he, hs]
  cases hF : w.exf.F_FIRSTMODIFY <;> simp [World.emit, db_append_post, hF]

theorem db_insert_eq (env : Env) (w : World) (lno : Nat) (p : Text)
    (db1 : List Bytes) (hbound : w.sp.ep ≠ none)
    (hs : db_insert_store env w.exf.db lno (env.int2file p) = StoreUpd.ok db1) :
    db_insert env w lno p =
      ((scr_update env { w with
        exf := db_insert_post env w.exf lno db1
        trace := w.trace ++ ((if w.exf.F_FIRSTMODIFY then [Event.rcv_init] else []) ++
          [Event.log_line lno log_t.LOG_LINE_INSERT,
            Event.mark_insdel lnop_t.LINE_INSERT lno,
            Event.ex_g_insdel lnop_t.LINE_INSERT lno]) }
        lno lnop_t.LINE_INSERT true).1,
       if (scr_update env { w with
        exf := db_insert_post env w.exf lno db1
        trace := w.trace ++ ((if w.exf.F_FIRSTMODIFY then [Event.rcv_init] else []) ++
          [Event.log_line lno log_t.LOG_LINE_INSERT,
            Event.mark_insdel lnop_t.LINE_INSERT lno,
            Event.ex_g_insdel lnop_t.LINE_INSERT lno]) }
        lno lnop_t.LINE_INSERT true).2 ≠ 0 ∨
          env.mark_insdel lnop_t.LINE_INSERT lno = true ∨
          env.ex_g_insdel lnop_t.LINE_INSERT lno = true then 1 else 0) := by
  obtain ⟨e, he⟩ := Option.ne_none_iff_exists'.mp hbound
  unfold db_insert
  simp only [he, hs]
  cases hF : w.exf.F_FIRSTMODIFY <;> simp [World.emit, db_insert_post, hF]

/-! ## What `scr_update` adds to the trace -/

theorem scr_update_dq_events (env : Env) (sp : SCR) (lno : Nat) (op : lnop_t) (l : List SCR) :
    ∀ e ∈ (scr_update_dq env sp lno op l).2, ∃ id, e = Event.vs_change id lno op := by
  induction l with
  | nil => intro e he; exact absurd he (List.not_mem_nil e)
  | cons a l ih =>
    unfold scr_update_dq
    by_cases hc : sp.id ≠ a.id ∧ a.ep = sp.ep
    · rw [if_pos hc]
      by_cases hv : env.vs_change a.id lno op = true
      · rw [if_pos hv]
        intro e he
        exact ⟨a.id, List.mem_singleton.mp he⟩
      · rw [if_neg hv]
        intro e he
        rcases List.mem_cons.mp he with h | h
        · exact ⟨a.id, h⟩
        · exact ih e h
    · rw [if_neg hc]
      exact ih

/-- The trace after `scr_update` is the trace before it followed by calls
of `vs_change` only. -/
theorem scr_update_trace (env : Env) (w : World) (lno : Nat) (op : lnop_t) (cur : Bool) :
    ∃ evs, (scr_update env w lno op cur).1.trace = w.trace ++ evs ∧
      ∀ e ∈ evs, ∃ id, e = Event.vs_change id lno op := by
  unfold scr_update
  by_cases hex : w.sp.SC_EX = true
  · rw [if_pos hex]
    exact ⟨[], (List.append_nil _).symm, fun e he => absurd he (List.not_mem_nil e)⟩
  · rw [if_neg hex]
    dsimp only
    have hr : ∀ e ∈ (if w.exf.refcnt ≠ 1 then scr_update_dq env w.sp lno op w.dq
        else (false, [])).2, ∃ id, e = Event.vs_change id lno op := by
      split_ifs
      · exact scr_update_dq_events env w.sp lno op w.dq
      · intro e he; exact absurd he (List.not_mem_nil e)
    generalize (if w.exf.refcnt ≠ 1 then scr_update_dq env w.sp lno op w.dq
        else (false, [])) = r at hr
    by_cases h1 : r.1 = true
    · rw [if_pos h1]
      exact ⟨r.2, rfl, hr⟩
    · rw [if_neg h1]
      cases cur with
      | true =>
        refine ⟨r.2 ++ [Event.vs_change w.sp.id lno op], ?_, ?_⟩
        · simp [World.emit]
        · intro e he
          rcases List.mem_append.mp he with h | h
          · exact hr e h
          · exact ⟨w.sp.id, List.mem_singleton.mp h⟩
      | false => exact ⟨r.2, rfl, hr⟩

theorem rcv_calls_append (a b : List Event) : rcv_calls (a ++ b) = rcv_calls a + rcv_calls b := by
  unfold rcv_calls
  exact List.count_append _ _ _

theorem scr_update_rcv (env : Env) (w : World) (lno : Nat) (op : lnop_t) (cur : Bool) :
    rcv_calls (scr_update env w lno op cur).1.trace = rcv_calls w.trace := by
  obtain ⟨evs, ht, hev⟩ := scr_update_trace env w lno op cur
  rw [ht, rcv_calls_append]
  have : rcv_calls evs = 0 := by
    unfold rcv_calls
    rw [List.count_eq_zero]
    intro hm
    obtain ⟨id, h⟩ := hev _ hm
    cases h
  omega

/-- C12. No file: when the screen has no file bound, `db_get` (line from 1
on, any flags), `db_last`, `db_delete`, `db_append`, `db_insert` and `db_set`
each return failure and leave the world as it was but for the one message
`EXM_NOFILEYET` added to the trace: no call to the mark table, the global
ranges, the undo log, the recovery hook or a screen refresh, and nothing of
the file touched; `db_get` hands back a null pointer and length 0, `db_last`
stores nothing. -/
theorem no_file_untouched (env : Env) (w : World) (hno : w.sp.ep = none) :
    (∀ lno flags, 1 ≤ lno → db_get env w lno flags =
      some ({ w with trace := w.trace ++ [Event.msgq Msg.EXM_NOFILEYET] },
        { rval := 1, p := none, len := 0 })) ∧
    db_last env w =
      some ({ w with trace := w.trace ++ [Event.msgq Msg.EXM_NOFILEYET] },
        { rval := 1, lno := none }) ∧
    (∀ lno, db_delete env w lno =
      ({ w with trace := w.trace ++ [Event.msgq Msg.EXM_NOFILEYET] }, 1)) ∧
    (∀ update lno p, db_append env w update lno p =
      ({ w with trace := w.trace ++ [Event.msgq Msg.EXM_NOFILEYET] }, 1)) ∧
    (∀ lno p, db_insert env w lno p =
      ({ w with trace := w.trace ++ [Event.msgq Msg.EXM_NOFILEYET] }, 1)) ∧
    (∀ lno p, db_set env w lno p =
      ({ w with trace := w.trace ++ [Event.msgq Msg.EXM_NOFILEYET] }, 1)) := by
  refine ⟨?_, ?_, ?_, ?_, ?_, ?_⟩
  · intro lno flags h1
    unfold db_get
    have h0 : lno ≠ 0 := by omega
    simp only [h0, if_false, hno]
    rfl
  · unfold db_last
    simp only [hno]
    rfl
  · intro lno
    unfold db_delete
    simp only [hno]
    rfl
  · intro update lno p
    unfold db_append
    simp only [hno]
    rfl
  · intro lno p
    unfold db_insert
    simp only [hno]
    rfl
  · intro lno p
    unfold db_set
    simp only [hno]
    rfl

/-- C12, witness: a screen with no file; `db_delete 2` and `db_get 2`. -/
theorem no_file_untouched_witness :
    db_delete env_ok (world_views (scr_vi 1 none) [scr_vi 1 none] (exf_of [] 0 [] 0)) 2 =
      ({ world_views (scr_vi 1 none) [scr_vi 1 none] (exf_of [] 0 [] 0) with
          trace := [Event.msgq Msg.EXM_NOFILEYET] }, 1) ∧
    db_get env_ok (world_views (scr_vi 1 none) [scr_vi 1 none] (exf_of [] 0 [] 0)) 2
        { DBG_FATAL := true, DBG_NOCACHE := false } =
      some ({ world_views (scr_vi 1 none) [scr_vi 1 none] (exf_of [] 0 [] 0) with
          trace := [Event.msgq Msg.EXM_NOFILEYET] }, { rval := 1, p := none, len := 0 }) :=
  have h := no_file_untouched env_ok
    (world_views (scr_vi 1 none) [scr_vi 1 none] (exf_of [] 0 [] 0)) rfl
  ⟨h.2.2.1 2, h.1 2 { DBG_FATAL := true, DBG_NOCACHE := false } (by decide)⟩

theorem db_set_bound_of_ok (env : Env) (w : World) (lno : Nat) (p : Text)
    (h : (db_set env w lno p).2 = 0) : w.sp.ep ≠ none := by
  intro hno
  unfold db_set at h
  simp [hno] at h

theorem db_delete_bound_of_ok (env : Env) (w : World) (lno : Nat)
    (h : (db_delete env w lno).2 = 0) : w.sp.ep ≠ none := by
  intro hno
  unfold db_delete at h
  simp [hno] at h

theorem db_append_bound_of_ok (env : Env) (w : World) (update : Bool) (lno : Nat) (p : Text)
    (h : (db_append env w update lno p).2 = 0) : w.sp.ep ≠ none := by
  intro hno
  unfold db_append at h
  simp [hno] at h

theorem db_insert_bound_of_ok (env : Env) (w : World) (lno : Nat) (p : Text)
    (h : (db_insert env w lno p).2 = 0) : w.sp.ep ≠ none := by
  intro hno
  unfold db_insert at h
  simp [hno] at h

theorem db_delete_marks_of_ok (env : Env) (w : World) (lno : Nat)
    (h : (db_delete env w lno).2 = 0) :
    env.mark_insdel lnop_t.LINE_DELETE lno = false ∧
      env.ex_g_insdel lnop_t.LINE_DELETE lno = false := by
  obtain ⟨e, he⟩ := Option.ne_none_iff_exists'.mp (db_delete_bound_of_ok env w lno h)
  unfold db_delete at h
  simp only [he] at h
  cases h1 : env.mark_insdel lnop_t.LINE_DELETE lno with
  | true => simp [h1] at h
  | false =>
    cases h2 : env.ex_g_insdel lnop_t.LINE_DELETE lno with
    | true => simp [h1, h2] at h
    | false => exact ⟨rfl, rfl⟩

theorem rcv_calls_first (tr : List Event) (l r : List Event) (b : Bool)
    (hl : rcv_calls l = 0) (hr : rcv_calls r = 0) :
    rcv_calls (tr ++ (l ++ (if b then [Event.rcv_init] else []) ++ r)) =
      rcv_calls tr + (if b then 1 else 0) := by
  rw [rcv_calls_append, rcv_calls_append, rcv_calls_append, hl, hr]
  cases b <;> rfl

/-- C13. Dirty flag and first-modification hook: whenever `db_insert`,
`db_append`, `db_delete` or `db_set` returns success, the modified flag of
the file is set on return, and the trace of the call holds exactly one call
of `rcv_init` when `F_FIRSTMODIFY` was set on entry and none when it was
clear. -/
theorem dirty_flag_and_hook (env : Env) (w : World) (lno : Nat) (p : Text) (update : Bool) :
    ((db_insert env w lno p).2 = 0 →
      (db_insert env w lno p).1.exf.F_MODIFIED = true ∧
      rcv_calls (db_insert env w lno p).1.trace =
        rcv_calls w.trace + (if w.exf.F_FIRSTMODIFY then 1 else 0)) ∧
    ((db_append env w update lno p).2 = 0 →
      (db_append env w update lno p).1.exf.F_MODIFIED = true ∧
      rcv_calls (db_append env w update lno p).1.trace =
        rcv_calls w.trace + (if w.exf.F_FIRSTMODIFY then 1 else 0)) ∧
    ((db_delete env w lno).2 = 0 →
      (db_delete env w lno).1.exf.F_MODIFIED = true ∧
      rcv_calls (db_delete env w lno).1.trace =
        rcv_calls w.trace + (if w.exf.F_FIRSTMODIFY then 1 else 0)) ∧
    ((db_set env w lno p).2 = 0 →
      (db_set env w lno p).1.exf.F_MODIFIED = true ∧
      rcv_calls (db_set env w lno p).1.trace =
        rcv_calls w.trace + (if w.exf.F_FIRSTMODIFY then 1 else 0)) := by
  refine ⟨?_, ?_, ?_, ?_⟩
  · intro h
    obtain ⟨db1, hs, hexf⟩ := db_insert_ok env w lno p h
    refine ⟨by rw [hexf]; rfl, ?_⟩
    rw [db_insert_eq env w lno p db1 (db_insert_bound_of_ok env w lno p h) hs]
    dsimp only
    rw [scr_update_rcv]
    have := rcv_calls_first w.trace [] [Event.log_line lno log_t.LOG_LINE_INSERT,
      Event.mark_insdel lnop_t.LINE_INSERT lno, Event.ex_g_insdel lnop_t.LINE_INSERT lno]
      w.exf.F_FIRSTMODIFY rfl rfl
    simpa using this
  · intro h
    obtain ⟨db1, hs, hexf⟩ := db_append_ok env w update lno p h
    refine ⟨by rw [hexf]; rfl, ?_⟩
    rw [db_append_eq env w update lno p db1 (db_append_bound_of_ok env w update lno p h) hs]
    dsimp only
    rw [scr_update_rcv]
    have := rcv_calls_first w.trace [] [Event.log_line (recno (lno + 1)) log_t.LOG_LINE_APPEND,
      Event.mark_insdel lnop_t.LINE_INSERT (recno (lno + 1)),
      Event.ex_g_insdel lnop_t.LINE_INSERT (recno (lno + 1))]
      w.exf.F_FIRSTMODIFY rfl rfl
    simpa using this
  · intro h
    obtain ⟨db1, hs, hexf⟩ := db_delete_ok env w lno h
    obtain ⟨h1, h2⟩ := db_delete_marks_of_ok env w lno h
    refine ⟨by rw [hexf]; rfl, ?_⟩
    rw [db_delete_eq env w lno db1 (db_delete_bound_of_ok env w lno h) h1 h2 hs]
    rw [scr_update_rcv]
    have := rcv_calls_first w.trace [Event.mark_insdel lnop_t.LINE_DELETE lno,
      Event.ex_g_insdel lnop_t.LINE_DELETE lno, Event.log_line lno log_t.LOG_LINE_DELETE] []
      w.exf.F_FIRSTMODIFY rfl rfl
    simpa using this
  · intro h
    obtain ⟨db1, hs, hexf⟩ := db_set_ok env w lno p h
    refine ⟨by rw [hexf]; rfl, ?_⟩
    rw [db_set_eq env w lno p db1 (db_set_bound_of_ok env w lno p h) hs]
    rw [scr_update_rcv]
    exact rcv_calls_first w.trace [Event.log_line lno log_t.LOG_LINE_RESET_B]
      [Event.log_line lno log_t.LOG_LINE_RESET_F] w.exf.F_FIRSTMODIFY rfl rfl

/-- C13, witness: a file not yet modified; `db_set 2 "x"` sets the modified
flag and calls `rcv_init` once. -/
theorem dirty_flag_and_hook_witness :
    (db_set env_ok (world_of (exf_fresh db_abc)) 2 [120]).1.exf.F_MODIFIED = true ∧
    rcv_calls (db_set env_ok (world_of (exf_fresh db_abc)) 2 [120]).1.trace = 1 :=
  (dirty_flag_and_hook env_ok (world_of (exf_fresh db_abc)) 2 [120] true).2.2.2 (by decide)

/-- C14, as amended. `db_insert` adjusts the ranges after the store update
and does not abort on their failure: when the store update of `db_insert`
succeeded and `mark_insdel` or `ex_g_insdel` fails, the call returns failure
with the store modified, the caches updated as after a successful insert, the
modified flag set, the undo record logged before the two adjustments (both
are called), and `scr_update` run after them, so that from a vi screen whose
refreshes succeed every view of the file is refreshed. -/
theorem db_insert_adjusts_after_store (env : Env) (w : World) (lno : Nat) (p : Text)
    (db1 : List Bytes) (hbound : w.sp.ep ≠ none)
    (hs : db_insert_store env w.exf.db lno (env.int2file p) = StoreUpd.ok db1)
    (hfail : env.mark_insdel lnop_t.LINE_INSERT lno = true ∨
      env.ex_g_insdel lnop_t.LINE_INSERT lno = true) :
    (db_insert env w lno p).2 = 1 ∧
    (db_insert env w lno p).1.exf.db = db1 ∧
    (db_insert env w lno p).1.exf.F_MODIFIED = true ∧
    (db_insert env w lno p).1.exf.c_lno =
      (if lno ≥ w.exf.c_lno then env.OOBLNO else w.exf.c_lno) ∧
    (db_insert env w lno p).1.exf.c_nlines =
      (if w.exf.c_nlines ≠ env.OOBLNO then recno (w.exf.c_nlines + 1) else w.exf.c_nlines) ∧
    (∃ evs, (db_insert env w lno p).1.trace =
        w.trace ++ ((if w.exf.F_FIRSTMODIFY then [Event.rcv_init] else []) ++
          [Event.log_line lno log_t.LOG_LINE_INSERT,
            Event.mark_insdel lnop_t.LINE_INSERT lno,
            Event.ex_g_insdel lnop_t.LINE_INSERT lno]) ++ evs ∧
        ∀ e ∈ evs, ∃ id, e = Event.vs_change id lno lnop_t.LINE_INSERT) ∧
    (w.sp.SC_EX = false → (∀ id l o, env.vs_change id l o = false) →
      (w.dq.map SCR.id).Nodup → w.exf.refcnt = (other_views w.sp w.dq).length + 1 →
      ∀ id, vs_calls (db_insert env w lno p).1.trace id =
        vs_calls w.trace id + refreshes w.sp w.dq true id) := by
  have heq := db_insert_eq env w lno p db1 hbound hs
  have hexf := db_insert_exf env w lno p
  obtain ⟨e, he⟩ := Option.ne_none_iff_exists'.mp hbound
  simp only [he, hs] at hexf
  refine ⟨?_, by rw [hexf]; rfl, by rw [hexf]; rfl, by rw [hexf]; rfl, by rw [hexf]; rfl,
    ?_, ?_⟩
  · rw [heq]
    dsimp only
    rw [if_pos (Or.inr hfail)]
  · rw [heq]
    dsimp only
    obtain ⟨evs, ht, hev⟩ := scr_update_trace env { w with
        exf := db_insert_post env w.exf lno db1
        trace := w.trace ++ ((if w.exf.F_FIRSTMODIFY then [Event.rcv_init] else []) ++
          [Event.log_line lno log_t.LOG_LINE_INSERT,
            Event.mark_insdel lnop_t.LINE_INSERT lno,
            Event.ex_g_insdel lnop_t.LINE_INSERT lno]) } lno lnop_t.LINE_INSERT true
    exact ⟨evs, ht, hev⟩
  · intro hex hok hnd hrc id
    obtain ⟨evs, hevs, hw⟩ := db_insert_factor env w lno p db1 hbound hs
    rw [hw]
    exact fan_out_after env w _ evs lno _ true hex hok hnd (by exact hrc) hevs id

/-- C14, witness: lines "a", "b", "c", `mark_insdel` failing; `db_insert 2 "x"`. -/
theorem db_insert_adjusts_after_store_witness :
    (db_insert env_mark_fail (world_of (exf_of db_abc 0 [] 0)) 2 [120]).2 = 1 ∧
    (db_insert env_mark_fail (world_of (exf_of db_abc 0 [] 0)) 2 [120]).1.exf.db =
      [[97], [120], [98], [99]] ∧
    (db_insert env_mark_fail (world_of (exf_of db_abc 0 [] 0)) 2 [120]).1.exf.F_MODIFIED =
      true :=
  have h := db_insert_adjusts_after_store env_mark_fail (world_of (exf_of db_abc 0 [] 0)) 2
    [120] [[97], [120], [98], [99]] (by decide) rfl (Or.inl rfl)
  ⟨h.1, h.2.1, h.2.2.1⟩

/-- C14, counterexample. Lines "a", "b", "c" with the count cached and
`mark_insdel` failing: `db_insert 2 "x"` returns failure, yet the store holds
"a", "x", "b", "c", the count cache went from 3 to 4, the modified flag is
set, the undo record was logged before the adjustment and the screen was
refreshed after it. -/
theorem db_insert_mark_failure_counterexample :
    (db_insert env_mark_fail (world_of (exf_of db_abc 0 [] 3)) 2 [120]).2 = 1 ∧
    (db_insert env_mark_fail (world_of (exf_of db_abc 0 [] 3)) 2 [120]).1.exf.db =
      [[97], [120], [98], [99]] ∧
    (db_insert env_mark_fail (world_of (exf_of db_abc 0 [] 3)) 2 [120]).1.exf.c_nlines = 4 ∧
    (world_of (exf_of db_abc 0 [] 3)).exf.F_MODIFIED = false ∧
    (db_insert env_mark_fail (world_of (exf_of db_abc 0 [] 3)) 2 [120]).1.exf.F_MODIFIED =
      true ∧
    (db_insert env_mark_fail (world_of (exf_of db_abc 0 [] 3)) 2 [120]).1.trace =
      [Event.log_line 2 log_t.LOG_LINE_INSERT, Event.mark_insdel lnop_t.LINE_INSERT 2,
        Event.ex_g_insdel lnop_t.LINE_INSERT 2, Event.vs_change 1 2 lnop_t.LINE_INSERT] := by
  decide

/-! ## The look-aside into the input queue -/

theorem tiq_span_head {sp : SCR} {l1 l2 : Nat} (h : tiq_span sp l1 l2) :
    ∃ t1, sp.tiq.head? = some t1 ∧ t1.lno = l1 := by
  have hh : (sp.tiq.map TEXT.lno).head? = some l1 := by
    rw [h.2, List.head?_range']
    simp
  rw [List.head?_map] at hh
  exact Option.map_eq_some'.mp hh

theorem tiq_span_last {sp : SCR} {l1 l2 : Nat} (h : tiq_span sp l1 l2) :
    ∃ t2, sp.tiq.getLast? = some t2 ∧ t2.lno = l2 := by
  have hh : (sp.tiq.map TEXT.lno).getLast? = some l2 := by
    rw [h.2, List.getLast?_range']
    have := h.1
    simp
    omega
  rw [List.getLast?_map] at hh
  exact Option.map_eq_some'.mp hh

theorem tiq_span_find {sp : SCR} {l1 l2 : Nat} (h : tiq_span sp l1 l2) (l : Nat)
    (h1 : l1 ≤ l) (h2 : l ≤ l2) :
    ∃ tp, sp.tiq.find? (fun tp => tp.lno == l) = some tp ∧ tp ∈ sp.tiq ∧ tp.lno = l := by
  have hm : l ∈ sp.tiq.map TEXT.lno := by
    rw [h.2, List.mem_range'_1]
    omega
  obtain ⟨t, ht, hl⟩ := List.mem_map.mp hm
  cases hf : sp.tiq.find? (fun tp => tp.lno == l) with
  | none =>
    rw [List.find?_eq_none] at hf
    exact absurd (by simp [hl]) (hf t ht)
  | some tp =>
    refine ⟨tp, rfl, List.mem_of_find?_eq_some hf, ?_⟩
    have := List.find?_some hf
    simpa using this

/-- A queue with consecutive line numbers can be read. -/
theorem tiq_wf_of_span {sp : SCR} {l1 l2 : Nat} (h : tiq_span sp l1 l2) : tiq_wf sp := by
  intro _
  obtain ⟨t1, h1, e1⟩ := tiq_span_head h
  obtain ⟨t2, h2, e2⟩ := tiq_span_last h
  refine ⟨t1, t2, h1, h2, ?_⟩
  intro l ha hb
  obtain ⟨tp, hf, _, _⟩ := tiq_span_find h l (by omega) (by omega)
  exact ⟨tp, hf⟩

theorem db_get_nocache_no_input (env : Env) (w : World) (l : Nat) (flags : DBG) :
    db_get_nocache env w.no_input l flags =
      ((db_get_nocache env w l flags).1.no_input, (db_get_nocache env w l flags).2) := by
  unfold db_get_nocache
  by_cases hg : env.db_get_err = true
  · rw [if_pos hg, if_pos hg]; rfl
  · rw [if_neg hg, if_neg hg]
    have : w.no_input.exf.db = w.exf.db := rfl
    rw [this]
    cases recno_get w.exf.db l with
    | none =>
      dsimp only
      split_ifs <;> rfl
    | some d =>
      dsimp only
      have hs : w.no_input.sp.SC_CONV_ERROR = w.sp.SC_CONV_ERROR := rfl
      rw [hs]
      split_ifs <;> rfl

theorem db_get_cache_no_input (env : Env) (w : World) (l : Nat) (flags : DBG) :
    db_get_cache env w.no_input l flags =
      ((db_get_cache env w l flags).1.no_input, (db_get_cache env w l flags).2) := by
  unfold db_get_cache
  have : w.no_input.exf = w.exf := rfl
  rw [this]
  by_cases hc : l = w.exf.c_lno
  · rw [if_pos hc, if_pos hc]
  · rw [if_neg hc, if_neg hc]
    exact db_get_nocache_no_input env { w with exf := { w.exf with c_lno := env.OOBLNO } } l flags

theorem db_get_no_input (env : Env) (w : World) (l : Nat) (flags : DBG)
    (hbound : w.sp.ep ≠ none) (hl : l ≠ 0) (hnc : flags.DBG_NOCACHE = false) :
    db_get env w.no_input l flags = some (db_get_cache env w.no_input l flags) := by
  obtain ⟨e, he⟩ := Option.ne_none_iff_exists'.mp hbound
  unfold db_get
  have h1 : w.no_input.sp.ep = some e := he
  have h2 : w.no_input.sp.SC_TINPUT = false := rfl
  simp only [hl, if_false, h1, hnc, h2, Bool.false_eq_true]

theorem recno_sub_span (L l1 l2 : Nat) (h1 : l1 ≤ l2) (h2 : l2 < L) (h3 : L < 4294967296) :
    recno_sub L (recno_sub l2 l1) = L - (l2 - l1) := by
  unfold recno_sub
  omega

/-- C15. Pending-input look-aside of `db_get`: on a bound document with an
active input queue whose entries carry the consecutive line numbers
`l1 .. l2` (from 1 on) and with cache lookups enabled, `db_get L` for
`l1 <= L <= l2` hands back the buffer and the length of the queue entry
tagged `L` and leaves the world (cache, store, trace) as it was; for
`L > l2` it gives the result, and leaves the file and the trace, of the
lookup of line `L - (l2 - l1)` with no queue active; for `1 <= L < l1` those
of the lookup of `L` with no queue active. -/
theorem pending_input_lookaside (env : Env) (w : World) (L l1 l2 : Nat) (flags : DBG)
    (hbound : w.sp.ep ≠ none) (htin : w.sp.SC_TINPUT = true)
    (hspan : tiq_span w.sp l1 l2) (hl1 : 1 ≤ l1)
    (hnc : flags.DBG_NOCACHE = false) (hL : L < 4294967296) :
    (l1 ≤ L → L ≤ l2 →
      ∃ tp, tp ∈ w.sp.tiq ∧ tp.lno = L ∧
        db_get env w L flags = some (w, { rval := 0, p := some tp.lb, len := tp.len })) ∧
    (l2 < L →
      ∃ w1 r, db_get env w L flags = some (w1, r) ∧
        db_get env w.no_input (L - (l2 - l1)) flags = some (w1.no_input, r) ∧
        w1.no_input.exf = w1.exf ∧ w1.no_input.trace = w1.trace) ∧
    (1 ≤ L → L < l1 →
      ∃ w1 r, db_get env w L flags = some (w1, r) ∧
        db_get env w.no_input L flags = some (w1.no_input, r) ∧
        w1.no_input.exf = w1.exf ∧ w1.no_input.trace = w1.trace) := by
  obtain ⟨e, he⟩ := Option.ne_none_iff_exists'.mp hbound
  obtain ⟨t1, h1, e1⟩ := tiq_span_head hspan
  obtain ⟨t2, h2, e2⟩ := tiq_span_last hspan
  have hle := hspan.1
  refine ⟨?_, ?_, ?_⟩
  · intro ha hb
    obtain ⟨tp, hf, hmem, hlno⟩ := tiq_span_find hspan L ha hb
    refine ⟨tp, hmem, hlno, ?_⟩
    have h0 : L ≠ 0 := by omega
    unfold db_get
    simp only [h0, if_false, he, hnc, htin, h1, h2, Bool.false_eq_true, if_true]
    rw [if_pos (by rw [e1, e2]; exact ⟨ha, hb⟩)]
    simp only [hf]
  · intro hgt
    have h0 : L ≠ 0 := by omega
    have hadj : L - (l2 - l1) ≠ 0 := by omega
    refine ⟨(db_get_cache env w (L - (l2 - l1)) flags).1,
      (db_get_cache env w (L - (l2 - l1)) flags).2, ?_, ?_, rfl, rfl⟩
    · unfold db_get
      simp only [h0, if_false, he, hnc, htin, h1, h2, Bool.false_eq_true, if_true]
      rw [if_neg (by rw [e1, e2]; omega), if_pos (by rw [e2]; exact hgt), e1, e2,
        recno_sub_span L l1 l2 hle hgt hL]
    · rw [db_get_no_input env w _ flags hbound hadj hnc, db_get_cache_no_input]
  · intro hge hlt
    have h0 : L ≠ 0 := by omega
    refine ⟨(db_get_cache env w L flags).1, (db_get_cache env w L flags).2, ?_, ?_, rfl, rfl⟩
    · unfold db_get
      simp only [h0, if_false, he, hnc, htin, h1, h2, Bool.false_eq_true, if_true]
      rw [if_neg (by rw [e1, e2]; omega), if_neg (by rw [e2]; omega)]
    · rw [db_get_no_input env w _ flags hbound h0 hnc, db_get_cache_no_input]

/-- C15, witness: lines "a", "b", "c" in the store, the queue holding lines 2
and 3; `db_get 3` hands back the queued "y", `db_get 4` what line 3 of the
store gives with no queue, `db_get 1` line 1. -/
theorem pending_input_lookaside_witness :
    (∃ tp, tp ∈ (world_input 3).sp.tiq ∧ tp.lno = 3 ∧
      db_get env_ok (world_input 3) 3 { DBG_FATAL := false, DBG_NOCACHE := false } =
        some (world_input 3, { rval := 0, p := some tp.lb, len := tp.len })) ∧
    (∃ w1 r, db_get env_ok (world_input 3) 4 { DBG_FATAL := false, DBG_NOCACHE := false } =
        some (w1, r) ∧
      db_get env_ok (world_input 3).no_input 3 { DBG_FATAL := false, DBG_NOCACHE := false } =
        some (w1.no_input, r) ∧
      w1.no_input.exf = w1.exf ∧ w1.no_input.trace = w1.trace) :=
  ⟨(pending_input_lookaside env_ok (world_input 3) 3 2 3
      { DBG_FATAL := false, DBG_NOCACHE := false } (by decide) rfl (by decide) (by decide) rfl
      (by decide)).1 (by decide) (by decide),
    (pending_input_lookaside env_ok (world_input 3) 4 2 3
      { DBG_FATAL := false, DBG_NOCACHE := false } (by decide) rfl (by decide) (by decide) rfl
      (by decide)).2.1 (by decide)⟩

/-- C16. Raw round trip: on a bound document `db_rset` returns; when
`db_rset L b` on an existing line `L` succeeded, the world is the old one with
record `L` of the store replaced by `b` and nothing else changed (every other
record, the cache fields, the count cache, the flags, the screen and the
trace are as before: no log entry, no refresh), and the following `db_rget L`,
its read of the store not failing, succeeds and hands back exactly `b` with
its length, whatever the cache and the input queue hold. -/
theorem raw_round_trip (env : Env) (w : World) (L : Nat) (b : Bytes)
    (hbound : w.sp.ep ≠ none) (hL : 1 ≤ L ∧ L ≤ w.exf.db.length)
    (hget : env.db_get_err = false) :
    (∃ r, db_rset env w L b = some r) ∧
    ∀ w1, db_rset env w L b = some (w1, DbRet.ok) →
      w1 = { w with exf := { w.exf with db := w.exf.db.set (L - 1) b } } ∧
      (∀ i, i ≠ L → recno_get w1.exf.db i = recno_get w.exf.db i) ∧
      w1.exf.c_lno = w.exf.c_lno ∧ w1.exf.c_lp = w.exf.c_lp ∧ w1.exf.c_len = w.exf.c_len ∧
      w1.exf.c_nlines = w.exf.c_nlines ∧ w1.exf.F_MODIFIED = w.exf.F_MODIFIED ∧
      w1.trace = w.trace ∧
      db_rget env w1 L = some (w1, { rval := DbRet.ok, p := some b, len := some b.length }) := by
  obtain ⟨e, he⟩ := Option.ne_none_iff_exists'.mp hbound
  have hput : recno_put w.exf.db L b = some (w.exf.db.set (L - 1) b) := by
    unfold recno_put
    rw [if_pos hL]
  constructor
  · unfold db_rset
    simp only [he, hput]
    split_ifs <;> exact ⟨_, rfl⟩
  · intro w1 h
    unfold db_rset at h
    simp only [he, hput] at h
    by_cases hp : env.db_put_err = true
    · rw [if_pos hp] at h
      have := (Prod.mk.inj (Option.some.inj h)).2
      cases this
    · rw [if_neg hp] at h
      have hw : w1 = { w with exf := { w.exf with db := w.exf.db.set (L - 1) b } } :=
        ((Prod.mk.inj (Option.some.inj h)).1).symm
      subst hw
      refine ⟨rfl, ?_, rfl, rfl, rfl, rfl, rfl, rfl, ?_⟩
      · intro i hi
        exact recno_get_set_other _ _ _ _ hi hL.1
      · unfold db_rget
        simp only [he, hget, Bool.false_eq_true, if_false]
        rw [recno_get_set_same _ _ _ hL.1 hL.2]

/-- C16, witness: lines "a", "b", "c" with a pending input queue on lines 2
and 3; `db_rset 2 "x"` then `db_rget 2`. -/
theorem raw_round_trip_witness :
    db_rset env_ok (world_input 3) 2 [120] =
      some ({ world_input 3 with exf := { (world_input 3).exf with
        db := [[97], [120], [99]] } }, DbRet.ok) ∧
    db_rget env_ok { world_input 3 with exf := { (world_input 3).exf with
        db := [[97], [120], [99]] } } 2 =
      some ({ world_input 3 with exf := { (world_input 3).exf with
        db := [[97], [120], [99]] } }, { rval := DbRet.ok, p := some [120], len := some 1 }) :=
  ⟨by decide,
    ((raw_round_trip env_ok (world_input 3) 2 [120] (by decide) (by decide) rfl).2
      { world_input 3 with exf := { (world_input 3).exf with db := [[97], [120], [99]] } }
      (by decide)).2.2.2.2.2.2.2.2⟩

/-! ## round_up -/

theorem size_neg_two_pow (bits k : Nat) (h : k < bits) :
    size_neg bits (2 ^ k) = 2 ^ bits - 2 ^ k := by
  unfold size_neg
  have h1 : 2 ^ k < 2 ^ bits := Nat.pow_lt_pow_right (by decide) h
  have h2 : 0 < 2 ^ k := Nat.two_pow_pos k
  rw [Nat.mod_eq_of_lt h1, Nat.mod_eq_of_lt (by omega)]

theorem two_pow_and_neg (bits k : Nat) (h : k < bits) :
    2 ^ k &&& size_neg bits (2 ^ k) = 2 ^ k := by
  rw [size_neg_two_pow bits k h]
  have h2 : 0 < 2 ^ k := Nat.two_pow_pos k
  have hx : 2 ^ bits - 2 ^ k = 2 ^ bits - ((2 ^ k - 1) + 1) := by
    congr 1; omega
  apply Nat.eq_of_testBit_eq
  intro i
  rw [Nat.testBit_and, hx,
    Nat.testBit_two_pow_sub_succ (by
      have : 2 ^ k < 2 ^ bits := Nat.pow_lt_pow_right (by decide) h
      omega) i,
    Nat.testBit_two_pow_sub_one, Nat.testBit_two_pow]
  by_cases hi : k = i
  · subst hi
    simp [h]
  · simp [hi]

theorem round_up_loop_zero (bits fuel old_v : Nat) :
    round_up_loop bits fuel 0 old_v = some old_v := by
  cases fuel <;> simp [round_up_loop]

/-- C17, on every power of two. On a word of `bits` bits `round_up` doubles
a power of two: `round_up (2 ^ k) = 2 ^ (k + 1)` whenever the result fits the
word as a signed number, so that a page-size hint that already is a power of
two is not returned unchanged. -/
theorem round_up_doubles_power_of_two (bits k : Nat) (h : k + 1 < bits) :
    round_up bits (2 ^ k) = some (2 ^ (k + 1)) := by
  obtain ⟨f, hf⟩ : ∃ f, bits = f + 1 := ⟨bits - 1, by omega⟩
  have hk : k < bits := by omega
  have h0 : 2 ^ k ≠ 0 := Nat.pos_iff_ne_zero.mp (Nat.two_pow_pos k)
  have hloop : round_up_loop bits bits (2 ^ k) (2 ^ k) = some (2 ^ k) := by
    conv_lhs => arg 2; rw [hf]
    rw [round_up_loop, if_neg h0, two_pow_and_neg bits k hk, Nat.xor_self,
      round_up_loop_zero]
  unfold round_up
  rw [hloop]
  simp only [Option.map_some', Option.some.injEq]
  rw [Nat.shiftLeft_eq, ← Nat.pow_succ]
  exact Nat.mod_eq_of_lt (Nat.pow_lt_pow_right (by decide) h)

/-- C17, at the failing input: the hint 4096 on a 64-bit `size_t` gives 8192. -/
theorem round_up_doubles_power_of_two_witness :
    round_up 64 4096 = some 8192 :=
  round_up_doubles_power_of_two 64 12 (by decide)

/-! ## db_init -/

theorem db_init_rval (bits : Nat) (ie : InitEnv) (rcv_name : Option (List Nat))
    (oname : List Nat) (psize oe : Nat) :
    (db_init bits ie rcv_name oname psize oe).rval =
      if ie.mkstemp_err = true ∨ ie.mkdir_err = true ∨ ie.db_env_create_err = true ∨
        ie.env_open_err = true ∨ ie.strdup_err = true ∨ ie.db_create_err = true ∨
        ie.db_open_err = true ∨ ie.db_close_err = true ∨ ie.db_create2_err = true ∨
        ie.db_reopen_err = true then 1 else 0 := by
  unfold db_init
  dsimp only
  by_cases h0 : ie.mkstemp_err = true
  · rw [if_pos h0, if_pos (Or.inl h0)]
  rw [if_neg h0]
  by_cases h1 : ie.mkdir_err = true
  · rw [if_pos h1, if_pos (Or.inr (Or.inl h1))]
  rw [if_neg h1]
  by_cases h2 : ie.db_env_create_err = true
  · rw [if_pos h2, if_pos (Or.inr (Or.inr (Or.inl h2)))]
  rw [if_neg h2]
  by_cases h3 : ie.env_open_err = true
  · rw [if_pos h3, if_pos (Or.inr (Or.inr (Or.inr (Or.inl h3))))]
  rw [if_neg h3]
  by_cases h4 : ie.strdup_err = true
  · rw [if_pos h4, if_pos (Or.inr (Or.inr (Or.inr (Or.inr (Or.inl h4)))))]
  rw [if_neg h4]
  by_cases h5 : ie.db_create_err = true
  · rw [if_pos h5, if_pos (Or.inr (Or.inr (Or.inr (Or.inr (Or.inr (Or.inl h5))))))]
  rw [if_neg h5]
  by_cases h6 : ie.db_open_err = true
  · rw [if_pos h6, if_pos (Or.inr (Or.inr (Or.inr (Or.inr (Or.inr (Or.inr (Or.inl h6)))))))]
  rw [if_neg h6]
  by_cases h7 : ie.db_close_err = true
  · rw [if_pos h7, if_pos (Or.inr (Or.inr (Or.inr (Or.inr (Or.inr (Or.inr (Or.inr (Or.inl h7))))))))]
  rw [if_neg h7]
  by_cases h8 : ie.db_create2_err = true
  · rw [if_pos h8, if_pos (Or.inr (Or.inr (Or.inr (Or.inr (Or.inr (Or.inr (Or.inr (Or.inr (Or.inl h8)))))))))]
  rw [if_neg h8]
  by_cases h9 : ie.db_reopen_err = true
  · rw [if_pos h9, if_pos (Or.inr (Or.inr (Or.inr (Or.inr (Or.inr (Or.inr (Or.inr (Or.inr (Or.inr (h9))))))))))]
  rw [if_neg h9]
  have hn : ¬ (ie.mkstemp_err = true ∨ ie.mkdir_err = true ∨ ie.db_env_create_err = true ∨
      ie.env_open_err = true ∨ ie.strdup_err = true ∨ ie.db_create_err = true ∨
      ie.db_open_err = true ∨ ie.db_close_err = true ∨ ie.db_create2_err = true ∨
      ie.db_reopen_err = true) := by
    intro h
    rcases h with h | h | h | h | h | h | h | h | h | h
    all_goals contradiction
  rw [if_neg hn]

theorem db_init_indicator (bits : Nat) (ie : InitEnv) (rcv_name : Option (List Nat))
    (oname : List Nat) (psize oe : Nat) :
    (db_init bits ie rcv_name oname psize oe).open_err =
      if ie.mkstemp_err = false ∧ ie.mkdir_err = false ∧ ie.db_env_create_err = false ∧
        ie.env_open_err = false ∧ ie.strdup_err = false ∧ ie.db_create_err = false ∧
        ie.db_open_err = true then 1 else oe := by
  unfold db_init
  dsimp only
  by_cases h0 : ie.mkstemp_err = true
  · rw [if_pos h0, if_neg (by
      intro h
      have := h.1
      rw [h0] at this
      exact Bool.noConfusion this)]
  rw [if_neg h0]
  by_cases h1 : ie.mkdir_err = true
  · rw [if_pos h1, if_neg (by
      intro h
      have := h.2.1
      rw [h1] at this
      exact Bool.noConfusion this)]
  rw [if_neg h1]
  by_cases h2 : ie.db_env_create_err = true
  · rw [if_pos h2, if_neg (by
      intro h
      have := h.2.2.1
      rw [h2] at this
      exact Bool.noConfusion this)]
  rw [if_neg h2]
  by_cases h3 : ie.env_open_err = true
  · rw [if_pos h3, if_neg (by
      intro h
      have := h.2.2.2.1
      rw [h3] at this
      exact Bool.noConfusion this)]
  rw [if_neg h3]
  by_cases h4 : ie.strdup_err = true
  · rw [if_pos h4, if_neg (by
      intro h
      have := h.2.2.2.2.1
      rw [h4] at this
      exact Bool.noConfusion this)]
  rw [if_neg h4]
  by_cases h5 : ie.db_create_err = true
  · rw [if_pos h5, if_neg (by
      intro h
      have := h.2.2.2.2.2.1
      rw [h5] at this
      exact Bool.noConfusion this)]
  rw [if_neg h5]
  by_cases h6 : ie.db_open_err = true
  · have hc : (ie.mkstemp_err = false ∧ ie.mkdir_err = false ∧ ie.db_env_create_err = false ∧
      ie.env_open_err = false ∧ ie.strdup_err = false ∧ ie.db_create_err = false ∧
      ie.db_open_err = true) :=
      ⟨Bool.eq_false_iff.mpr h0, Bool.eq_false_iff.mpr h1, Bool.eq_false_iff.mpr h2,
        Bool.eq_false_iff.mpr h3, Bool.eq_false_iff.mpr h4, Bool.eq_false_iff.mpr h5, h6⟩
    rw [if_pos h6, if_pos hc]
  have hcn : ¬ (ie.mkstemp_err = false ∧ ie.mkdir_err = false ∧ ie.db_env_create_err = false ∧
      ie.env_open_err = false ∧ ie.strdup_err = false ∧ ie.db_create_err = false ∧
      ie.db_open_err = true) :=
    fun h => h6 h.2.2.2.2.2.2
  rw [if_neg h6, if_neg hcn]
  split_ifs <;> rfl

theorem init_env_eq_ok (ie : InitEnv) :
    ie = init_ok ↔ ¬ (ie.mkstemp_err = true ∨ ie.mkdir_err = true ∨
      ie.db_env_create_err = true ∨ ie.env_open_err = true ∨ ie.strdup_err = true ∨
      ie.db_create_err = true ∨ ie.db_open_err = true ∨ ie.db_close_err = true ∨
      ie.db_create2_err = true ∨ ie.db_reopen_err = true) := by
  rcases ie with ⟨a, b, c, d, e, f, g, h, i, j⟩
  unfold init_ok
  simp only [InitEnv.mk.injEq, not_or, Bool.not_eq_true]

/-- C18. Soft and fatal failures of `db_init`: it returns 0 exactly when no
call fails, and 1 otherwise; when the first open of the store (the one that
loads the source or the recovery file) is reached and fails, it returns 1
with the open-error indicator set to 1; in every other case, success or the
failure of any other call (temporary directory, environment creation or
open, path copy, store handle, close, second handle, reopen), the indicator
is left as the caller passed it. -/
theorem db_init_open_err (bits : Nat) (ie : InitEnv) (rcv_name : Option (List Nat))
    (oname : List Nat) (psize oe : Nat) :
    ((db_init bits ie rcv_name oname psize oe).rval = 0 ↔ ie = init_ok) ∧
    ((db_init bits ie rcv_name oname psize oe).rval = 0 ∨
      (db_init bits ie rcv_name oname psize oe).rval = 1) ∧
    ((ie.mkstemp_err = false ∧ ie.mkdir_err = false ∧ ie.db_env_create_err = false ∧
        ie.env_open_err = false ∧ ie.strdup_err = false ∧ ie.db_create_err = false ∧
        ie.db_open_err = true) →
      (db_init bits ie rcv_name oname psize oe).rval = 1 ∧
      (db_init bits ie rcv_name oname psize oe).open_err = 1) ∧
    (¬ (ie.mkstemp_err = false ∧ ie.mkdir_err = false ∧ ie.db_env_create_err = false ∧
        ie.env_open_err = false ∧ ie.strdup_err = false ∧ ie.db_create_err = false ∧
        ie.db_open_err = true) →
      (db_init bits ie rcv_name oname psize oe).open_err = oe) := by
  rw [db_init_rval, db_init_indicator, init_env_eq_ok]
  refine ⟨?_, ?_, ?_, ?_⟩
  · split_ifs with h
    · simp [h]
    · simp [h]
  · split_ifs
    · exact Or.inr rfl
    · exact Or.inl rfl
  · intro h
    rw [if_pos h, if_pos (by simp [h.2.2.2.2.2.2])]
    exact ⟨rfl, rfl⟩
  · intro h
    rw [if_neg h]

/-- C18, witness: the first open fails with the indicator passed as 0; the
reopen fails with the indicator passed as 0. -/
theorem db_init_open_err_witness :
    (db_init 64 { init_ok with db_open_err := true } none [102] 4096 0).rval = 1 ∧
    (db_init 64 { init_ok with db_open_err := true } none [102] 4096 0).open_err = 1 ∧
    (db_init 64 { init_ok with db_reopen_err := true } none [102] 4096 0).open_err = 0 :=
  ⟨((db_init_open_err 64 { init_ok with db_open_err := true } none [102] 4096 0).2.2.1
      (by decide)).1,
    ((db_init_open_err 64 { init_ok with db_open_err := true } none [102] 4096 0).2.2.1
      (by decide)).2,
    (db_init_open_err 64 { init_ok with db_reopen_err := true } none [102] 4096 0).2.2.2
      (by decide)⟩

/-! ## Failure of the store update -/

theorem failed_untouched_emit (w : World) (evs : List Event)
    (h1 : rcv_calls evs = 0) (h2 : ∀ id, vs_calls evs id = 0) :
    failed_untouched w ({ w with trace := w.trace ++ evs }, 1) := by
  refine ⟨rfl, rfl, rfl, rfl, rfl, rfl, ?_, ?_⟩
  · show rcv_calls (w.trace ++ evs) = rcv_calls w.trace
    rw [rcv_calls_append, h1]; rfl
  · intro id
    show vs_calls (w.trace ++ evs) id = vs_calls w.trace id
    rw [vs_calls_append, h2 id]; rfl

/-- C19. Failure before the store write leaves the caches alone: on a bound
document, when the store update of `db_delete`, `db_append`, `db_insert` or
`db_set` fails (cursor open, cursor positioning, put or delete), and for
`db_delete` also when `mark_insdel` or `ex_g_insdel` fails before it, the call
returns failure with the cached line number, bytes and length, the count
cache and the modified flag as they were, no call of `rcv_init` and no call
of `vs_change`. -/
theorem failure_before_store_write (env : Env) (w : World) (lno : Nat) (p : Text)
    (update : Bool) (hbound : w.sp.ep ≠ none) :
    ((env.mark_insdel lnop_t.LINE_DELETE lno = true ∨
        env.ex_g_insdel lnop_t.LINE_DELETE lno = true ∨
        ∀ db1, db_delete_store env w.exf.db lno ≠ StoreUpd.ok db1) →
      failed_untouched w (db_delete env w lno)) ∧
    ((∀ db1, db_append_store env w.exf.db lno (env.int2file p) ≠ StoreUpd.ok db1) →
      failed_untouched w (db_append env w update lno p)) ∧
    ((∀ db1, db_insert_store env w.exf.db lno (env.int2file p) ≠ StoreUpd.ok db1) →
      failed_untouched w (db_insert env w lno p)) ∧
    ((∀ db1, db_set_store env w.exf.db lno (env.int2file p) ≠ StoreUpd.ok db1) →
      failed_untouched w (db_set env w lno p)) := by
  obtain ⟨e, he⟩ := Option.ne_none_iff_exists'.mp hbound
  refine ⟨?_, ?_, ?_, ?_⟩
  · intro h
    unfold db_delete
    simp only [he]
    by_cases h1 : env.mark_insdel lnop_t.LINE_DELETE lno = true
    · rw [if_pos h1]
      exact failed_untouched_emit w [Event.mark_insdel lnop_t.LINE_DELETE lno] rfl (fun _ => rfl)
    · rw [if_neg h1]
      by_cases h2 : env.ex_g_insdel lnop_t.LINE_DELETE lno = true
      · rw [if_pos h2]
        have := failed_untouched_emit w [Event.mark_insdel lnop_t.LINE_DELETE lno,
          Event.ex_g_insdel lnop_t.LINE_DELETE lno] rfl (fun _ => rfl)
        simpa [World.emit] using this
      · rw [if_neg h2]
        have hs : ∀ db1, db_delete_store env w.exf.db lno ≠ StoreUpd.ok db1 := by
          rcases h with h | h | h
          · exact absurd h h1
          · exact absurd h h2
          · exact h
        simp only [emit_exf]
        have hres := failed_untouched_emit w [Event.mark_insdel lnop_t.LINE_DELETE lno,
          Event.ex_g_insdel lnop_t.LINE_DELETE lno, Event.log_line lno log_t.LOG_LINE_DELETE,
          Event.msgq (Msg.unable_delete lno)] rfl (fun _ => rfl)
        cases hd : db_delete_store env w.exf.db lno with
        | ok db1 => exact absurd hd (hs db1)
        | failed => simpa [World.emit] using hres
        | failed_silent => simpa [World.emit] using hres
  · intro hs
    unfold db_append
    simp only [he]
    cases hd : db_append_store env w.exf.db lno (env.int2file p) with
    | ok db1 => exact absurd hd (hs db1)
    | failed =>
      exact failed_untouched_emit w [Event.msgq (Msg.unable_append lno)] rfl (fun _ => rfl)
    | failed_silent =>
      have := failed_untouched_emit w [] rfl (fun _ => rfl)
      simpa using this
  · intro hs
    unfold db_insert
    simp only [he]
    cases hd : db_insert_store env w.exf.db lno (env.int2file p) with
    | ok db1 => exact absurd hd (hs db1)
    | failed =>
      exact failed_untouched_emit w [Event.msgq (Msg.unable_insert lno)] rfl (fun _ => rfl)
    | failed_silent =>
      have := failed_untouched_emit w [] rfl (fun _ => rfl)
      simpa using this
  · intro hs
    unfold db_set
    simp only [he, emit_exf]
    have hres := failed_untouched_emit w [Event.log_line lno log_t.LOG_LINE_RESET_B,
      Event.msgq (Msg.unable_store lno)] rfl (fun _ => rfl)
    cases hd : db_set_store env w.exf.db lno (env.int2file p) with
    | ok db1 => exact absurd hd (hs db1)
    | failed => simpa [World.emit] using hres
    | failed_silent => simpa [World.emit] using hres

/-- C19, witness: lines "a", "b", "c" in a file not yet modified, and a store
whose cursor, put and delete calls fail. -/
theorem failure_before_store_write_witness :
    failed_untouched (world_of (exf_fresh db_abc))
      (db_delete env_store_fail (world_of (exf_fresh db_abc)) 2) ∧
    failed_untouched (world_of (exf_fresh db_abc))
      (db_append env_store_fail (world_of (exf_fresh db_abc)) true 2 [120]) ∧
    failed_untouched (world_of (exf_fresh db_abc))
      (db_set env_store_fail (world_of (exf_fresh db_abc)) 2 [120]) :=
  have h := failure_before_store_write env_store_fail (world_of (exf_fresh db_abc)) 2 [120]
    true (by decide)
  ⟨h.1 (Or.inr (Or.inr (fun _ hs => by cases hs))), h.2.1 (fun _ hs => by cases hs),
    h.2.2.2 (fun _ hs => by cases hs)⟩

/-- C20, at the failing input. Lines "a", "b", "c" in the store while the
user types at line 2, the input queue holding lines 2 and 3: with an invalid
count cache `db_last` reports 3 (the larger of the last record number and the
last queued line), with the count cache holding the true count 3 it reports
4 (the count plus the span of the queue); and of two `db_last` calls in a row
from the invalid cache, the first reports 3 and the second 4. -/
theorem db_last_depends_on_count_cache :
    count_coherent env_ok (world_input 0).exf ∧
    count_coherent env_ok (world_input 3).exf ∧
    tiq_span (world_input 0).sp 2 3 ∧
    (db_last env_ok (world_input 0)).map Prod.snd = some { rval := 0, lno := some 3 } ∧
    (db_last env_ok (world_input 3)).map Prod.snd = some { rval := 0, lno := some 4 } ∧
    ((db_last env_ok (world_input 0)).bind (fun r => db_last env_ok r.1)).map Prod.snd =
      some { rval := 0, lno := some 4 } := by
  decide

/-- One pass of the loop of `round_up` clears the lowest set bit: a word
`2 ^ (t + 1) * m + 2 ^ t` becomes `2 ^ (t + 1) * m`. -/
theorem round_up_pass (bits t m : Nat) (hv : 2 ^ (t + 1) * m + 2 ^ t < 2 ^ bits) :
    (2 ^ (t + 1) * m + 2 ^ t) ^^^
        ((2 ^ (t + 1) * m + 2 ^ t) &&& size_neg bits (2 ^ (t + 1) * m + 2 ^ t)) =
      2 ^ (t + 1) * m := by
  have hB : 0 < 2 ^ t := Nat.two_pow_pos t
  have hAB : 2 ^ (t + 1) = 2 * 2 ^ t := by rw [Nat.pow_succ]; omega
  have ht : t + 1 ≤ bits := by
    have h1 : 2 ^ t < 2 ^ bits := by omega
    have := (Nat.pow_lt_pow_iff_right (by decide : 1 < 2)).mp h1
    omega
  obtain ⟨n, hn⟩ : ∃ n, bits = (t + 1) + n := ⟨bits - (t + 1), by omega⟩
  have hpow : 2 ^ bits = 2 ^ (t + 1) * 2 ^ n := by rw [hn, Nat.pow_add]
  have hm : m < 2 ^ n := by
    have h1 : 2 ^ (t + 1) * m < 2 ^ (t + 1) * 2 ^ n := by omega
    exact Nat.lt_of_mul_lt_mul_left h1
  have hneg : size_neg bits (2 ^ (t + 1) * m + 2 ^ t) =
      2 ^ (t + 1) * (2 ^ n - (m + 1)) + 2 ^ t := by
    unfold size_neg
    rw [Nat.mod_eq_of_lt hv, Nat.mod_eq_of_lt (by omega)]
    have h2 : 2 ^ (t + 1) * (m + 1) ≤ 2 ^ (t + 1) * 2 ^ n := Nat.mul_le_mul_left _ hm
    rw [Nat.mul_sub, hpow]
    rw [Nat.mul_add, Nat.mul_one] at h2 ⊢
    omega
  rw [hneg]
  have hlt : 2 ^ t < 2 ^ (t + 1) := by omega
  apply Nat.eq_of_testBit_eq
  intro j
  rw [Nat.testBit_xor, Nat.testBit_and, Nat.testBit_mul_pow_two_add m hlt j,
    Nat.testBit_mul_pow_two_add (2 ^ n - (m + 1)) hlt j, Nat.testBit_mul_pow_two,
    Nat.testBit_two_pow_sub_succ hm]
  by_cases hj : j < t + 1
  · have : ¬ (j ≥ t + 1) := by omega
    simp [hj, this]
  · have : j ≥ t + 1 := by omega
    simp only [hj, if_false, this, decide_True, Bool.true_and]
    cases m.testBit (j - (t + 1)) <;> simp

theorem two_pow_le_of_dvd_odd (j k m : Nat) (h : 2 ^ j ∣ 2 ^ (k + 1) * m + 2 ^ k) : j ≤ k := by
  by_contra hlt
  have hk : k + 1 ≤ j := by omega
  have h1 : 2 ^ (k + 1) ∣ 2 ^ (k + 1) * m + 2 ^ k :=
    Nat.dvd_trans (Nat.pow_dvd_pow 2 hk) h
  have h2 : 2 ^ (k + 1) ∣ 2 ^ k := (Nat.dvd_add_right (Nat.dvd_mul_right _ _)).mp h1
  have h3 := Nat.le_of_dvd (Nat.two_pow_pos k) h2
  have : 2 ^ (k + 1) = 2 * 2 ^ k := by rw [Nat.pow_succ]; omega
  have := Nat.two_pow_pos k
  omega

theorem log2_clear_low (k m : Nat) (hm : m ≠ 0) :
    Nat.log2 (2 ^ (k + 1) * m + 2 ^ k) = Nat.log2 (2 ^ (k + 1) * m) := by
  have hA : 0 < 2 ^ (k + 1) := Nat.two_pow_pos (k + 1)
  have hAB : 2 ^ (k + 1) = 2 * 2 ^ k := by rw [Nat.pow_succ]; omega
  have hB : 0 < 2 ^ k := Nat.two_pow_pos k
  have hv' : 2 ^ (k + 1) * m ≠ 0 := Nat.mul_ne_zero (by omega) hm
  have hv : 2 ^ (k + 1) * m + 2 ^ k ≠ 0 := by omega
  have hlo : 2 ^ Nat.log2 (2 ^ (k + 1) * m) ≤ 2 ^ (k + 1) * m := Nat.log2_self_le hv'
  have hhi : 2 ^ (k + 1) * m < 2 ^ (Nat.log2 (2 ^ (k + 1) * m) + 1) := Nat.lt_log2_self
  have hk : k + 1 ≤ Nat.log2 (2 ^ (k + 1) * m) := by
    rw [Nat.le_log2 hv']
    calc 2 ^ (k + 1) = 2 ^ (k + 1) * 1 := (Nat.mul_one _).symm
      _ ≤ 2 ^ (k + 1) * m := Nat.mul_le_mul_left _ (by omega)
  obtain ⟨d, hd⟩ : ∃ d, Nat.log2 (2 ^ (k + 1) * m) + 1 = (k + 1) + d :=
    ⟨Nat.log2 (2 ^ (k + 1) * m) + 1 - (k + 1), by omega⟩
  have hm2 : m < 2 ^ d := by
    rw [hd, Nat.pow_add 2 (k + 1) d] at hhi
    exact Nat.lt_of_mul_lt_mul_left hhi
  have hup : 2 ^ (k + 1) * m + 2 ^ k < 2 ^ (Nat.log2 (2 ^ (k + 1) * m) + 1) := by
    rw [hd, Nat.pow_add 2 (k + 1) d]
    have h2 : 2 ^ (k + 1) * (m + 1) ≤ 2 ^ (k + 1) * 2 ^ d := Nat.mul_le_mul_left _ hm2
    rw [Nat.mul_add, Nat.mul_one] at h2
    omega
  apply Nat.eq_of_le_of_lt_succ
  · rw [Nat.le_log2 hv]; omega
  · rw [Nat.log2_lt hv]; exact hup

/-- The loop of `round_up` ends, within the passes a word of `bits` bits
allows, with the highest set bit of `v` in `old_v`. -/
theorem round_up_loop_eq (bits : Nat) :
    ∀ (fuel v old_v j : Nat), v < 2 ^ bits → 2 ^ j ∣ v → bits ≤ fuel + j → v ≠ 0 →
      round_up_loop bits fuel v old_v = some (2 ^ Nat.log2 v) := by
  intro fuel
  induction fuel with
  | zero =>
    intro v old_v j hv hj hb h0
    exfalso
    have h1 := Nat.le_of_dvd (Nat.pos_of_ne_zero h0) hj
    have h2 : 2 ^ bits ≤ 2 ^ j := Nat.pow_le_pow_right (by decide) (by omega)
    omega
  | succ fuel ih =>
    intro v old_v j hv hj hb h0
    obtain ⟨k, m0, hodd, hvk⟩ := Nat.exists_eq_two_pow_mul_odd h0
    obtain ⟨m, hm0⟩ := hodd
    have hform : v = 2 ^ (k + 1) * m + 2 ^ k := by
      rw [hvk, hm0, Nat.pow_succ]
      ring
    subst hform
    have hjk : j ≤ k := two_pow_le_of_dvd_odd j k m hj
    rw [round_up_loop, if_neg h0, round_up_pass bits k m hv]
    by_cases hm : m = 0
    · subst hm
      rw [Nat.mul_zero, round_up_loop_zero, Nat.zero_add, Nat.log2_two_pow]
    · have hv' : 2 ^ (k + 1) * m ≠ 0 := Nat.mul_ne_zero (Nat.pos_iff_ne_zero.mp
        (Nat.two_pow_pos _)) hm
      rw [ih (2 ^ (k + 1) * m) _ (k + 1) (Nat.lt_of_le_of_lt (Nat.le_add_right _ _) hv)
          (Nat.dvd_mul_right _ _) (by omega) hv',
        log2_clear_low k m hm]

/-- On a word of `bits` bits, for every hint from 1 on whose result fits the
word as a signed number, `round_up v` is `2 ^ (log2 v + 1)`: the smallest
power of two strictly greater than `v`. -/
theorem round_up_eq (bits v : Nat) (h1 : 1 ≤ v) (h2 : Nat.log2 v + 1 < bits) :
    round_up bits v = some (2 ^ (Nat.log2 v + 1)) := by
  have h0 : v ≠ 0 := by omega
  have hv : v < 2 ^ bits := by
    have := (Nat.log2_lt h0).mp (show Nat.log2 v < bits by omega)
    exact this
  unfold round_up
  rw [round_up_loop_eq bits bits v v 0 hv (by simp) (by omega) h0]
  simp only [Option.map_some', Option.some.injEq]
  rw [Nat.shiftLeft_eq, ← Nat.pow_succ]
  exact Nat.mod_eq_of_lt (Nat.pow_lt_pow_right (by decide) h2)

/-- The result of `round_up` is strictly greater than the hint and at most
twice the hint, so a hint that is a power of two is never returned unchanged. -/
theorem round_up_strictly_greater (bits v : Nat) (h1 : 1 ≤ v) (h2 : Nat.log2 v + 1 < bits) :
    ∃ r, round_up bits v = some r ∧ v < r ∧ r ≤ 2 * v := by
  have h0 : v ≠ 0 := by omega
  refine ⟨2 ^ (Nat.log2 v + 1), round_up_eq bits v h1 h2, Nat.lt_log2_self, ?_⟩
  have := Nat.log2_self_le h0
  rw [Nat.pow_succ]
  omega

/-- Evaluation of `round_up` on a 64-bit word at hints that are not powers of
two, where the result is the next power of two. -/
theorem round_up_non_power_examples :
    round_up 64 5 = some 8 ∧ round_up 64 4097 = some 8192 ∧ round_up 64 3 = some 4 := by
  decide

theorem cache_in_store_of_coherent (env : Env) (ep : EXF) (h : cache_coherent env ep) :
    cache_in_store env ep := by
  rcases h with h | ⟨h1, _⟩
  · exact Or.inl h
  · cases hd : recno_get ep.db ep.c_lno with
    | none => rw [hd] at h1; simp at h1
    | some d => exact Or.inr (recno_get_eq_some_le hd)

/-- The return value of `db_get` without pending input, when reads succeed
and every record converts: success exactly on the lines of the store, given
that a cache hit names a line of the store. -/
theorem db_get_rval (env : Env) (w : World) (lno : Nat) (flags : DBG)
    (hep : w.sp.ep ≠ none) (htin : w.sp.SC_TINPUT = false)
    (hget : env.db_get_err = false) (hbinc : (env.conv_copies && env.binc_err) = false)
    (hconvs : ∀ d ∈ w.exf.db, (env.file2int d).1 = false)
    (hcache : w.exf.c_lno = lno → lno = 0 ∨ (1 ≤ lno ∧ lno ≤ w.exf.db.length)) :
    ∃ w1 g, db_get env w lno flags = some (w1, g) ∧
      (g.rval = 0 ↔ (1 ≤ lno ∧ lno ≤ w.exf.db.length)) := by
  by_cases hin : 1 ≤ lno ∧ lno ≤ w.exf.db.length
  · obtain ⟨d, hd⟩ := recno_get_of_le w.exf.db lno hin.1 hin.2
    have hmem : d ∈ w.exf.db := by
      unfold recno_get at hd
      split_ifs at hd
      exact List.getElem?_mem hd
    have hconv : env.file2int d = (false, (env.file2int d).2) := by
      rw [← hconvs d hmem]
    have h0 : lno ≠ 0 := by omega
    obtain ⟨e, he⟩ := Option.ne_none_iff_exists'.mp hep
    unfold db_get
    simp only [h0, if_false, he, htin]
    cases hnc : flags.DBG_NOCACHE with
    | true =>
      simp only [if_true]
      rw [db_get_nocache_found env _ lno flags d _ hget hbinc hd hconv]
      exact ⟨_, _, rfl, by simp [hin]⟩
    | false =>
      simp only [Bool.false_eq_true, if_false]
      unfold db_get_cache
      by_cases hhit : lno = w.exf.c_lno
      · rw [if_pos hhit]
        exact ⟨_, _, rfl, by simp [hin]⟩
      · rw [if_neg hhit]
        have := db_get_nocache_found env { w with exf := { w.exf with c_lno := env.OOBLNO } }
          lno flags d _ hget hbinc hd hconv
        rw [this]
        exact ⟨_, _, rfl, by simp [hin]⟩
  · by_cases h0 : lno = 0
    · unfold db_get
      rw [if_pos h0]
      exact ⟨_, _, rfl, by simp [GetRes.err3, h0]⟩
    · have hgt : w.exf.db.length < lno := by omega
      have hne : w.exf.c_lno ≠ lno := by
        intro hc
        rcases hcache hc with h | h
        · exact h0 h
        · exact hin h
      obtain ⟨w1, hg⟩ := db_get_absent env w lno flags htin
        (recno_get_none_of_gt w.exf.db lno hgt) hne
      exact ⟨w1, _, hg, by simp [GetRes.err3, hin]⟩

/-- The value of `db_exist` on a bound document without pending input, when
reads succeed and every record converts: 1 exactly on the lines of the store. -/
theorem db_exist_value (env : Env) (w : World) (L : Nat)
    (hep : w.sp.ep ≠ none) (htin : w.sp.SC_TINPUT = false)
    (hread : reads_ok env)
    (hconvs : ∀ d ∈ w.exf.db, (env.file2int d).1 = false)
    (hcnt : count_coherent env w.exf) (hcache : cache_in_store env w.exf)
    (hoob : oob_outside env w.exf.db.length) (hzero : env.OOBLNO = 0 ∨ L ≠ 0) :
    ∃ w1, db_exist env w L =
      some (w1, if 1 ≤ L ∧ L ≤ w.exf.db.length then 1 else 0) := by
  obtain ⟨e, he⟩ := Option.ne_none_iff_exists'.mp hep
  obtain ⟨hget, _, _, hbinc⟩ := hread
  unfold db_exist
  simp only [he]
  by_cases hL : L = env.OOBLNO
  · rw [if_pos hL]
    have hn : ¬ (1 ≤ L ∧ L ≤ w.exf.db.length) := by
      rcases hoob with h | h <;> omega
    rw [if_neg hn]
    exact ⟨_, rfl⟩
  · rw [if_neg hL]
    by_cases hv : w.exf.c_nlines ≠ env.OOBLNO
    · rw [if_pos hv]
      have hc : w.exf.c_nlines = w.exf.db.length := by
        rcases hcnt with h | h
        · exact absurd h hv
        · exact h
      have h1 : 1 ≤ L := by
        rcases hzero with h | h <;> omega
      simp only [htin, Bool.false_eq_true, if_false, hc]
      have hiff : (1 ≤ L ∧ L ≤ w.exf.db.length) ↔ L ≤ w.exf.db.length :=
        ⟨fun h => h.2, fun h => ⟨h1, h⟩⟩
      simp only [hiff]
      exact ⟨_, rfl⟩
    · rw [if_neg hv]
      have hc : w.exf.c_lno = L → L = 0 ∨ (1 ≤ L ∧ L ≤ w.exf.db.length) := by
        intro h
        rcases hcache with h1 | h1
        · exact absurd (h.symm.trans h1) hL
        · rw [h] at h1; exact Or.inr h1
      obtain ⟨w1, g, hg, hiff⟩ := db_get_rval env w L
        { DBG_FATAL := false, DBG_NOCACHE := false } hep htin hget hbinc hconvs hc
      rw [hg]
      simp only [hiff]
      exact ⟨_, rfl⟩

/-- C21. `db_exist` agrees with `db_last`: on a bound document without pending
input whose count cache is the sentinel or the record count, with reads that
succeed and records that convert, `db_exist L` is non-zero exactly when
`1 ≤ L ≤ n` for the number `n` that `db_last` reports, for every `L` (0
included), whether the count cache is valid or not, and whether `db_last` is
called instead of `db_exist` or after it. The line cache names the sentinel
or a line of the store; the sentinel is 0 or lies beyond the store, and line
0 is asked about with the sentinel 0. -/
theorem db_exist_agrees_with_db_last (env : Env) (w : World) (L : Nat)
    (hep : w.sp.ep ≠ none) (htin : w.sp.SC_TINPUT = false)
    (hread : reads_ok env)
    (hconvs : ∀ d ∈ w.exf.db, (env.file2int d).1 = false)
    (hcnt : count_coherent env w.exf) (hcache : cache_in_store env w.exf)
    (hoob : oob_outside env w.exf.db.length) (hzero : env.OOBLNO = 0 ∨ L ≠ 0) :
    ∃ w1 r w2 w3 n, db_exist env w L = some (w1, r) ∧
      db_last env w = some (w2, { rval := 0, lno := some n }) ∧
      db_last env w1 = some (w3, { rval := 0, lno := some n }) ∧
      (r ≠ 0 ↔ (1 ≤ L ∧ L ≤ n)) := by
  obtain ⟨w1, hx⟩ := db_exist_value env w L hep htin hread hconvs hcnt hcache hoob hzero
  obtain ⟨w2, hl⟩ := db_last_coherent env w hep htin hread hcnt
  have hf := db_exist_frame env w w1 _ _ hx
  have hep1 : w1.sp.ep ≠ none := by rw [hf.2.2.1]; exact hep
  have htin1 : w1.sp.SC_TINPUT = false := by rw [hf.2.2.2.1]; exact htin
  obtain ⟨w3, hl1⟩ := db_last_coherent env w1 hep1 htin1 hread (count_coherent_of_frame hf hcnt)
  rw [hf.1] at hl1
  refine ⟨w1, _, w2, w3, w.exf.db.length, hx, hl, hl1, ?_⟩
  by_cases hin : 1 ≤ L ∧ L ≤ w.exf.db.length
  · simp [hin]
  · simp [hin]

/-- The value of `db_exist` is 0 or 1 in every state: 1 is its only answer
other than 0. -/
theorem db_exist_bool (env : Env) (w w1 : World) (L r : Nat)
    (h : db_exist env w L = some (w1, r)) : r = 0 ∨ r = 1 := by
  unfold db_exist at h
  cases he : w.sp.ep with
  | none =>
    simp only [he] at h
    exact Or.inr (Prod.mk.inj (Option.some.inj h)).2.symm
  | some e =>
    simp only [he] at h
    by_cases h0 : L = env.OOBLNO
    · rw [if_pos h0] at h
      exact Or.inl (Prod.mk.inj (Option.some.inj h)).2.symm
    · rw [if_neg h0] at h
      by_cases hv : w.exf.c_nlines ≠ env.OOBLNO
      · rw [if_pos hv] at h
        by_cases ht : w.sp.SC_TINPUT = true
        · rw [if_pos ht] at h
          cases h1 : w.sp.tiq.head? with
          | none => simp [h1] at h
          | some t1 =>
            cases h2 : w.sp.tiq.getLast? with
            | none => simp [h1, h2] at h
            | some t2 =>
              simp only [h1, h2] at h
              rw [← (Prod.mk.inj (Option.some.inj h)).2]
              split_ifs
              · exact Or.inr rfl
              · exact Or.inl rfl
        · rw [if_neg ht] at h
          rw [← (Prod.mk.inj (Option.some.inj h)).2]
          split_ifs
          · exact Or.inr rfl
          · exact Or.inl rfl
      · rw [if_neg hv] at h
        cases hg : db_get env w L { DBG_FATAL := false, DBG_NOCACHE := false } with
        | none => simp [hg] at h
        | some g =>
          simp only [hg] at h
          rw [← (Prod.mk.inj (Option.some.inj h)).2]
          split_ifs
          · exact Or.inr rfl
          · exact Or.inl rfl

/-- C21, witness: lines "a", "b", "c" with the line cache on line 2; line 0
with the count cached, and line 4 with the count cache invalid. -/
theorem db_exist_agrees_with_db_last_witness :
    (∃ w1 r w2 w3 n, db_exist env_ok (world_of (exf_of db_abc 2 [98] 3)) 0 = some (w1, r) ∧
      db_last env_ok (world_of (exf_of db_abc 2 [98] 3)) = some (w2, { rval := 0, lno := some n }) ∧
      db_last env_ok w1 = some (w3, { rval := 0, lno := some n }) ∧
      (r ≠ 0 ↔ (1 ≤ 0 ∧ 0 ≤ n))) ∧
    (∃ w1 r w2 w3 n, db_exist env_ok (world_of (exf_of db_abc 2 [98] 0)) 4 = some (w1, r) ∧
      db_last env_ok (world_of (exf_of db_abc 2 [98] 0)) = some (w2, { rval := 0, lno := some n }) ∧
      db_last env_ok w1 = some (w3, { rval := 0, lno := some n }) ∧
      (r ≠ 0 ↔ (1 ≤ 4 ∧ 4 ≤ n))) :=
  ⟨db_exist_agrees_with_db_last env_ok (world_of (exf_of db_abc 2 [98] 3)) 0 (by decide) rfl
      (by decide) (fun _ _ => rfl) (by decide) (by decide) (by decide) (by decide),
    db_exist_agrees_with_db_last env_ok (world_of (exf_of db_abc 2 [98] 0)) 4 (by decide) rfl
      (by decide) (fun _ _ => rfl) (by decide) (by decide) (by decide) (by decide)⟩

/-- Evaluation of `db_exist` and `db_last` on the lines "a", "b", "c": with
the count cached and with the count cache invalid, lines 1 and 3 exist, lines
0 and 4 do not, and `db_last` reports 3. -/
theorem db_exist_examples :
    ((db_exist env_ok (world_of (exf_of db_abc 0 [] 3)) 0).map Prod.snd = some 0 ∧
      (db_exist env_ok (world_of (exf_of db_abc 0 [] 3)) 1).map Prod.snd = some 1 ∧
      (db_exist env_ok (world_of (exf_of db_abc 0 [] 3)) 3).map Prod.snd = some 1 ∧
      (db_exist env_ok (world_of (exf_of db_abc 0 [] 3)) 4).map Prod.snd = some 0 ∧
      (db_last env_ok (world_of (exf_of db_abc 0 [] 3))).map Prod.snd =
        some { rval := 0, lno := some 3 }) ∧
    ((db_exist env_ok (world_of (exf_of db_abc 0 [] 0)) 0).map Prod.snd = some 0 ∧
      (db_exist env_ok (world_of (exf_of db_abc 0 [] 0)) 1).map Prod.snd = some 1 ∧
      (db_exist env_ok (world_of (exf_of db_abc 0 [] 0)) 3).map Prod.snd = some 1 ∧
      (db_exist env_ok (world_of (exf_of db_abc 0 [] 0)) 4).map Prod.snd = some 0 ∧
      (db_last env_ok (world_of (exf_of db_abc 0 [] 0))).map Prod.snd =
        some { rval := 0, lno := some 3 }) := by
  decide

/-- With a sentinel other than 0 and the count cached, `db_exist 0` compares
0 with the count and answers 1: line 0 is refused only through the test
`lno == OOBLNO`. -/
theorem db_exist_zero_other_sentinel :
    (db_exist (env_oob 4294967295) (world_of (exf_of db_abc 4294967295 [] 3)) 0).map Prod.snd =
      some 1 := by
  decide

/-- C22. `db_exist` with no document bound: for every view with no document
and every line `L`, `db_exist L` reports the no-file message, changes nothing
else and returns 1; this is the value it returns for a line `M` that exists in
a bound document `w0` (no pending input, reads succeeding, records
converting, caches naming the sentinel or the store), and 1 is its only
answer other than 0 in any state, so the result does not tell "no document"
from "line exists". -/
theorem db_exist_no_file (env : Env) (w : World) (L : Nat) (w0 : World) (M : Nat)
    (hno : w.sp.ep = none)
    (hep : w0.sp.ep ≠ none) (htin : w0.sp.SC_TINPUT = false)
    (hread : reads_ok env)
    (hconvs : ∀ d ∈ w0.exf.db, (env.file2int d).1 = false)
    (hcnt : count_coherent env w0.exf) (hcache : cache_in_store env w0.exf)
    (hoob : oob_outside env w0.exf.db.length)
    (hline : 1 ≤ M ∧ M ≤ w0.exf.db.length) :
    db_exist env w L = some (w.emit (Event.msgq Msg.EXM_NOFILEYET), 1) ∧
    (∃ w1, db_exist env w0 M = some (w1, 1)) ∧
    (∀ (w2 w3 : World) (K r : Nat), db_exist env w2 K = some (w3, r) → r = 0 ∨ r = 1) := by
  refine ⟨?_, ?_, ?_⟩
  · unfold db_exist
    simp only [hno]
  · obtain ⟨w1, hx⟩ := db_exist_value env w0 M hep htin hread hconvs hcnt hcache hoob
      (Or.inr (by omega))
    rw [if_pos hline] at hx
    exact ⟨w1, hx⟩
  · intro w2 w3 K r h
    exact db_exist_bool env w2 w3 K r h

/-- C22, witness: `db_exist 2` on a screen with no file, and on the lines
"a", "b", "c" with the count cache invalid. -/
theorem db_exist_no_file_witness :
    db_exist env_ok (world_views (scr_vi 1 none) [scr_vi 1 none] (exf_of [] 0 [] 0)) 2 =
      some ({ world_views (scr_vi 1 none) [scr_vi 1 none] (exf_of [] 0 [] 0) with
        trace := [Event.msgq Msg.EXM_NOFILEYET] }, 1) ∧
    ∃ w1, db_exist env_ok (world_of (exf_of db_abc 0 [] 0)) 2 = some (w1, 1) :=
  have h := db_exist_no_file env_ok
    (world_views (scr_vi 1 none) [scr_vi 1 none] (exf_of [] 0 [] 0)) 2
    (world_of (exf_of db_abc 0 [] 0)) 2 rfl (by decide) rfl (by decide) (fun _ _ => rfl)
    (by decide) (by decide) (by decide) (by decide)
  ⟨h.1, h.2.1⟩

end Nvi
